import Mathlib

/-!
# proxydbq: the MySQL protocol-aware relay

A shallow embedding of `src/lib/mysql/*.js`:

* `MysqlPreparedStatement.js`  (binary parameter codec, query reconstruction)
* `MysqlPreparedStatements.js` (the prepared-statement registry)
* `handleStatementPrepareResponse.js` (prepare-response correlator)
* `processMySQLClientData.js`  (frame reader and command dispatcher)

Conventions of the embedding.

* A Node `Buffer` is a list of bytes (`Fin 256`).
* A JavaScript string is a list of Unicode code points (`List Char`).  The only
  string operations the source uses are concatenation, `indexOf` of the ASCII
  character `?` and `substring` at the position `indexOf` returned; on these a
  list of code points and a list of UTF-16 code units behave alike.
* A JavaScript exception is a value of `JsError`; a function that can throw
  returns `Except JsError _`, and a function whose side effects survive the
  throw returns the state reached together with the exception.
* Offsets are natural numbers.  The source keeps them in doubles; the two
  differ only above 2^53, far beyond the length of any buffer, and every use of
  an offset compares it with a buffer length.
-/

namespace ProxyDbq

/-! ## Buffers -/

abbrev Byte := Fin 256

abbrev Buffer := List Byte

abbrev JsString := List Char

/-- The `buf.subarray(start, end)` view: both bounds are clamped to the buffer. -/
def subarray (b : Buffer) (start stop : Nat) : Buffer :=
  (b.take stop).drop start

/-- The `buf.subarray(start)` view. -/
def subarrayFrom (b : Buffer) (start : Nat) : Buffer :=
  b.drop start

/-- Little-endian value of a run of bytes. -/
def leValue : List Byte → Nat
  | [] => 0
  | b :: bs => b.val + 256 * leValue bs

/-- Two's-complement reading of an unsigned value of `bits` bits. -/
def toSigned (bits : Nat) (u : Nat) : Int :=
  if u < 2 ^ (bits - 1) then (u : Int) else (u : Int) - (2 ^ bits : Nat)

/-! ## Values, errors -/

/-- A decoded parameter value, as pushed to `paramValues`. -/
inductive ParamValue where
  /-- JavaScript `null`. -/
  | null
  /-- An integral JavaScript number (`readInt8`, `readInt16LE`, `readInt32LE`). -/
  | number (v : Int)
  /-- A `BigInt` (`readBigUInt64LE`). -/
  | bigint (v : Nat)
  /-- A number read by `readFloatLE` or `readDoubleLE`, kept as its IEEE-754 bytes. -/
  | float (raw : Buffer)
  /-- A JavaScript string. -/
  | string (s : JsString)
  /-- A JavaScript boolean (never produced by the decoder, rendered by `decorateParamValue`). -/
  | boolean (b : Bool)
  deriving DecidableEq, Repr

/-- The exceptions the modelled code can raise. -/
inductive JsError where
  /-- A `RangeError` of a `Buffer` read outside the buffer. -/
  | rangeError
  /-- The error class `InvalidAmountOfPlaceholders` with its `query` and `paramValues`. -/
  | invalidAmountOfPlaceholders (query : JsString) (paramValues : List ParamValue)
  deriving DecidableEq, Repr

deriving instance DecidableEq for Except

/-- The `buf.readUIntLE(offset, byteLength)` call (also `readUInt16LE`, `readUInt32LE`,
`readBigUInt64LE`): throws unless all `byteLength` bytes are inside the buffer. -/
def readUIntLE (b : Buffer) (offset byteLength : Nat) : Except JsError Nat :=
  if offset + byteLength ≤ b.length then
    .ok (leValue ((b.drop offset).take byteLength))
  else
    .error .rangeError

def readUInt8 (b : Buffer) (offset : Nat) : Except JsError Nat :=
  readUIntLE b offset 1

def readUInt16LE (b : Buffer) (offset : Nat) : Except JsError Nat :=
  readUIntLE b offset 2

def readUInt32LE (b : Buffer) (offset : Nat) : Except JsError Nat :=
  readUIntLE b offset 4

def readBigUInt64LE (b : Buffer) (offset : Nat) : Except JsError Nat :=
  readUIntLE b offset 8

/-- The signed reads `readInt8`, `readInt16LE`, `readInt32LE`. -/
def readIntLE (b : Buffer) (offset byteLength : Nat) : Except JsError Int :=
  (readUIntLE b offset byteLength).map (toSigned (8 * byteLength))

def readInt8 (b : Buffer) (offset : Nat) : Except JsError Int :=
  readIntLE b offset 1

def readInt16LE (b : Buffer) (offset : Nat) : Except JsError Int :=
  readIntLE b offset 2

def readInt32LE (b : Buffer) (offset : Nat) : Except JsError Int :=
  readIntLE b offset 4

/-- The `readFloatLE` / `readDoubleLE` calls: the bytes read, undecoded. -/
def readRawLE (b : Buffer) (offset byteLength : Nat) : Except JsError Buffer :=
  if offset + byteLength ≤ b.length then
    .ok ((b.drop offset).take byteLength)
  else
    .error .rangeError

/-! ## Text -/

def replacementChar : Char := Char.ofNat 0xFFFD

/-- Decoder state after a lead byte: code point so far, continuation bytes still
needed, and the admissible range of the next byte. -/
structure Utf8State where
  codePoint : Nat
  needed : Nat
  lower : Nat
  upper : Nat

/-- What a byte does when no sequence is open: the characters emitted and the
sequence opened, if any. -/
def utf8Lead (b : Nat) : List Char × Option Utf8State :=
  if b < 0x80 then ([Char.ofNat b], none)
  else if 0xC2 ≤ b ∧ b ≤ 0xDF then ([], some ⟨b % 0x20, 1, 0x80, 0xBF⟩)
  else if 0xE0 ≤ b ∧ b ≤ 0xEF then
    ([], some ⟨b % 0x10, 2, if b = 0xE0 then 0xA0 else 0x80, if b = 0xED then 0x9F else 0xBF⟩)
  else if 0xF0 ≤ b ∧ b ≤ 0xF4 then
    ([], some ⟨b % 0x08, 3, if b = 0xF0 then 0x90 else 0x80, if b = 0xF4 then 0x8F else 0xBF⟩)
  else ([replacementChar], none)

/-- The replacement-character UTF-8 decoder behind `buf.toString(utf8)`: an
ill-formed sequence yields U+FFFD and the offending byte is decoded afresh. -/
def utf8Go : Option Utf8State → List Byte → List Char
  | none, [] => []
  | some _, [] => [replacementChar]
  | none, b :: rest => (utf8Lead b.val).1 ++ utf8Go (utf8Lead b.val).2 rest
  | some st, b :: rest =>
    if st.lower ≤ b.val ∧ b.val ≤ st.upper then
      if st.needed ≤ 1 then
        Char.ofNat (st.codePoint * 64 + b.val % 64) :: utf8Go none rest
      else
        utf8Go (some ⟨st.codePoint * 64 + b.val % 64, st.needed - 1, 0x80, 0xBF⟩) rest
    else
      replacementChar :: ((utf8Lead b.val).1 ++ utf8Go (utf8Lead b.val).2 rest)

/-- The `buf.toString(utf8)` call. -/
def utf8Decode (b : Buffer) : JsString :=
  utf8Go none b

/-- The `buf.toString(hex)` call: two lowercase digits per byte. -/
def toHex : Buffer → JsString
  | [] => []
  | b :: bs => Nat.digitChar (b.val / 16) :: Nat.digitChar (b.val % 16) :: toHex bs

/-- Decimal text of an integral number or `BigInt`, as string concatenation renders it. -/
def intToString : Int → JsString
  | Int.ofNat n => Nat.toDigits 10 n
  | Int.negSucc n => '-' :: Nat.toDigits 10 (n + 1)

/-! ## `MysqlPreparedStatement.js` -/

def MYSQL_TYPE_TINY : Nat := 0x01
def MYSQL_TYPE_SHORT : Nat := 0x02
def MYSQL_TYPE_LONG : Nat := 0x03
def MYSQL_TYPE_FLOAT : Nat := 0x04
def MYSQL_TYPE_DOUBLE : Nat := 0x05
def MYSQL_TYPE_TIMESTAMP : Nat := 0x07
def MYSQL_TYPE_LONGLONG : Nat := 0x08
def MYSQL_TYPE_INT24 : Nat := 0x09
def MYSQL_TYPE_DATE : Nat := 0x0A
def MYSQL_TYPE_TIME : Nat := 0x0B
def MYSQL_TYPE_DATETIME : Nat := 0x0C
def MYSQL_TYPE_VARCHAR : Nat := 0x0F
def MYSQL_TYPE_BLOB : Nat := 0xFC
def MYSQL_TYPE_VAR_STRING : Nat := 0xFD
def MYSQL_TYPE_STRING : Nat := 0xFE

/-- The fields of a `MysqlPreparedStatement` object; `none` is `undefined`.
`date` is the creation time in milliseconds. -/
structure MysqlPreparedStatement where
  date : Nat
  statementId : Nat
  paramCount : Nat
  flags : Option Nat := none
  iterationCount : Option Nat := none
  newParamsBoundFlag : Option Nat := none
  paramTypes : Option (List Nat) := none
  paramValues : Option (List ParamValue) := none
  paramValuesRaw : Option JsString := none
  nullBitmap : Option JsString := none
  rawData : Option JsString := none
  error : Option JsError := none
  payload : Buffer
  clientId : JsString
  sequenceId : Nat
  commandByte : Nat
  query : JsString
  deriving DecidableEq, Repr

/-- The first loop of `setExecuteStatementQuery`: `count` type tags of two bytes
each, read from `offset`; returns the tags and the offset after them. -/
def readParamTypes (payload : Buffer) : Nat → Nat → Except JsError (List Nat × Nat)
  | 0, offset => .ok ([], offset)
  | count + 1, offset =>
    match readUInt16LE payload offset with
    | .error e => .error e
    | .ok paramType =>
      match readParamTypes payload count (offset + 2) with
      | .error e => .error e
      | .ok (paramTypes, stop) => .ok (paramType :: paramTypes, stop)

/-- A length-prefixed text value: the bytes `payload.subarray(offset, offset + len)`
decoded as text, and the offset after them. -/
def readText (payload : Buffer) (offset len : Nat) : ParamValue × Nat :=
  (.string (utf8Decode (subarray payload offset (offset + len))), offset + len)

/-- A length-prefixed raw span rendered as hex with the `0x` lead. -/
def readHex (payload : Buffer) (offset len : Nat) : ParamValue × Nat :=
  (.string ('0' :: 'x' :: toHex (subarray payload offset (offset + len))), offset + len)

/-- The cases of `switch (paramType & 0xFF)` in `setExecuteStatementQuery`, for the
low byte `tag` of the type: decodes the value of one non-null parameter at
`offset`; returns it with the advanced offset. -/
def readTagged (payload : Buffer) (tag offset : Nat) : Except JsError (ParamValue × Nat) :=
  if tag = MYSQL_TYPE_TINY then
    (readInt8 payload offset).map fun v => (.number v, offset + 1)
  else if tag = MYSQL_TYPE_SHORT then
    (readInt16LE payload offset).map fun v => (.number v, offset + 2)
  else if tag = MYSQL_TYPE_LONG ∨ tag = MYSQL_TYPE_INT24 then
    (readInt32LE payload offset).map fun v => (.number v, offset + 4)
  else if tag = MYSQL_TYPE_LONGLONG then
    (readBigUInt64LE payload offset).map fun v => (.bigint v, offset + 8)
  else if tag = MYSQL_TYPE_FLOAT then
    (readRawLE payload offset 4).map fun v => (.float v, offset + 4)
  else if tag = MYSQL_TYPE_DOUBLE then
    (readRawLE payload offset 8).map fun v => (.float v, offset + 8)
  else if tag = MYSQL_TYPE_STRING ∨ tag = MYSQL_TYPE_VARCHAR ∨ tag = MYSQL_TYPE_VAR_STRING
      ∨ tag = MYSQL_TYPE_BLOB then
    match readUInt8 payload offset with
    | .error e => .error e
    | .ok strLen =>
      if strLen < 251 then
        .ok (readText payload (offset + 1) strLen)
      else if strLen = 252 then
        (readUInt16LE payload (offset + 1)).map fun len => readText payload (offset + 1 + 2) len
      else if strLen = 253 then
        (readUInt32LE payload (offset + 1)).map fun len =>
          readText payload (offset + 1 + 3) (len % 0x1000000)
      else
        (readBigUInt64LE payload (offset + 1)).map fun len => readText payload (offset + 1 + 8) len
  else if tag = MYSQL_TYPE_DATE ∨ tag = MYSQL_TYPE_DATETIME ∨ tag = MYSQL_TYPE_TIMESTAMP then
    (readUInt8 payload offset).map fun dateLen => readHex payload (offset + 1) dateLen
  else if tag = MYSQL_TYPE_TIME then
    (readUInt8 payload offset).map fun timeLen => readHex payload (offset + 1) timeLen
  else
    .ok (readHex payload offset 8)

/-- The `switch (paramType & 0xFF)` of `setExecuteStatementQuery`. -/
def readParamValue (payload : Buffer) (paramType offset : Nat) :
    Except JsError (ParamValue × Nat) :=
  readTagged payload (paramType % 256) offset

/-- The test `(nullBitmap[bytePos] & (1 << bitPos)) !== 0` for parameter `i`; a
byte position outside the bitmap reads `undefined`, which `&` turns into 0. -/
def isNull (nullBitmap : Buffer) (i : Nat) : Bool :=
  let bytePos := i / 8
  let bitPos := i % 8
  let byte := match nullBitmap[bytePos]? with
    | some b => b.val
    | none => 0
  (byte &&& (1 <<< bitPos)) != 0

/-- The second loop of `setExecuteStatementQuery`: the values of parameters
`i, i + 1, ..., i + count - 1`, read back to back from `offset`. -/
def readParamValues (payload nullBitmap : Buffer) (paramTypes : List Nat) :
    Nat → Nat → Nat → Except JsError (List ParamValue)
  | 0, _, _ => .ok []
  | count + 1, i, offset =>
    if isNull nullBitmap i then
      match readParamValues payload nullBitmap paramTypes count (i + 1) offset with
      | .error e => .error e
      | .ok values => .ok (.null :: values)
    else
      match readParamValue payload ((paramTypes[i]?).getD 0) offset with
      | .error e => .error e
      | .ok (value, next) =>
        match readParamValues payload nullBitmap paramTypes count (i + 1) next with
        | .error e => .error e
        | .ok values => .ok (value :: values)

/-- The body of the `try` block of `setExecuteStatementQuery`; an exception raised
inside is caught and stored in `error`, the fields assigned before it stay. -/
def setExecuteStatementQueryTry (st : MysqlPreparedStatement) (payload : Buffer)
    (flags iterationCount : Nat) : MysqlPreparedStatement :=
  if st.paramCount > 0 then
    let st := { st with flags := some flags, iterationCount := some iterationCount }
    let paramCount := st.paramCount
    let nullBitmapBytes := (paramCount + 7) / 8
    let nullBitmap := subarray payload 10 (10 + nullBitmapBytes)
    let newParamsBoundFlagOffset := 10 + nullBitmapBytes
    match readUInt8 payload newParamsBoundFlagOffset with
    | .error e => { st with error := some e }
    | .ok newParamsBoundFlag =>
      let st := { st with newParamsBoundFlag := some newParamsBoundFlag }
      if newParamsBoundFlag = 1 then
        match readParamTypes payload paramCount (newParamsBoundFlagOffset + 1) with
        | .error e => { st with error := some e }
        | .ok (paramTypes, offset) =>
          let st := { st with paramTypes := some paramTypes }
          match readParamValues payload nullBitmap paramTypes paramCount 0 offset with
          | .error e => { st with error := some e }
          | .ok paramValues =>
            { st with
              paramValues := some paramValues
              paramValuesRaw :=
                some (toHex (subarrayFrom payload (newParamsBoundFlagOffset + 1 + paramCount * 2)))
              nullBitmap := some (toHex nullBitmap) }
      else
        { st with nullBitmap := some (toHex nullBitmap) }
  else
    { st with rawData := some (toHex (subarrayFrom payload 1)) }

/-- The method `setExecuteStatementQuery(payload)`: the statement after the call, or
the exception that escapes it (the two header reads stand before the `try`). -/
def setExecuteStatementQuery (st : MysqlPreparedStatement) (payload : Buffer) :
    Except JsError MysqlPreparedStatement :=
  match readUInt8 payload 5 with
  | .error e => .error e
  | .ok flags =>
    match readUInt32LE payload 6 with
    | .error e => .error e
    | .ok iterationCount => .ok (setExecuteStatementQueryTry st payload flags iterationCount)

def dquote : Char := Char.ofNat 0x22

/-- The method `decorateParamValue(value)` followed by the conversion to text that
the concatenation in `getQueryWithParameters` applies to its result.  `fmt` is the
JavaScript number-to-text conversion of a floating-point value. -/
def decorateParamValue (fmt : Buffer → JsString) : ParamValue → JsString
  | .string s => dquote :: s ++ [dquote]
  | .null => ['N', 'U', 'L', 'L']
  | .boolean true => ['T', 'R', 'U', 'E']
  | .boolean false => ['F', 'A', 'L', 'S', 'E']
  | .number v => intToString v
  | .bigint v => Nat.toDigits 10 v
  | .float raw => fmt raw

/-- The call `query.indexOf(c)`; `none` is the result -1. -/
def indexOf (c : Char) : JsString → Option Nat
  | [] => none
  | x :: xs => if x = c then some 0 else (indexOf c xs).map (· + 1)

/-- The `for` loop of `getQueryWithParameters` over the decorated values still to
be substituted; `original` and `allValues` only feed the exception. -/
def substituteParams (original : JsString) (allValues : List ParamValue) :
    List JsString → JsString → Except JsError JsString
  | [], query => .ok query
  | value :: values, query =>
    match indexOf '?' query with
    | none => .error (.invalidAmountOfPlaceholders original allValues)
    | some placeholderPos =>
      substituteParams original allValues values
        (query.take placeholderPos ++ value ++ query.drop (placeholderPos + 1))

/-- The method `getQueryWithParameters()`. -/
def getQueryWithParameters (fmt : Buffer → JsString) (st : MysqlPreparedStatement) :
    Except JsError JsString :=
  match st.paramValues with
  | none => .ok st.query
  | some paramValues =>
    substituteParams st.query paramValues (paramValues.map (decorateParamValue fmt)) st.query

/-! ## `MysqlPreparedStatements.js` -/

/-- The private `Map` of the registry, in insertion order, keys unique. -/
abbrev Store := List (Nat × MysqlPreparedStatement)

/-- The call `store.set(key, value)`: a present key keeps its place. -/
def Store.set : Store → Nat → MysqlPreparedStatement → Store
  | [], key, value => [(key, value)]
  | (k, v) :: rest, key, value =>
    if k = key then (key, value) :: rest else (k, v) :: Store.set rest key value

def addStatement (store : Store) (statementId : Nat) (statement : MysqlPreparedStatement) :
    Store :=
  store.set statementId statement

def deleteStatement (store : Store) (statementId : Nat) : Store :=
  store.filter fun entry => entry.1 ≠ statementId

def getStatement (store : Store) (statementId : Nat) : Option MysqlPreparedStatement :=
  store.lookup statementId

/-! ## Constants of `mysqlProxyServer.js` -/

def COM_QUIT : Nat := 0x01
def COM_INIT_DB : Nat := 0x02
def COM_QUERY : Nat := 0x03
def COM_FIELD_LIST : Nat := 0x04
def COM_CREATE_DB : Nat := 0x05
def COM_DROP_DB : Nat := 0x06
def COM_REFRESH : Nat := 0x07
def COM_STATISTICS : Nat := 0x09
def COM_PROCESS_INFO : Nat := 0x0a
def COM_CONNECT : Nat := 0x0b
def COM_PROCESS_KILL : Nat := 0x0c
def COM_DEBUG : Nat := 0x0d
def COM_PING : Nat := 0x0e
def COM_CHANGE_USER : Nat := 0x11
def COM_RESET_CONNECTION : Nat := 0x1f
def COM_SET_OPTION : Nat := 0x1b
def COM_STMT_PREPARE : Nat := 0x16
def COM_STMT_EXECUTE : Nat := 0x17
def COM_LONG_DATA : Nat := 0x18

def DB_SOCKET_NOT_WRITABLE : Nat := 1
def CLIENT_SOCKET_NOT_WRITABLE : Nat := 2

/-! ## Session state -/

/-- The object stored by `setLastClientCommand`. -/
structure ClientCommand where
  payload : Buffer
  clientId : JsString
  sequenceId : Nat
  commandByte : Nat
  query : JsString
  deriving DecidableEq, Repr

/-- The optional last property of a non-query log record. -/
inductive LogExtra where
  | absent
  /-- The property `dbName`: a text, or `null` when the payload is the command byte alone. -/
  | dbName (name : Option JsString)
  /-- The property `data` of the record of an unknown command. -/
  | data (text : JsString)
  deriving DecidableEq, Repr

/-- What is passed to the `log` callback. -/
inductive LogRecord where
  /-- An instance `new QueryLogMessage(commandByte, query)`. -/
  | queryLogMessage (commandByte : Nat) (query : JsString)
  /-- A plain object `{ payload, clientId, sequenceId, commandByte, message, ... }`. -/
  | command (payload : Buffer) (clientId : JsString) (sequenceId commandByte : Nat)
      (message : JsString) (extra : LogExtra)
  /-- A plain line of text. -/
  | text (line : JsString)
  deriving DecidableEq, Repr

/-- What is passed to the `error` callback. -/
inductive ErrorRecord where
  /-- The object `{ code, payload, clientId, sequenceId, message }` of `processMySQLClientData`. -/
  | packet (code : Nat) (payload : Buffer) (clientId : JsString) (sequenceId : Nat)
      (message : JsString)
  /-- The object `{ code, clientId, data, message }` of the server `data` handler. -/
  | response (code : Nat) (clientId : JsString) (data : Buffer) (message : JsString)
  deriving DecidableEq, Repr

/-- Lines written to the console, which are no log records. -/
inductive ConsoleLine where
  /-- The `console.error` line saying the prepared statement does not exist. -/
  | statementDoesNotExist (statementId : Nat)
  /-- The `console.log` line of `COM_LONG_DATA`. -/
  | longDataTodo (payload : Buffer)
  /-- The `console.error` line saying the server socket is not writable. -/
  | serverSocketNotWritable
  /-- The `console.error` line saying the client socket is not writable. -/
  | clientSocketNotWritable
  deriving DecidableEq, Repr

/-- Everything `processMySQLClientData` reads or changes: the variables behind
its injected accessors, the shared registry, both sockets and the sinks. -/
structure Session where
  clientBuffer : Buffer := []
  lastClientCommand : Option ClientCommand := none
  store : Store := []
  /-- The property `serverSocket.writable`. -/
  serverWritable : Bool := true
  /-- The arguments of the `serverSocket.write` calls so far. -/
  written : List Buffer := []
  logs : List LogRecord := []
  errors : List ErrorRecord := []
  console : List ConsoleLine := []
  /-- The arguments of the `storeAuthPacket` calls so far. -/
  authPackets : List Buffer := []
  clientSocketEnded : Bool := false
  serverSocketEnded : Bool := false
  deriving DecidableEq, Repr

/-- The injected dependencies that are plain values. -/
structure Deps where
  clientId : JsString
  logNonQueries : Bool
  /-- Whether a `storeAuthPacket` function was injected. -/
  hasStoreAuthPacket : Bool
  /-- Number-to-text conversion of floating-point values, see `decorateParamValue`. -/
  fmt : Buffer → JsString

def knownCommands : List Nat :=
  [COM_QUIT, COM_INIT_DB, COM_QUERY, COM_FIELD_LIST, COM_CREATE_DB,
   COM_DROP_DB, COM_REFRESH, COM_STATISTICS, COM_PROCESS_INFO, COM_CONNECT,
   COM_PROCESS_KILL, COM_DEBUG, COM_PING, COM_CHANGE_USER, COM_RESET_CONNECTION,
   COM_SET_OPTION, COM_STMT_PREPARE, COM_STMT_EXECUTE, COM_LONG_DATA]

/-- How a call ended. -/
inductive Status where
  | returned
  | threw (e : JsError)
  /-- The model ran out of loop iterations (never the case, see `clientLoop_fuel`). -/
  | outOfFuel
  deriving DecidableEq, Repr

/-- The state a call leaves and how the call ended. -/
structure Outcome where
  session : Session
  status : Status
  deriving DecidableEq, Repr

/-! ## `processMySQLClientData.js` -/

/-- The `try` block that looks for the handshake response and hands a copy of the
packet to `storeAuthPacket`. -/
def detectAuthPacket (d : Deps) (s : Session) (currentPacket payload : Buffer)
    (sequenceId commandByte : Nat) : Session :=
  if d.hasStoreAuthPacket then
    let isKnownCommand := knownCommands.contains commandByte
    if !isKnownCommand ∧ sequenceId = 1 ∧ payload.length ≥ 32 then
      { s with authPackets := s.authPackets ++ [currentPacket] }
    else s
  else s

/-- The `case COM_STMT_EXECUTE` block.  The statement object lives in the registry,
so what `setExecuteStatementQuery` assigns is written back before anything else. -/
def executeCase (d : Deps) (s : Session) (payload : Buffer) : Session × Option JsError :=
  match readUInt32LE payload 1 with
  | .error e => (s, some e)
  | .ok statementId =>
    match getStatement s.store statementId with
    | none => ({ s with console := s.console ++ [.statementDoesNotExist statementId] }, none)
    | some statement =>
      match setExecuteStatementQuery statement payload with
      | .error e => (s, some e)
      | .ok statement =>
        let s := { s with store := s.store.set statementId statement }
        match getQueryWithParameters d.fmt statement with
        | .error e => (s, some e)
        | .ok query =>
          ({ s with
             logs := s.logs ++ [.queryLogMessage COM_STMT_EXECUTE query]
             store := deleteStatement s.store statementId }, none)

/-- The `switch (commandByte)` of the `else if (logNonQueries)` branch: the record logged. -/
def nonQueryRecord (d : Deps) (payload : Buffer) (sequenceId commandByte : Nat) : LogRecord :=
  let dbName : LogExtra :=
    .dbName (if payload.length > 1 then some (utf8Decode (subarrayFrom payload 1)) else none)
  let plain (message : String) : LogRecord :=
    .command payload d.clientId sequenceId commandByte message.toList .absent
  if commandByte = COM_INIT_DB then
    .command payload d.clientId sequenceId commandByte "Client selected database".toList dbName
  else if commandByte = COM_QUIT then plain "Client sent COM_QUIT"
  else if commandByte = COM_PING then plain "Client sent COM_PING"
  else if commandByte = COM_FIELD_LIST then plain "Client sent COM_FIELD_LIST"
  else if commandByte = COM_CREATE_DB then
    .command payload d.clientId sequenceId commandByte "Client creating database".toList dbName
  else if commandByte = COM_DROP_DB then
    .command payload d.clientId sequenceId commandByte "Client dropping database".toList dbName
  else if commandByte = COM_REFRESH then plain "Client sent COM_REFRESH"
  else if commandByte = COM_STATISTICS then plain "Client sent COM_STATISTICS"
  else if commandByte = COM_PROCESS_INFO then plain "Client sent COM_PROCESS_INFO"
  else if commandByte = COM_CONNECT then plain "Client sent COM_CONNECT"
  else if commandByte = COM_PROCESS_KILL then plain "Client sent COM_PROCESS_KILL"
  else if commandByte = COM_DEBUG then plain "Client sent COM_DEBUG"
  else if commandByte = COM_CHANGE_USER then plain "Client sent COM_CHANGE_USER"
  else if commandByte = COM_RESET_CONNECTION then plain "Client sent COM_RESET_CONNECTION"
  else if commandByte = COM_SET_OPTION then plain "Client sent COM_SET_OPTION"
  else
    .command payload d.clientId sequenceId commandByte "Unknown command".toList
      (.data (utf8Decode (subarrayFrom payload 1)))

/-- The classification of one complete packet: the `if (payload.length > 0)` block
of the loop body.  Returns the state reached and the exception raised, if any. -/
def classify (d : Deps) (s : Session) (currentPacket payload : Buffer) (sequenceId : Nat) :
    Session × Option JsError :=
  match payload with
  | [] => (s, none)
  | first :: _ =>
    let commandByte := first.val
    let s := detectAuthPacket d s currentPacket payload sequenceId commandByte
    if commandByte = COM_QUERY ∨ commandByte = COM_STMT_PREPARE ∨
        commandByte = COM_STMT_EXECUTE ∨ commandByte = COM_LONG_DATA then
      if payload.length > 1 then
        if commandByte = COM_QUERY then
          ({ s with
             logs := s.logs ++ [.queryLogMessage COM_QUERY (utf8Decode (subarrayFrom payload 1))] },
           none)
        else if commandByte = COM_STMT_PREPARE then
          ({ s with
             lastClientCommand := some
               { payload := payload
                 clientId := d.clientId
                 sequenceId := sequenceId
                 commandByte := commandByte
                 query := utf8Decode (subarrayFrom payload 1) } }, none)
        else if commandByte = COM_STMT_EXECUTE then
          executeCase d s payload
        else
          ({ s with console := s.console ++ [.longDataTodo payload] }, none)
      else (s, none)
    else if d.logNonQueries then
      ({ s with logs := s.logs ++ [nonQueryRecord d payload sequenceId commandByte] }, none)
    else (s, none)

/-- The `else` branch taken when the server socket is not writable. -/
def notWritable (d : Deps) (s : Session) (payload : Buffer) (sequenceId : Nat) : Session :=
  { s with
    console := s.console ++ [.serverSocketNotWritable]
    errors := s.errors ++
      [.packet DB_SOCKET_NOT_WRITABLE payload d.clientId sequenceId
         "MySQL socket not writable. Cannot forward packet.".toList]
    clientSocketEnded := true
    serverSocketEnded := true
    serverWritable := false }

/-- The `while (clientBuffer.length >= 4)` loop, one iteration per unit of fuel.
Both header reads are inside the buffer, which holds at least four bytes. -/
def clientLoop (d : Deps) : Nat → Session → Outcome
  | 0, s => ⟨s, .outOfFuel⟩
  | fuel + 1, s =>
    let clientBuffer := s.clientBuffer
    if clientBuffer.length ≥ 4 then
      let payloadLength := leValue (clientBuffer.take 3)
      let sequenceId := leValue ((clientBuffer.drop 3).take 1)
      let totalPacketLength := 4 + payloadLength
      if clientBuffer.length < totalPacketLength then
        ⟨s, .returned⟩
      else
        let currentPacket := subarray clientBuffer 0 totalPacketLength
        let payload := subarrayFrom currentPacket 4
        match classify d s currentPacket payload sequenceId with
        | (s, some e) => ⟨s, .threw e⟩
        | (s, none) =>
          if s.serverWritable then
            clientLoop d fuel
              { s with
                written := s.written ++ [currentPacket]
                clientBuffer := subarrayFrom clientBuffer totalPacketLength }
          else
            ⟨notWritable d s payload sequenceId, .returned⟩
    else
      ⟨s, .returned⟩

/-- The function `processMySQLClientData(dataChunk)`.  Every iteration that goes on
drops at least four bytes, so a quarter of the buffer length, plus the last test
of the loop condition, is fuel enough. -/
def processMySQLClientData (d : Deps) (s : Session) (dataChunk : Buffer) : Outcome :=
  let clientBuffer := s.clientBuffer ++ dataChunk
  clientLoop d (clientBuffer.length / 4 + 1) { s with clientBuffer := clientBuffer }

/-- Successive `data` events of the client socket once the upstream is connected:
each chunk is handed to `processMySQLClientData`; an exception ends the run. -/
def feed (d : Deps) : Session → List Buffer → Outcome
  | s, [] => ⟨s, .returned⟩
  | s, chunk :: chunks =>
    match processMySQLClientData d s chunk with
    | ⟨s, .returned⟩ => feed d s chunks
    | out => out

/-! ## `handleStatementPrepareResponse.js` -/

/-- What `handleStatementPrepareResponse` returns, with the registry it leaves.
When `status` is `threw` nothing was returned and only `store` is meaningful. -/
structure PrepareOutcome where
  serverResponseBuffer : Buffer
  lastClientCommand : Option ClientCommand
  lastStatementId : Option Nat
  store : Store
  status : Status
  deriving DecidableEq, Repr

/-- The statement built from an acknowledgement and the pending command. -/
def newStatement (now : Nat) (cmd : ClientCommand) (statementId paramCount : Nat) :
    MysqlPreparedStatement :=
  { date := now
    statementId := statementId
    paramCount := paramCount
    payload := cmd.payload
    clientId := cmd.clientId
    sequenceId := cmd.sequenceId
    commandByte := cmd.commandByte
    query := cmd.query }

/-- The `while (serverResponseBuffer.length >= 4)` loop and the reset after it.
`payload[0]` of an empty payload is `undefined`, which is not `0x00`. -/
def prepareLoop (now : Nat) (cmd : ClientCommand) :
    Nat → Buffer → Option Nat → Store → PrepareOutcome
  | 0, buffer, lastStatementId, store => ⟨buffer, some cmd, lastStatementId, store, .outOfFuel⟩
  | fuel + 1, buffer, lastStatementId, store =>
    let finish : PrepareOutcome :=
      if buffer.length = 0 then ⟨buffer, none, none, store, .returned⟩
      else ⟨buffer, some cmd, lastStatementId, store, .returned⟩
    if buffer.length ≥ 4 then
      let packetLength := leValue (buffer.take 3)
      let totalPacketLength := packetLength + 4
      if buffer.length < totalPacketLength then
        finish
      else
        let packet := subarray buffer 0 totalPacketLength
        let payload := subarrayFrom packet 4
        if payload.head? = some 0x00 then
          match readUInt32LE payload 1 with
          | .error e => ⟨buffer, some cmd, lastStatementId, store, .threw e⟩
          | .ok statementId =>
            match readUInt16LE payload 7 with
            | .error e => ⟨buffer, some cmd, lastStatementId, store, .threw e⟩
            | .ok paramCount =>
              prepareLoop now cmd fuel (subarrayFrom buffer totalPacketLength) (some statementId)
                (addStatement store statementId (newStatement now cmd statementId paramCount))
        else
          prepareLoop now cmd fuel (subarrayFrom buffer totalPacketLength) lastStatementId store
    else
      finish

/-- The function `handleStatementPrepareResponse(opts)`; `now` is the clock read by
the constructor of a new statement. -/
def handleStatementPrepareResponse (now : Nat) (data serverResponseBuffer : Buffer)
    (lastClientCommand : Option ClientCommand) (lastStatementId : Option Nat) (store : Store) :
    PrepareOutcome :=
  match lastClientCommand with
  | none => ⟨serverResponseBuffer, lastClientCommand, lastStatementId, store, .returned⟩
  | some cmd =>
    if cmd.commandByte = COM_STMT_PREPARE then
      let buffer := serverResponseBuffer ++ data
      prepareLoop now cmd (buffer.length / 4 + 1) buffer lastStatementId store
    else
      ⟨serverResponseBuffer, lastClientCommand, lastStatementId, store, .returned⟩

/-! ## The connection handler of `mysqlProxyServer.js` -/

/-- One accepted client connection: the state of `processMySQLClientData` and the
variables of the server `data` handler. -/
structure Connection where
  session : Session := {}
  serverResponseBuffer : Buffer := []
  lastStatementId : Option Nat := none
  /-- The property `clientSocket.writable`. -/
  clientWritable : Bool := true
  /-- The arguments of the `clientSocket.write` calls so far. -/
  toClient : List Buffer := []
  /-- The variable `serverConnected`. -/
  serverConnected : Bool := false
  deriving DecidableEq, Repr

/-- The handler `serverSocket.on(data, ...)`. -/
def onServerData (d : Deps) (now : Nat) (c : Connection) (data : Buffer) : Connection × Status :=
  if c.clientWritable then
    let c := { c with toClient := c.toClient ++ [data] }
    let out := handleStatementPrepareResponse now data c.serverResponseBuffer
      c.session.lastClientCommand c.lastStatementId c.session.store
    match out.status with
    | .returned =>
      ({ c with
         serverResponseBuffer := out.serverResponseBuffer
         lastStatementId := out.lastStatementId
         session := { c.session with
           lastClientCommand := out.lastClientCommand
           store := out.store } }, .returned)
    | status => ({ c with session := { c.session with store := out.store } }, status)
  else
    ({ c with
       session := { c.session with
         console := c.session.console ++ [.clientSocketNotWritable]
         errors := c.session.errors ++
           [.response CLIENT_SOCKET_NOT_WRITABLE d.clientId data
              "Client socket not writable for MySQL response.".toList]
         serverSocketEnded := true
         serverWritable := false } }, .returned)

/-- The handler `clientSocket.on(data, ...)` once the upstream is connected. -/
def onClientData (d : Deps) (c : Connection) (data : Buffer) : Connection × Status :=
  let out := processMySQLClientData d c.session data
  ({ c with session := out.session }, out.status)

/-- The handler `clientSocket.on(data, ...)` in full: until the upstream is
connected the bytes are only appended to `clientBuffer`. -/
def onClientSocketData (d : Deps) (c : Connection) (data : Buffer) : Connection × Status :=
  if !c.serverConnected then
    ({ c with session := { c.session with clientBuffer := c.session.clientBuffer ++ data } },
      .returned)
  else onClientData d c data

/-- The callback of `serverSocket.connect`; `hostPortKey` is the text
`dbHost:dbPort`.  The variable `clientBuffer` that is handed over as the chunk is
the accumulator `processMySQLClientData` reads through `getClientBuffer`; the
assignment of the empty buffer after the call is skipped by an exception. -/
def onServerConnected (d : Deps) (hostPortKey : JsString) (c : Connection) :
    Connection × Status :=
  let logs :=
    if d.logNonQueries then
      c.session.logs ++ [.text (d.clientId ++ " Successfully connected to MySQL server ".toList
        ++ hostPortKey ++ ".".toList)]
    else c.session.logs
  let c := { c with session := { c.session with logs := logs }, serverConnected := true }
  if c.session.clientBuffer.length > 0 then
    let out := processMySQLClientData d c.session c.session.clientBuffer
    match out.status with
    | .returned => ({ c with session := { out.session with clientBuffer := [] } }, .returned)
    | status => ({ c with session := out.session }, status)
  else (c, .returned)


/-! ## Reference substitution -/

/-- Left-to-right substitution, the reading of the specification: each `?` of the
template, in order, is replaced by the next value; once the values run out the
remaining placeholders stay. -/
def substituteReference : JsString → List JsString → JsString
  | [], _ => []
  | c :: cs, [] => c :: substituteReference cs []
  | c :: cs, v :: vs =>
    if c = '?' then v ++ substituteReference cs vs else c :: substituteReference cs (v :: vs)

/-! ## Vocabulary of the statements -/

/-- A non-null decoded value of a supported type (integer, 64-bit integer, string)
whose text, for a string, holds no `?`. -/
def ParamValue.isPlainScalar : ParamValue → Prop
  | .number _ => True
  | .bigint _ => True
  | .string s => '?' ∉ s
  | _ => False

/-- A statement as the correlator registers it, for a template given as text. -/
def statementOf (query : String) (statementId paramCount : Nat) : MysqlPreparedStatement :=
  newStatement 0 ⟨[], [], 0, COM_STMT_PREPARE, query.toList⟩ statementId paramCount

/-- A statement with the given template and the given decoded values. -/
def statementWith (query : String) (values : List ParamValue) : MysqlPreparedStatement :=
  { statementOf query 1 values.length with paramValues := some values }

/-- No floating-point text is needed where no floating-point value occurs. -/
def noFloat : Buffer → JsString := fun _ => []

/-- The byte holding the low eight bits of a number. -/
def byteOf (n : Nat) : Byte := ⟨n % 256, Nat.mod_lt n (by decide)⟩

/-- A client-direction frame on the wire: the payload length in three bytes, least
significant first, the sequence id, then the payload. -/
def encodeFrame (sequenceId : Byte) (payload : Buffer) : Buffer :=
  byteOf payload.length :: byteOf (payload.length / 256) :: byteOf (payload.length / 65536) ::
    sequenceId :: payload

/-- A client-direction frame: its sequence id and its payload. -/
structure Frame where
  sequenceId : Byte
  payload : Buffer
  deriving DecidableEq, Repr

def Frame.encode (f : Frame) : Buffer := encodeFrame f.sequenceId f.payload

/-- The frame is expressible on the wire: its payload length fits three bytes. -/
def Frame.valid (f : Frame) : Prop := f.payload.length < 2 ^ 24

instance (f : Frame) : Decidable f.valid := by
  unfold Frame.valid
  infer_instance

/-- The sample dependencies: non-query logging on, an archiver injected. -/
def sampleDeps : Deps := ⟨"[MySQL][client]".toList, true, true, noFloat⟩

/-- The bytes of a sequence of frames, one after the other. -/
def encodeFrames : List Frame → Buffer
  | [] => []
  | f :: fs => f.encode ++ encodeFrames fs

/-- A buffer the loop leaves alone: no header yet, or a header whose payload is
not yet all there. -/
def Incomplete (b : Buffer) : Prop :=
  b.length < 4 ∨ b.length < 4 + leValue (b.take 3)

/-- The bytes of a text made of ASCII characters. -/
def asciiBytes (text : String) : Buffer := text.toList.map fun c => byteOf c.toNat

/-- A 16-bit value on the wire, least significant byte first. -/
def u16le (n : Nat) : Buffer := [byteOf n, byteOf (n / 256)]

/-- A 32-bit value on the wire, least significant byte first. -/
def u32le (n : Nat) : Buffer :=
  [byteOf n, byteOf (n / 256), byteOf (n / 65536), byteOf (n / 16777216)]

/-- A signed 32-bit value on the wire, in two's complement. -/
def i32le (v : Int) : Buffer := u32le (v % 4294967296).toNat

/-- The payload of a `COM_STMT_PREPARE` command for a template of ASCII text. -/
def preparePayload (template : String) : Buffer := 0x16 :: asciiBytes template

/-- The payload of the acknowledgement of a prepare: `0x00`, the statement id, the
column count, the parameter count, a reserved byte and the warning count. -/
def ackPayload (statementId numColumns paramCount warningCount : Nat) : Buffer :=
  0x00 :: (u32le statementId ++ u16le numColumns ++ u16le paramCount ++ [0x00] ++
    u16le warningCount)

/-- The payload of an execute of a statement with the two parameters of the
scenario: command byte, statement id, flags, iteration count 1, null bitmap `00`,
new-params-bound flag 1, the type tags LONG and VAR_STRING, the four bytes of
`v` and the text bytes `w` behind their one-byte length. -/
def executePayload (statementId : Nat) (flags : Byte) (v : Int) (w : Buffer) : Buffer :=
  0x17 :: (u32le statementId ++ flags :: (u32le 1 ++
    0x00 :: 0x01 :: 0x03 :: 0x00 :: 0xFD :: 0x00 :: (i32le v ++ byteOf w.length :: w)))

/-- The template of the scenario. -/
def scenarioTemplate : String := "SELECT * FROM t WHERE id = ? AND name = ?"

/-- The text the scenario expects in the log: the template with `v` in decimal at
the first placeholder and the text `w` between double quotes at the second. -/
def scenarioText (v : Int) (w : JsString) : JsString :=
  "SELECT * FROM t WHERE id = ".toList ++ intToString v ++ " AND name = ".toList ++
    dquote :: w ++ [dquote]

/-- Back-to-back decoding, the reading of the specification: the values of the
listed parameters are read one directly after the other, starting at `offset`. -/
def readBackToBack (payload : Buffer) (paramTypes : List Nat) :
    List Nat → Nat → Except JsError (List ParamValue)
  | [], _ => .ok []
  | i :: rest, offset =>
    match readParamValue payload ((paramTypes[i]?).getD 0) offset with
    | .error e => .error e
    | .ok (value, next) =>
      match readBackToBack payload paramTypes rest next with
      | .error e => .error e
      | .ok values => .ok (value :: values)

/-- A fresh statement with two parameters, for the null-bitmap scenario. -/
def nullScenarioStatement : MysqlPreparedStatement := statementOf "a=? b=?" 7 2

/-- An execute payload for `nullScenarioStatement`: null bitmap `01` (the first
parameter is null), new-params-bound flag 1, type tags LONG and TINY, and the
single value byte `05` of the second parameter. -/
def nullScenarioPayload : Buffer :=
  [0x17, 7, 0, 0, 0, 0, 1, 0, 0, 0, 0x01, 0x01, 0x03, 0x00, 0x01, 0x00, 0x05]

/-- The statement `nullScenarioStatement` after decoding `nullScenarioPayload`. -/
def nullScenarioDecoded : MysqlPreparedStatement :=
  { nullScenarioStatement with
    flags := some 0
    iterationCount := some 1
    newParamsBoundFlag := some 1
    paramTypes := some [0x03, 0x01]
    paramValues := some [.null, .number 5]
    paramValuesRaw := some ['0', '5']
    nullBitmap := some ['0', '1'] }

/-- The number that a text of decimal digits denotes. -/
def decimalValue (digits : JsString) : Nat :=
  digits.foldl (fun acc c => 10 * acc + (c.toNat - '0'.toNat)) 0

/-- The sixteen lowercase hexadecimal digits, in order of value. -/
def hexDigits : List Char := "0123456789abcdef".toList

/-- The low bytes of the type tags that `setExecuteStatementQuery` names in a `case`. -/
def recognizedTags : List Nat :=
  [0x01, 0x02, 0x03, 0x04, 0x05, 0x07, 0x08, 0x09, 0x0A, 0x0B, 0x0C, 0x0F, 0xFC, 0xFD, 0xFE]

/-- An execute payload for a statement with one parameter of type VAR_STRING whose
value is the empty text in the three-byte length form, `fd 00 00 00`, at the very
end of the payload. -/
def emptyTextPayload : Buffer :=
  [0x17, 1, 0, 0, 0, 0, 1, 0, 0, 0, 0x00, 0x01, 0xFD, 0x00, 0xFD, 0x00, 0x00, 0x00]

/-- The statement carries the query template, connection id, sequence id and
command byte of the pending command. -/
def builtFrom (cmd : ClientCommand) (st : MysqlPreparedStatement) : Prop :=
  st.query = cmd.query ∧ st.clientId = cmd.clientId ∧ st.sequenceId = cmd.sequenceId ∧
    st.commandByte = cmd.commandByte

/-- A pending prepare of the template `SELECT ?`. -/
def samplePending : ClientCommand :=
  ⟨preparePayload "SELECT ?", "[MySQL][client]".toList, 0, COM_STMT_PREPARE, "SELECT ?".toList⟩

/-- The statement id of an acknowledgement: the unsigned 32-bit little-endian value
at payload offset 1. -/
def ackStatementId (payload : Buffer) : Nat := leValue ((payload.drop 1).take 4)

/-- The parameter count of an acknowledgement: the unsigned 16-bit little-endian
value at payload offset 7. -/
def ackParamCount (payload : Buffer) : Nat := leValue ((payload.drop 7).take 2)

/-- A session, upstream socket writable, whose registry holds statement 1 with one
parameter and the template `SELECT 1`, which has no placeholder. -/
def mismatchSession : Session := { store := [(1, statementOf "SELECT 1" 1 1)] }

/-- One chunk: a well-formed execute of statement 1 carrying one TINY value 5,
followed by a `COM_QUERY` frame with the text `A`. -/
def mismatchChunk : Buffer :=
  encodeFrame 0 [0x17, 1, 0, 0, 0, 0, 1, 0, 0, 0, 0x00, 0x01, 0x01, 0x00, 0x05] ++
    encodeFrame 0 [0x03, 0x41]


/-! ## Reference rendering -/

/-- The rendering of a value in the reading of the specification: a string between
two `"` characters with no escaping, null as `NULL`, the booleans as `TRUE` and
`FALSE`, an integral number as its decimal text; `fmt` is the text of a
floating-point number. -/
def renderReference (fmt : Buffer → JsString) : ParamValue → JsString
  | .string s => [dquote] ++ s ++ [dquote]
  | .null => "NULL".toList
  | .boolean b => if b then "TRUE".toList else "FALSE".toList
  | .number v => (toString v).toList
  | .bigint v => (toString v).toList
  | .float raw => fmt raw

/-! ## The sweep of `MysqlPreparedStatements.js` -/

/-- The test `now - statement.date.getTime() > outdatedTime` of the sweep, with
`outdatedTime` equal to 60000. -/
def isOutdated (now : Nat) (statement : MysqlPreparedStatement) : Bool :=
  decide ((now : Int) - (statement.date : Int) > 60000)

/-- The method `deleteOutdatedStatements()`, `now` being the reading of the clock:
the callback of `forEach` meets the entries in insertion order and deletes the
key of an outdated one.  Returns the registry and `deletedCount`. -/
def deleteOutdatedStatements (now : Nat) (store : Store) : Store × Nat :=
  store.foldl
    (fun acc entry =>
      if isOutdated now entry.2 then (deleteStatement acc.1 entry.1, acc.2 + 1) else acc)
    (store, 0)

/-- The invariant of a `Map`: no key occurs twice. -/
def Store.keysUnique (store : Store) : Prop := (store.map Prod.fst).Nodup

instance (store : Store) : Decidable store.keysUnique := by
  unfold Store.keysUnique
  infer_instance

/-- A statement registered at time `date`, for the template `SELECT 1`. -/
def statementAt (date : Nat) : MysqlPreparedStatement :=
  newStatement date ⟨[], [], 0, COM_STMT_PREPARE, "SELECT 1".toList⟩ 1 0

/-! ## Truncated execute payloads -/

/-- An execute of statement 1 with one VAR_STRING parameter whose length byte
announces five bytes where two remain. -/
def truncatedTextExecute : Buffer :=
  [0x17, 1, 0, 0, 0, 0x00, 1, 0, 0, 0, 0x00, 0x01, 0xFD, 0x00, 0x05, 0x61, 0x62]

/-- An execute of statement 1 with one DATE parameter whose length byte announces
four bytes where two remain. -/
def truncatedDateExecute : Buffer :=
  [0x17, 1, 0, 0, 0, 0x00, 1, 0, 0, 0, 0x00, 0x01, 0x0A, 0x00, 0x04, 0xE8, 0x07]

/-! ## Bytes buffered before the upstream is connected -/

/-- The frame of the query `A`. -/
def queryFrameA : Buffer := encodeFrame 0 (0x03 :: asciiBytes "A")

/-- The frame of the query `B`. -/
def queryFrameB : Buffer := encodeFrame 0 (0x03 :: asciiBytes "B")

/-- The text `dbHost:dbPort` of the samples. -/
def sampleHostPort : JsString := "db:3306".toList

/-- A fresh connection that received `chunk` before its upstream was connected. -/
def bufferedBeforeConnect (chunk : Buffer) : Connection :=
  (onClientSocketData sampleDeps {} chunk).1

/-! ## Two sessions of one proxy process -/

/-- Two accepted connections of one proxy process, each with its upstream
connected.  The registry `preparedStatements` of `mysqlProxyServer.js` is one
module-level object that the handlers of every connection work on: the `store`
of a session is loaded from it before a handler runs and written back after. -/
structure Proxy where
  preparedStatements : Store := []
  first : Connection := {}
  second : Connection := {}
  deriving DecidableEq, Repr

/-- A `data` event on one of the four sockets of the two connections. -/
inductive SocketEvent where
  | firstClient (data : Buffer)
  | firstServer (now : Nat) (data : Buffer)
  | secondClient (data : Buffer)
  | secondServer (now : Nat) (data : Buffer)
  deriving DecidableEq, Repr

/-- The connection as its handlers see it, with the shared registry. -/
def withRegistry (c : Connection) (preparedStatements : Store) : Connection :=
  { c with session := { c.session with store := preparedStatements } }

/-- One event: the handler of the socket runs on its connection and on the shared
registry.  `d1` and `d2` hold the connection ids of the two connections. -/
def Proxy.step (d1 d2 : Deps) (p : Proxy) : SocketEvent → Proxy × Status
  | .firstClient data =>
    let r := onClientData d1 (withRegistry p.first p.preparedStatements) data
    ({ p with first := r.1, preparedStatements := r.1.session.store }, r.2)
  | .firstServer now data =>
    let r := onServerData d1 now (withRegistry p.first p.preparedStatements) data
    ({ p with first := r.1, preparedStatements := r.1.session.store }, r.2)
  | .secondClient data =>
    let r := onClientData d2 (withRegistry p.second p.preparedStatements) data
    ({ p with second := r.1, preparedStatements := r.1.session.store }, r.2)
  | .secondServer now data =>
    let r := onServerData d2 now (withRegistry p.second p.preparedStatements) data
    ({ p with second := r.1, preparedStatements := r.1.session.store }, r.2)

/-- The events in order; an exception that leaves a handler ends the run. -/
def Proxy.run (d1 d2 : Deps) : Proxy → List SocketEvent → Proxy × Status
  | p, [] => (p, .returned)
  | p, e :: es =>
    match Proxy.step d1 d2 p e with
    | (p1, .returned) => Proxy.run d1 d2 p1 es
    | r => r

/-- The event belongs to the first connection. -/
def SocketEvent.ofFirst : SocketEvent → Bool
  | .firstClient _ => true
  | .firstServer _ _ => true
  | _ => false

/-- The bytes the client of the second connection sends, in order. -/
def secondClientBytes : List SocketEvent → Buffer
  | [] => []
  | .secondClient data :: es => data ++ secondClientBytes es
  | _ :: es => secondClientBytes es

/-- The dependencies of the second sample connection. -/
def otherDeps : Deps := ⟨"[MySQL][other]".toList, true, true, noFloat⟩

/-- The first connection prepares `SELECT 1` and has it acknowledged as statement
1; the second connection prepares `SELECT 2` and has it acknowledged as
statement 1 of its own upstream; then the first connection executes statement 1. -/
def collidingEvents : List SocketEvent :=
  [ .firstClient (encodeFrame 0 (preparePayload "SELECT 1")),
    .firstServer 0 (encodeFrame 1 (ackPayload 1 0 0 0)),
    .secondClient (encodeFrame 0 (preparePayload "SELECT 2")),
    .secondServer 0 (encodeFrame 1 (ackPayload 1 0 0 0)),
    .firstClient (encodeFrame 0 [0x17, 1, 0, 0, 0, 0x00, 1, 0, 0, 0]) ]

/-- The first connection prepares `SELECT 1`, has it acknowledged as statement 1
and executes it, while the second connection sends a `COM_PING` frame in two
pieces and receives a server chunk. -/
def quietEvents : List SocketEvent :=
  [ .firstClient (encodeFrame 0 (preparePayload "SELECT 1")),
    .secondClient [1, 0],
    .firstServer 0 (encodeFrame 1 (ackPayload 1 0 0 0)),
    .secondClient [0, 0, 0x0e],
    .secondServer 0 [7, 0, 0, 1, 0, 0, 0, 2, 0, 0, 0],
    .firstClient (encodeFrame 0 [0x17, 1, 0, 0, 0, 0x00, 1, 0, 0, 0]) ]

/-! ## The archiver of `mysqlProxyServer.js` -/

/-- The binding of an identifier that is to hold the archive, a map from
`dbHost:dbPort` to the latest packet; `none` stands for an identifier without any
declaration, the resolution of which raises a `ReferenceError`. -/
abbrev ArchiveBinding := Option (List (JsString × Buffer))

/-- The identifier `lastAuthPacketByHostPort` as `mysqlProxyServer.js` sees it: no
module of the sources declares it. -/
def lastAuthPacketByHostPort : ArchiveBinding := none

/-- The callback `storeAuthPacket` injected by `createMySQLProxyServer`, on the
binding `archive` of the identifier it refers to: the `ReferenceError` of a
missing binding is caught by its own `try`, a present map receives a copy of
the packet under the key. -/
def storeAuthPacket (hostPortKey : JsString) (archive : ArchiveBinding) (packet : Buffer) :
    ArchiveBinding :=
  match archive with
  | none => none
  | some entries => some ((hostPortKey, packet) :: entries.filter fun e => e.1 ≠ hostPortKey)

/-- What the archive holds after the `storeAuthPacket` calls of a session. -/
def archiveAfter (hostPortKey : JsString) (s : Session) : ArchiveBinding :=
  s.authPackets.foldl (storeAuthPacket hostPortKey) lastAuthPacketByHostPort

/-- A handshake response: sequence id 1, a payload of 32 bytes that begins with
the capability flags. -/
def authFrame : Buffer := encodeFrame 1 (0x85 :: 0xa6 :: List.replicate 30 0)

/-! ## The sweep timer -/

/-- The part of the process that `createMySQLProxyServer` and
`shutdownProxyServers` act on: the ids of the active interval timers and the next
id `setInterval` hands out, the field `delOutdatedInterval` of the registry
(0 at first), the listening servers and the variable `mysqlProxyServer`. -/
structure ProxyProcess where
  activeTimers : List Nat := []
  nextTimer : Nat := 1
  delOutdatedInterval : Nat := 0
  listening : List Nat := []
  nextServer : Nat := 1
  mysqlProxyServer : Option Nat := none
  deriving DecidableEq, Repr

/-- The method `startDeleteOutdatedStatements()`: the handle of the new interval
replaces the stored one. -/
def startDeleteOutdatedStatements (p : ProxyProcess) : ProxyProcess :=
  { p with
    activeTimers := p.activeTimers ++ [p.nextTimer]
    nextTimer := p.nextTimer + 1
    delOutdatedInterval := p.nextTimer }

/-- The method `stopDeleteOutdatedStatements()`: `clearInterval` on the stored
handle when there is one. -/
def stopDeleteOutdatedStatements (p : ProxyProcess) : ProxyProcess :=
  if p.delOutdatedInterval ≠ 0 then
    { p with activeTimers := p.activeTimers.filter fun t => t ≠ p.delOutdatedInterval }
  else p

/-- The function `createMySQLProxyServer`, as far as the process state goes: a new
server listens and is stored in `mysqlProxyServer`, and the sweep is started. -/
def createMySQLProxyServer (p : ProxyProcess) : ProxyProcess :=
  startDeleteOutdatedStatements
    { p with
      listening := p.listening ++ [p.nextServer]
      nextServer := p.nextServer + 1
      mysqlProxyServer := some p.nextServer }

/-- The function `shutdownProxyServers`: the stored server is closed and the sweep
is stopped. -/
def shutdownProxyServers (p : ProxyProcess) : ProxyProcess :=
  let p :=
    match p.mysqlProxyServer with
    | some server => { p with listening := p.listening.filter fun l => l ≠ server }
    | none => p
  stopDeleteOutdatedStatements p

/-! ## `postgresqlProxyServer.js` -/

def PG_MSG_TYPE_QUERY : Nat := 81
def PG_MSG_TYPE_TERMINATE : Nat := 88

/-- The signed read `readInt32BE`: four bytes, most significant first. -/
def readInt32BE (b : Buffer) (offset : Nat) : Except JsError Int :=
  if offset + 4 ≤ b.length then
    .ok (toSigned 32 (leValue ((b.drop offset).take 4).reverse))
  else
    .error .rangeError

/-- An index given to `subarray`: a negative one counts from the end, and the
result is kept inside the buffer. -/
def clampIndex (length : Nat) (index : Int) : Nat :=
  if index < 0 then ((length : Int) + index).toNat else min index.toNat length

/-- The `buf.subarray(start, end)` view for indices of either sign. -/
def subarrayInt (b : Buffer) (start stop : Int) : Buffer :=
  subarray b (clampIndex b.length start) (clampIndex b.length stop)

/-- The `buf.subarray(start)` view for an index of either sign. -/
def subarrayFromInt (b : Buffer) (start : Int) : Buffer :=
  subarrayFrom b (clampIndex b.length start)

/-- The state of one PostgreSQL connection that `processPostgreSQLClientData` acts
on; `logs` and `errors` hold the arguments of the `log` and `error` calls. -/
structure PgSession where
  clientBuffer : Buffer := []
  pgWritable : Bool := true
  written : List Buffer := []
  logs : List JsString := []
  errors : List JsString := []
  clientSocketEnded : Bool := false
  pgSocketEnded : Bool := false
  deriving DecidableEq, Repr

/-- The lines logged for one message. -/
def pgLogLines (clientId : JsString) (messageType : Nat) (payload : Buffer) : List JsString :=
  if messageType = PG_MSG_TYPE_QUERY then
    [ "\n-------------------- PostgreSQL Query --------------------".toList,
      clientId ++ " Extracted SQL Query:".toList,
      utf8Decode (subarrayInt payload 0 ((payload.length : Int) - 1)),
      "----------------------------------------------------------\n".toList ]
  else if messageType = PG_MSG_TYPE_TERMINATE then
    [clientId ++ " Client sent Terminate message.".toList]
  else []

/-- The `while (clientBuffer.length > 0)` loop of `processPostgreSQLClientData`,
one iteration per unit of fuel. -/
def pgLoop (clientId : JsString) : Nat → PgSession → PgSession × Status
  | 0, s => (s, .outOfFuel)
  | fuel + 1, s =>
    let clientBuffer := s.clientBuffer
    if clientBuffer.length > 0 then
      match readUInt8 clientBuffer 0 with
      | .error e => (s, .threw e)
      | .ok messageType =>
        if clientBuffer.length < 5 then (s, .returned)
        else
          match readInt32BE clientBuffer 1 with
          | .error e => (s, .threw e)
          | .ok messageLengthIncludingSelf =>
            let totalMessageBytesOnWire : Int := 1 + messageLengthIncludingSelf
            if (clientBuffer.length : Int) < totalMessageBytesOnWire then (s, .returned)
            else
              let currentMessage := subarrayInt clientBuffer 0 totalMessageBytesOnWire
              let payload := subarrayFrom currentMessage 5
              let s := { s with logs := s.logs ++ pgLogLines clientId messageType payload }
              if s.pgWritable then
                pgLoop clientId fuel
                  { s with
                    written := s.written ++ [currentMessage]
                    clientBuffer := subarrayFromInt clientBuffer totalMessageBytesOnWire }
              else
                ({ s with
                   errors := s.errors ++
                     [clientId ++
                       " ERROR: PostgreSQL socket not writable. Cannot forward message.".toList]
                   clientSocketEnded := true
                   pgSocketEnded := true }, .returned)
    else (s, .returned)

/-- The function `processPostgreSQLClientData(dataChunk)` with `fuel` iterations
of its loop at most. -/
def processPostgreSQLClientData (clientId : JsString) (fuel : Nat) (s : PgSession)
    (dataChunk : Buffer) : PgSession × Status :=
  pgLoop clientId fuel { s with clientBuffer := s.clientBuffer ++ dataChunk }

/-- A message of type `Q` whose length field holds -1. -/
def negativeLengthMessage : Buffer := [0x51, 0xFF, 0xFF, 0xFF, 0xFF]

/-- The length field `v` lets an iteration on a buffer of `length` bytes remove at
least one byte: the message is taken to occupy 1 + v ≥ 1 bytes, or 1 + v is
negative and smaller in magnitude than the buffer. -/
def pgAdvances (length : Nat) (v : Int) : Prop :=
  1 ≤ 1 + v ∨ (1 + v < 0 ∧ -(1 + v) < (length : Int))

instance (length : Nat) (v : Int) : Decidable (pgAdvances length v) := by
  unfold pgAdvances
  infer_instance

/-- Every header that the loop meets on the buffer, within `fuel` iterations, lets
its iteration wait for more data or remove at least one byte. -/
def pgHeadersAdvance : Nat → Buffer → Bool
  | 0, _ => true
  | fuel + 1, b =>
    if b.length < 5 then true
    else
      match readInt32BE b 1 with
      | .error _ => true
      | .ok v =>
        if (b.length : Int) < 1 + v then true
        else decide (pgAdvances b.length v) && pgHeadersAdvance fuel (subarrayFromInt b (1 + v))

/-- Two messages, a query `A` and a terminate, followed by the first bytes of a
third one. -/
def pgSampleBytes : Buffer := [0x51, 0, 0, 0, 6, 0x41, 0, 0x58, 0, 0, 0, 4, 0x51, 0]

/-! ## Statement ids named by a delivery, and who registered an entry -/

/-- The statement id that a complete frame names: the unsigned 32-bit value at
payload offset 1 of a payload that begins with `lead`, which is 0x17 for an
execute sent by the client and 0x00 for an acknowledgement sent by the server. -/
def namedId (lead : Byte) (payload : Buffer) : List Nat :=
  if payload.head? = some lead then
    match readUInt32LE payload 1 with
    | .ok statementId => [statementId]
    | .error _ => []
  else []

/-- The statement ids named by the complete frames at the head of a buffer, frame
after frame, for `fuel` frames at most. -/
def namedIdsLoop (lead : Byte) : Nat → Buffer → List Nat
  | 0, _ => []
  | fuel + 1, buffer =>
    if buffer.length ≥ 4 then
      let totalPacketLength := 4 + leValue (buffer.take 3)
      if buffer.length < totalPacketLength then []
      else
        namedId lead (subarrayFrom (subarray buffer 0 totalPacketLength) 4) ++
          namedIdsLoop lead fuel (subarrayFrom buffer totalPacketLength)
    else []

/-- The statement ids named by the complete frames at the head of a buffer. -/
def namedIds (lead : Byte) (buffer : Buffer) : List Nat :=
  namedIdsLoop lead (buffer.length / 4 + 1) buffer

/-- A registry entry as a run without the connection `other` has it: an entry that
`other` registered (its `clientId` is that of `other`) is absent there. -/
def visibleEntry (other : JsString) :
    Option MysqlPreparedStatement → Option MysqlPreparedStatement
  | some statement => if statement.clientId = other then none else some statement
  | none => none

/-- The statement ids that the acknowledgements of a server chunk name, when the
chunk reaches the correlator with a prepare pending. -/
def acknowledgedIds (c : Connection) (data : Buffer) : List Nat :=
  if c.clientWritable then
    match c.session.lastClientCommand with
    | some cmd =>
      if cmd.commandByte = COM_STMT_PREPARE then namedIds 0x00 (c.serverResponseBuffer ++ data)
      else []
    | none => []
  else []

/-- The statement ids that the frames of an event name: those of the execute
frames in the accumulated client bytes, those of the acknowledgements in the
accumulated server bytes. -/
def SocketEvent.names (p : Proxy) : SocketEvent → List Nat
  | .firstClient data => namedIds 0x17 (p.first.session.clientBuffer ++ data)
  | .firstServer _ data => acknowledgedIds p.first data
  | .secondClient data => namedIds 0x17 (p.second.session.clientBuffer ++ data)
  | .secondServer _ data => acknowledgedIds p.second data

/-- The statement ids that an event names stay apart from the entries of the
other connection: an id named by an execute frame of the first connection is
not one that `other`, the second connection, has registered; an id named by an
execute or an acknowledgement of the second connection is absent from the
registry or registered by the second itself.  The acknowledgements of the first
connection are free. -/
def SocketEvent.apart (other : JsString) (p : Proxy) : SocketEvent → Bool
  | .firstClient data =>
    (SocketEvent.names p (.firstClient data)).all fun id =>
      decide (visibleEntry other (getStatement p.preparedStatements id) =
        getStatement p.preparedStatements id)
  | .firstServer _ _ => true
  | .secondClient data =>
    (SocketEvent.names p (.secondClient data)).all fun id =>
      decide (visibleEntry other (getStatement p.preparedStatements id) = none)
  | .secondServer now data =>
    (SocketEvent.names p (.secondServer now data)).all fun id =>
      decide (visibleEntry other (getStatement p.preparedStatements id) = none)

/-- No session names a statement id that is at that moment registered by the
other one: every event that the run handles is `apart` on the registry of the
moment it is handled. -/
def Proxy.separate (d1 d2 : Deps) : Proxy → List SocketEvent → Bool
  | _, [] => true
  | p, e :: es =>
    e.apart d2.clientId p &&
    (match Proxy.step d1 d2 p e with
      | (p1, .returned) => Proxy.separate d1 d2 p1 es
      | _ => true)

/-- The events that the run handles: those up to the first exception that leaves
a handler, the event of that handler included. -/
def Proxy.handled (d1 d2 : Deps) : Proxy → List SocketEvent → List SocketEvent
  | _, [] => []
  | p, e :: es =>
    match Proxy.step d1 d2 p e with
    | (p1, .returned) => e :: Proxy.handled d1 d2 p1 es
    | _ => [e]

/-- The first connection prepares `SELECT 1`, acknowledged as statement 1, and
executes it; the second connection prepares `SELECT 2`, acknowledged as
statement 2 by its own upstream, and executes it, then prepares again, is
acknowledged statement 1, which the first connection no longer holds, and
executes it. -/
def separateEvents : List SocketEvent :=
  [ .firstClient (encodeFrame 0 (preparePayload "SELECT 1")),
    .secondClient (encodeFrame 0 (preparePayload "SELECT 2")),
    .firstServer 0 (encodeFrame 1 (ackPayload 1 0 0 0)),
    .secondServer 0 (encodeFrame 1 (ackPayload 2 0 0 0)),
    .firstClient (encodeFrame 0 [0x17, 1, 0, 0, 0, 0x00, 1, 0, 0, 0]),
    .secondClient (encodeFrame 0 [0x17, 2, 0, 0, 0, 0x00, 1, 0, 0, 0]),
    .secondClient (encodeFrame 0 (preparePayload "SELECT 2")),
    .secondServer 0 (encodeFrame 1 (ackPayload 1 0 0 0)),
    .secondClient (encodeFrame 0 [0x17, 1, 0, 0, 0, 0x00, 1, 0, 0, 0]) ]

/-- The events of `separateEvents`, and then an execute of the second connection
that is cut short after its command byte, so that its handler raises, before a
last query of the first connection. -/
def raisingEvents : List SocketEvent :=
  separateEvents ++
    [ .secondClient (encodeFrame 0 [0x17, 9]),
      .firstClient (encodeFrame 0 (0x03 :: asciiBytes "SELECT 3")) ]
/-! # Theorems -/

/-! ## Lemmas on text -/

theorem indexOf_eq_none {c : Char} {q : JsString} : indexOf c q = none ↔ c ∉ q := by
  induction q with
  | nil => simp [indexOf]
  | cons x xs ih =>
    by_cases h : x = c
    · simp [indexOf, h]
    · have h2 : ¬ c = x := fun e => h e.symm
      simp [indexOf, h, h2, ih]

theorem indexOf_append_cons {c : Char} (a b : JsString) (h : c ∉ a) :
    indexOf c (a ++ c :: b) = some a.length := by
  induction a with
  | nil => simp [indexOf]
  | cons x xs ih =>
    have hx : ¬ x = c := fun e => h (by simp [e])
    have hxs : c ∉ xs := fun e => h (by simp [e])
    simp [indexOf, hx, ih hxs]

theorem indexOf_eq_some {c : Char} {q : JsString} {pos : Nat} (h : indexOf c q = some pos) :
    ∃ a b, q = a ++ c :: b ∧ c ∉ a ∧ pos = a.length := by
  induction q generalizing pos with
  | nil => simp [indexOf] at h
  | cons x xs ih =>
    by_cases hx : x = c
    · simp [indexOf, hx] at h
      exact ⟨[], xs, by simp [hx], by simp, by simp [h]⟩
    · simp [indexOf, hx] at h
      obtain ⟨p, hp, rfl⟩ := h
      obtain ⟨a, b, hq, ha, hl⟩ := ih hp
      refine ⟨x :: a, b, by simp [hq], ?_, by simp [hl]⟩
      simp only [List.mem_cons, not_or]
      exact ⟨fun e => hx e.symm, ha⟩

theorem digitChar_ne_placeholder (n : Nat) : Nat.digitChar n ≠ '?' := by
  rcases Nat.lt_or_ge n 16 with h | h
  · interval_cases n <;> decide
  · have e : Nat.digitChar n = '*' := by
      simp only [Nat.digitChar]
      simp only [show ¬ n = 0 by omega, show ¬ n = 1 by omega, show ¬ n = 2 by omega,
        show ¬ n = 3 by omega, show ¬ n = 4 by omega, show ¬ n = 5 by omega,
        show ¬ n = 6 by omega, show ¬ n = 7 by omega, show ¬ n = 8 by omega,
        show ¬ n = 9 by omega, show ¬ n = 10 by omega, show ¬ n = 11 by omega,
        show ¬ n = 12 by omega, show ¬ n = 13 by omega, show ¬ n = 14 by omega,
        show ¬ n = 15 by omega, if_false]
    rw [e]
    decide

theorem toDigitsCore_no_placeholder (base : Nat) :
    ∀ (fuel n : Nat) (ds : List Char), '?' ∉ ds → '?' ∉ Nat.toDigitsCore base fuel n ds := by
  intro fuel
  induction fuel with
  | zero => intro n ds h; simpa [Nat.toDigitsCore] using h
  | succ k ih =>
    intro n ds h
    have hd : '?' ∉ Nat.digitChar (n % base) :: ds := by
      simp only [List.mem_cons, not_or]
      exact ⟨fun e => digitChar_ne_placeholder _ e.symm, h⟩
    simp only [Nat.toDigitsCore]
    split
    · exact hd
    · exact ih _ _ hd

theorem toDigits_no_placeholder (n : Nat) : '?' ∉ Nat.toDigits 10 n := by
  unfold Nat.toDigits
  exact toDigitsCore_no_placeholder 10 _ _ _ (by simp)

theorem intToString_no_placeholder (v : Int) : '?' ∉ intToString v := by
  cases v with
  | ofNat n => exact toDigits_no_placeholder n
  | negSucc n =>
    simp only [intToString, List.mem_cons, not_or]
    exact ⟨by decide, toDigits_no_placeholder _⟩

/-! ## Lemmas on the substitution loop -/

theorem substituteReference_nil (q : JsString) : substituteReference q [] = q := by
  induction q with
  | nil => rfl
  | cons c cs ih => simp [substituteReference, ih]

theorem substituteReference_append (p b : JsString) (vs : List JsString) (h : '?' ∉ p) :
    substituteReference (p ++ b) vs = p ++ substituteReference b vs := by
  induction p with
  | nil => rfl
  | cons c cs ih =>
    have hc : ¬ c = '?' := fun e => h (by simp [e])
    have hcs : '?' ∉ cs := fun e => h (by simp [e])
    cases vs with
    | nil => simp [substituteReference_nil]
    | cons v vs => simp [substituteReference, hc, ih hcs]

theorem count_eq_zero_of_not_mem {q : JsString} (h : '?' ∉ q) : q.count '?' = 0 :=
  List.count_eq_zero.mpr h

/-- One iteration of the loop replaces the first placeholder. -/
theorem substituteParams_cons (original : JsString) (allValues : List ParamValue)
    (v : JsString) (vs : List JsString) (a b : JsString) (ha : '?' ∉ a) :
    substituteParams original allValues (v :: vs) (a ++ '?' :: b) =
      substituteParams original allValues vs (a ++ v ++ b) := by
  simp [substituteParams, indexOf_append_cons a b ha]

theorem substituteParams_ok (original : JsString) (allValues : List ParamValue) :
    ∀ (vs : List JsString) (q : JsString), (∀ v ∈ vs, '?' ∉ v) → vs.length ≤ q.count '?' →
      substituteParams original allValues vs q = .ok (substituteReference q vs) := by
  intro vs
  induction vs with
  | nil => intro q _ _; simp [substituteParams, substituteReference_nil]
  | cons v vs ih =>
    intro q hv hlen
    cases hq : indexOf '?' q with
    | none =>
      have := count_eq_zero_of_not_mem (indexOf_eq_none.mp hq)
      simp [this] at hlen
    | some pos =>
      obtain ⟨a, b, rfl, ha, -⟩ := indexOf_eq_some hq
      have hv0 : '?' ∉ v := hv v (by simp)
      have hav : '?' ∉ a ++ v := by simp [ha, hv0]
      rw [substituteParams_cons _ _ _ _ _ _ ha, ih _ (fun w hw => hv w (by simp [hw]))]
      · rw [substituteReference_append _ _ _ hav, substituteReference_append _ _ _ ha]
        simp [substituteReference]
      · simp [List.count_append, count_eq_zero_of_not_mem ha, count_eq_zero_of_not_mem hv0] at hlen ⊢
        omega

theorem substituteParams_error (original : JsString) (allValues : List ParamValue) :
    ∀ (vs : List JsString) (q : JsString), (∀ v ∈ vs, '?' ∉ v) → q.count '?' < vs.length →
      substituteParams original allValues vs q =
        .error (.invalidAmountOfPlaceholders original allValues) := by
  intro vs
  induction vs with
  | nil => intro q _ h; simp at h
  | cons v vs ih =>
    intro q hv hlen
    cases hq : indexOf '?' q with
    | none => simp [substituteParams, hq]
    | some pos =>
      obtain ⟨a, b, rfl, ha, -⟩ := indexOf_eq_some hq
      have hv0 : '?' ∉ v := hv v (by simp)
      rw [substituteParams_cons _ _ _ _ _ _ ha]
      apply ih _ (fun w hw => hv w (by simp [hw]))
      simp [List.count_append, count_eq_zero_of_not_mem ha, count_eq_zero_of_not_mem hv0] at hlen ⊢
      omega

theorem substituteParams_count (original : JsString) (allValues : List ParamValue) :
    ∀ (vs : List JsString) (q : JsString), vs.length ≤ q.count '?' →
      ∃ r, substituteParams original allValues vs q = .ok r ∧
        q.count '?' ≤ r.count '?' + vs.length := by
  intro vs
  induction vs with
  | nil => intro q _; exact ⟨q, by simp [substituteParams]⟩
  | cons v vs ih =>
    intro q hlen
    cases hq : indexOf '?' q with
    | none =>
      have := count_eq_zero_of_not_mem (indexOf_eq_none.mp hq)
      simp [this] at hlen
    | some pos =>
      obtain ⟨a, b, rfl, ha, -⟩ := indexOf_eq_some hq
      rw [substituteParams_cons _ _ _ _ _ _ ha]
      have h1 : vs.length ≤ (a ++ v ++ b).count '?' := by
        simp [List.count_append, count_eq_zero_of_not_mem ha] at hlen ⊢
        omega
      obtain ⟨r, hr, hc⟩ := ih _ h1
      refine ⟨r, hr, ?_⟩
      simp [List.count_append, count_eq_zero_of_not_mem ha] at hc ⊢
      omega

theorem count_substituteReference :
    ∀ (q : JsString) (vs : List JsString), (∀ v ∈ vs, '?' ∉ v) →
      (substituteReference q vs).count '?' = q.count '?' - vs.length := by
  intro q
  induction q with
  | nil => intro vs _; simp [substituteReference]
  | cons c cs ih =>
    intro vs hv
    cases vs with
    | nil => simp [substituteReference_nil]
    | cons v vs =>
      have hv0 : '?' ∉ v := hv v (by simp)
      by_cases hc : c = '?'
      · subst hc
        simp [substituteReference, List.count_append, count_eq_zero_of_not_mem hv0,
          ih vs (fun w hw => hv w (by simp [hw]))]
      · have hc2 : ¬ ('?' = c) := fun e => hc e.symm
        have := ih (v :: vs) hv
        simp [substituteReference, hc, List.count_cons, hc2] at this ⊢
        exact this

theorem decorate_isPlainScalar (fmt : Buffer → JsString) {v : ParamValue}
    (h : v.isPlainScalar) : '?' ∉ decorateParamValue fmt v := by
  cases v with
  | number n => exact intToString_no_placeholder n
  | bigint n => exact toDigits_no_placeholder n
  | string s =>
    have hs : '?' ∉ s := h
    intro hmem
    simp only [decorateParamValue, List.mem_cons, List.mem_append, List.mem_singleton] at hmem
    rcases hmem with (h | h) | h
    · exact absurd h (by decide)
    · exact hs h
    · exact absurd h (by decide)
  | null => exact absurd h (by simp [ParamValue.isPlainScalar])
  | float r => exact absurd h (by simp [ParamValue.isPlainScalar])
  | boolean b => exact absurd h (by simp [ParamValue.isPlainScalar])

/-! ## Query reconstruction (C3, C4, C5) -/

/-- C3, as stated, fails: the template `a=?` has one placeholder and is given one
supported non-null value, the string `x?`; the result `a="x?"`, the template with
its placeholder replaced by the rendered literal, contains a `?`. -/
theorem C3_counterexample :
    (statementWith "a=?" [.string ['x', '?']]).query.count '?' = 1 ∧
    getQueryWithParameters noFloat (statementWith "a=?" [.string ['x', '?']]) =
      .ok ['a', '=', dquote, 'x', '?', dquote] ∧
    '?' ∈ ['a', '=', dquote, 'x', '?', dquote] := by
  decide

/-- C3 (amended): for a template with exactly N `?` characters and N non-null
decoded values of supported types (integers, 64-bit integers, strings), none of
the strings containing `?`, `getQueryWithParameters` returns a text without `?`
that is the template with each placeholder replaced, in order, by the rendered
literal of the corresponding value. -/
theorem C3_reconstruction_replaces_every_placeholder (fmt : Buffer → JsString)
    (st : MysqlPreparedStatement) (values : List ParamValue)
    (hvalues : st.paramValues = some values)
    (hcount : st.query.count '?' = values.length)
    (hplain : ∀ v ∈ values, v.isPlainScalar) :
    ∃ r, getQueryWithParameters fmt st = .ok r ∧ '?' ∉ r ∧
      r = substituteReference st.query (values.map (decorateParamValue fmt)) := by
  have hfree : ∀ w ∈ values.map (decorateParamValue fmt), '?' ∉ w := by
    intro w hw
    obtain ⟨v, hv, rfl⟩ := List.mem_map.mp hw
    exact decorate_isPlainScalar fmt (hplain v hv)
  refine ⟨_, ?_, ?_, rfl⟩
  · simp only [getQueryWithParameters, hvalues]
    exact substituteParams_ok _ _ _ _ hfree (by simp [hcount])
  · apply List.count_eq_zero.mp
    rw [count_substituteReference _ _ hfree]
    simp [hcount]

theorem C3_reconstruction_witness :
    ∃ r, getQueryWithParameters noFloat
        (statementWith "a=? b=?" [.string ['x'], .number 5]) = .ok r ∧
      '?' ∉ r ∧
      r = substituteReference (statementWith "a=? b=?" [.string ['x'], .number 5]).query
        ([.string ['x'], .number 5].map (decorateParamValue noFloat)) :=
  C3_reconstruction_replaces_every_placeholder noFloat
    (statementWith "a=? b=?" [.string ['x'], .number 5])
    [.string ['x'], .number 5] rfl (by decide) (by simp [ParamValue.isPlainScalar])

/-- C4 fails on the code: the template `?` has one placeholder and is given the two
values `"?"` and `5`, more values than placeholders; no error is raised, the text
`"5"` is returned, the second value having replaced the `?` inside the literal of
the first. -/
theorem C4_value_with_placeholder_hides_the_mismatch :
    (statementWith "?" [.string ['?'], .number 5]).query.count '?' <
      [ParamValue.string ['?'], ParamValue.number 5].length ∧
    getQueryWithParameters noFloat (statementWith "?" [.string ['?'], .number 5]) =
      .ok [dquote, '5', dquote] := by
  decide

/-- With more values than placeholders and no value whose rendered text contains
`?`, `getQueryWithParameters` raises `InvalidAmountOfPlaceholders`, carrying the
template and the values. -/
theorem getQueryWithParameters_raises (fmt : Buffer → JsString)
    (st : MysqlPreparedStatement) (values : List ParamValue)
    (hvalues : st.paramValues = some values)
    (hmore : st.query.count '?' < values.length)
    (hfree : ∀ v ∈ values, '?' ∉ decorateParamValue fmt v) :
    getQueryWithParameters fmt st = .error (.invalidAmountOfPlaceholders st.query values) := by
  simp only [getQueryWithParameters, hvalues]
  apply substituteParams_error
  · intro w hw
    obtain ⟨v, hv, rfl⟩ := List.mem_map.mp hw
    exact hfree v hv
  · simpa using hmore

/-- C5: for a template with P `?` placeholders and a list of N < P decoded values,
`getQueryWithParameters` raises nothing and returns a text that still contains at
least P − N, hence at least one, `?` characters. -/
theorem C5_fewer_values_leave_placeholders (fmt : Buffer → JsString)
    (st : MysqlPreparedStatement) (values : List ParamValue)
    (hvalues : st.paramValues = some values)
    (hfewer : values.length < st.query.count '?') :
    ∃ r, getQueryWithParameters fmt st = .ok r ∧
      st.query.count '?' - values.length ≤ r.count '?' ∧ 1 ≤ r.count '?' := by
  obtain ⟨r, hr, hc⟩ := substituteParams_count st.query values
    (values.map (decorateParamValue fmt)) st.query (by simp; omega)
  refine ⟨r, ?_, ?_, ?_⟩
  · simp only [getQueryWithParameters, hvalues]
    exact hr
  · simp at hc; omega
  · simp at hc; omega

theorem C5_fewer_values_witness :
    ∃ r, getQueryWithParameters noFloat
        (statementWith "a=? b=? c=?" [.string ['?']]) = .ok r ∧
      (statementWith "a=? b=? c=?" [.string ['?']]).query.count '?' - [ParamValue.string ['?']].length
        ≤ r.count '?' ∧ 1 ≤ r.count '?' :=
  C5_fewer_values_leave_placeholders noFloat
    (statementWith "a=? b=? c=?" [.string ['?']])
    [.string ['?']] rfl (by decide)

/-! ## Framing lemmas -/

theorem leValue_header (n : Nat) (h : n < 2 ^ 24) :
    leValue [byteOf n, byteOf (n / 256), byteOf (n / 65536)] = n := by
  simp only [leValue, byteOf]
  omega

theorem encodeFrame_length (seq : Byte) (p : Buffer) : (encodeFrame seq p).length = 4 + p.length := by
  simp [encodeFrame]; omega

theorem clientLoop_incomplete (d : Deps) (fuel : Nat) (s : Session)
    (h : s.clientBuffer.length < 4 ∨ s.clientBuffer.length < 4 + leValue (s.clientBuffer.take 3)) :
    clientLoop d (fuel + 1) s = ⟨s, .returned⟩ := by
  unfold clientLoop
  by_cases h4 : s.clientBuffer.length ≥ 4
  · have h' : s.clientBuffer.length < 4 + leValue (s.clientBuffer.take 3) := by
      rcases h with h | h
      · omega
      · exact h
    simp [h4, h']
  · simp [h4]

/-- One iteration of the loop on a buffer that starts with a complete frame. -/
theorem clientLoop_frame (d : Deps) (fuel : Nat) (s : Session) (seq : Byte) (p rest : Buffer)
    (hp : p.length < 2 ^ 24) (hbuf : s.clientBuffer = encodeFrame seq p ++ rest) :
    clientLoop d (fuel + 1) s =
      match classify d s (encodeFrame seq p) p seq.val with
      | (s1, some e) => ⟨s1, .threw e⟩
      | (s1, none) =>
        if s1.serverWritable then
          clientLoop d fuel
            { s1 with written := s1.written ++ [encodeFrame seq p], clientBuffer := rest }
        else ⟨notWritable d s1 p seq.val, .returned⟩ := by
  have hlen : s.clientBuffer.length = 4 + p.length + rest.length := by
    simp [hbuf, encodeFrame]; omega
  have h3 : leValue (s.clientBuffer.take 3) = p.length := by
    rw [hbuf]
    simpa [encodeFrame] using leValue_header p.length hp
  have hseq : leValue ((s.clientBuffer.drop 3).take 1) = seq.val := by
    rw [hbuf]; simp [encodeFrame, leValue]
  have hpkt : subarray s.clientBuffer 0 (4 + p.length) = encodeFrame seq p := by
    rw [hbuf]
    simp [subarray, ← encodeFrame_length seq p]
  have hpay : subarrayFrom (encodeFrame seq p) 4 = p := by
    simp [subarrayFrom, encodeFrame]
  have hrest : subarrayFrom s.clientBuffer (4 + p.length) = rest := by
    rw [hbuf]
    simp [subarrayFrom, ← encodeFrame_length seq p]
  rw [clientLoop]
  simp only [h3, hseq, hpkt, hpay, hrest]
  have hge : s.clientBuffer.length ≥ 4 := by omega
  have hnlt : ¬ s.clientBuffer.length < 4 + p.length := by omega
  simp only [hge, hnlt, if_true, if_false]

/-! ## Classification never touches the sockets -/

@[simp] theorem detectAuthPacket_serverWritable (d : Deps) (s : Session) (pkt p : Buffer)
    (seq c : Nat) : (detectAuthPacket d s pkt p seq c).serverWritable = s.serverWritable := by
  simp only [detectAuthPacket]
  split_ifs <;> rfl

@[simp] theorem detectAuthPacket_written (d : Deps) (s : Session) (pkt p : Buffer)
    (seq c : Nat) : (detectAuthPacket d s pkt p seq c).written = s.written := by
  simp only [detectAuthPacket]
  split_ifs <;> rfl

/-- A packet whose command byte is not `COM_STMT_EXECUTE` is classified without an
exception and without a change to the upstream socket. -/
theorem classify_nonExecute (d : Deps) (s : Session) (pkt p : Buffer) (seq : Nat)
    (h : p.head? ≠ some 0x17) :
    ∃ s1, classify d s pkt p seq = (s1, none) ∧ s1.serverWritable = s.serverWritable ∧
      s1.written = s.written := by
  cases p with
  | nil => exact ⟨s, rfl, rfl, rfl⟩
  | cons b bs =>
    have hb : ¬ b.val = COM_STMT_EXECUTE := by
      intro e
      apply h
      have : b = 0x17 := Fin.ext e
      simp [this]
    unfold classify
    simp only [hb, false_or, or_false, if_false]
    split_ifs <;> exact ⟨_, rfl, by simp, by simp⟩

/-! ## Reassembly (C1) -/

theorem encodeFrames_length (fs : List Frame) : 4 * fs.length ≤ (encodeFrames fs).length := by
  induction fs with
  | nil => simp [encodeFrames]
  | cons f fs ih =>
    simp [encodeFrames, Frame.encode, encodeFrame_length]
    omega

/-- The loop on a buffer made of complete frames, none an execute, followed by an
incomplete rest: every frame is written, in order, and the rest stays. -/
theorem clientLoop_frames (d : Deps) :
    ∀ (fs : List Frame) (rest : Buffer) (fuel : Nat) (s : Session),
      (∀ f ∈ fs, f.valid ∧ f.payload.head? ≠ some 0x17) → Incomplete rest →
      s.clientBuffer = encodeFrames fs ++ rest → s.serverWritable = true → fs.length < fuel →
      ∃ s1, clientLoop d fuel s = ⟨s1, .returned⟩ ∧
        s1.written = s.written ++ fs.map Frame.encode ∧ s1.clientBuffer = rest ∧
        s1.serverWritable = true := by
  intro fs
  induction fs with
  | nil =>
    intro rest fuel s _ hrest hbuf hw hfuel
    obtain ⟨k, rfl⟩ : ∃ k, fuel = k + 1 := ⟨fuel - 1, by simp at hfuel; omega⟩
    have hbuf' : s.clientBuffer = rest := by simpa [encodeFrames] using hbuf
    refine ⟨s, clientLoop_incomplete d k s (by rw [hbuf']; exact hrest), by simp, hbuf', hw⟩
  | cons f fs ih =>
    intro rest fuel s hfs hrest hbuf hw hfuel
    obtain ⟨k, rfl⟩ : ∃ k, fuel = k + 1 := ⟨fuel - 1, by simp at hfuel; omega⟩
    have hf := hfs f (by simp)
    have hbuf' : s.clientBuffer = encodeFrame f.sequenceId f.payload ++ (encodeFrames fs ++ rest) := by
      simpa [encodeFrames, Frame.encode] using hbuf
    obtain ⟨s1, hc, hw1, hwr1⟩ :=
      classify_nonExecute d s (encodeFrame f.sequenceId f.payload) f.payload f.sequenceId.val hf.2
    rw [clientLoop_frame d k s f.sequenceId f.payload _ hf.1 hbuf', hc]
    have hw1' : s1.serverWritable = true := by rw [hw1, hw]
    simp only [if_pos hw1']
    obtain ⟨s2, h2, hwr2, hb2, hw2⟩ := ih rest k
      { s1 with
        written := s1.written ++ [encodeFrame f.sequenceId f.payload]
        clientBuffer := encodeFrames fs ++ rest }
      (fun g hg => hfs g (by simp [hg])) hrest rfl hw1'
      (by simp at hfuel; omega)
    refine ⟨s2, h2, ?_, hb2, hw2⟩
    simp [hwr2, hwr1, Frame.encode]

/-- Where a delivery cuts a stream of frames: after some whole frames and an
incomplete piece of the next one. -/
theorem encodeFrames_cut :
    ∀ (fs : List Frame) (p q : Buffer), (∀ f ∈ fs, f.valid) → p ++ q = encodeFrames fs →
      ∃ g1 g2 rest, fs = g1 ++ g2 ∧ p = encodeFrames g1 ++ rest ∧ Incomplete rest ∧
        rest ++ q = encodeFrames g2 := by
  intro fs
  induction fs with
  | nil =>
    intro p q _ h
    simp [encodeFrames] at h
    exact ⟨[], [], [], rfl, by simp [h.1, encodeFrames], Or.inl (by simp), by simp [h.2, encodeFrames]⟩
  | cons f fs ih =>
    intro p q hv h
    have hf : f.valid := hv f (by simp)
    simp only [encodeFrames] at h
    rcases List.append_eq_append_iff.mp h with ⟨a, ha, hq⟩ | ⟨c, hc, hfs⟩
    · by_cases hnil : a = []
      · subst hnil
        simp at ha hq
        obtain ⟨g1, g2, rest, hg, hp, hr, hrq⟩ := ih [] q (fun g hg => hv g (by simp [hg]))
          (by simpa using hq)
        refine ⟨f :: g1, g2, rest, by simp [hg], ?_, hr, hrq⟩
        simp only [List.nil_eq, List.append_eq_nil] at hp
        simp [encodeFrames, ← ha, hp.1, hp.2]
      · refine ⟨[], f :: fs, p, rfl, by simp [encodeFrames], ?_, by simpa [encodeFrames] using h⟩
        have hlen : p.length < 4 + f.payload.length := by
          have := congrArg List.length ha
          simp [Frame.encode, encodeFrame_length] at this
          have : 0 < a.length := List.length_pos.mpr hnil
          omega
        by_cases h4 : p.length < 4
        · exact Or.inl h4
        · right
          have h3 : p.take 3 = f.encode.take 3 := by
            rw [ha, List.take_append_of_le_length (by omega)]
          rw [h3]
          have := leValue_header f.payload.length hf
          simp [Frame.encode, encodeFrame, this]
          exact hlen
    · obtain ⟨g1, g2, rest, hg, hp, hr, hrq⟩ := ih c q (fun g hg => hv g (by simp [hg])) hfs.symm
      exact ⟨f :: g1, g2, rest, by simp [hg], by simp [hc, hp, encodeFrames], hr, hrq⟩

theorem feed_cons_returned (d : Deps) (s s1 : Session) (c : Buffer) (cs : List Buffer)
    (h : processMySQLClientData d s c = ⟨s1, .returned⟩) : feed d s (c :: cs) = feed d s1 cs := by
  simp [feed, h]

/-- Feeding the chunks of a stream of frames, none an execute, from a state whose
accumulator holds an incomplete start of the stream. -/
theorem feed_frames (d : Deps) :
    ∀ (chunks : List Buffer) (fs : List Frame) (s : Session),
      (∀ f ∈ fs, f.valid ∧ f.payload.head? ≠ some 0x17) → Incomplete s.clientBuffer →
      s.clientBuffer ++ chunks.flatten = encodeFrames fs → s.serverWritable = true →
      ∃ s1, feed d s chunks = ⟨s1, .returned⟩ ∧
        s1.written = s.written ++ fs.map Frame.encode ∧ s1.clientBuffer = [] := by
  intro chunks
  induction chunks with
  | nil =>
    intro fs s hfs hinc hbuf hw
    simp only [List.flatten_nil, List.append_nil] at hbuf
    cases fs with
    | nil => exact ⟨s, rfl, by simp, by simpa [encodeFrames] using hbuf⟩
    | cons f fs =>
      exfalso
      have hf := (hfs f (by simp)).1
      have h3 : leValue (s.clientBuffer.take 3) = f.payload.length := by
        rw [hbuf]
        simpa [encodeFrames, Frame.encode, encodeFrame] using leValue_header f.payload.length hf
      have hl : s.clientBuffer.length = 4 + f.payload.length + (encodeFrames fs).length := by
        rw [hbuf]; simp [encodeFrames, Frame.encode, encodeFrame_length]
      rcases hinc with h | h <;> omega
  | cons c cs ih =>
    intro fs s hfs hinc hbuf hw
    have hbuf' : (s.clientBuffer ++ c) ++ cs.flatten = encodeFrames fs := by
      simpa [List.append_assoc] using hbuf
    obtain ⟨g1, g2, rest, hg, hp, hr, hrq⟩ :=
      encodeFrames_cut fs _ _ (fun f hf => (hfs f hf).1) hbuf'
    subst hg
    obtain ⟨s1, h1, hwr1, hb1, hw1⟩ := clientLoop_frames d g1 rest
      ((s.clientBuffer ++ c).length / 4 + 1) { s with clientBuffer := s.clientBuffer ++ c }
      (fun f hf => hfs f (by simp [hf])) hr hp hw
      (by
        have := encodeFrames_length g1
        have hl := congrArg List.length hp
        simp only [List.length_append] at hl this ⊢
        omega)
    have hproc : processMySQLClientData d s c = ⟨s1, .returned⟩ := h1
    rw [feed_cons_returned d s s1 c cs hproc]
    obtain ⟨s2, h2, hwr2, hb2⟩ := ih g2 s1 (fun f hf => hfs f (by simp [hf]))
      (by rw [hb1]; exact hr) (by rw [hb1]; exact hrq) hw1
    refine ⟨s2, h2, ?_, hb2⟩
    simp [hwr2, hwr1]

/-- C1: for every finite list of client-direction frames expressible on the wire,
none with command byte `COM_STMT_EXECUTE` (0x17), and every way of cutting their
concatenation into consecutive chunks, feeding the chunks in order to
`processMySQLClientData`, from an empty accumulator and with the upstream socket
writable, raises nothing, writes upstream exactly the original frames, one write
per frame, in order and byte for byte, and ends with an empty accumulator. -/
theorem C1_frames_reassembled_across_chunks (d : Deps) (fs : List Frame) (chunks : List Buffer)
    (s : Session)
    (hvalid : ∀ f ∈ fs, f.valid)
    (hnoexec : ∀ f ∈ fs, f.payload.head? ≠ some 0x17)
    (hcut : chunks.flatten = encodeFrames fs)
    (hempty : s.clientBuffer = [])
    (hwritable : s.serverWritable = true) :
    (feed d s chunks).status = .returned ∧
    (feed d s chunks).session.written = s.written ++ fs.map Frame.encode ∧
    (feed d s chunks).session.clientBuffer = [] := by
  obtain ⟨s1, h, hw, hb⟩ := feed_frames d chunks fs s (fun f hf => ⟨hvalid f hf, hnoexec f hf⟩)
    (by rw [hempty]; exact Or.inl (by simp)) (by rw [hempty]; simpa using hcut) hwritable
  rw [h]
  exact ⟨rfl, hw, hb⟩

theorem C1_frames_reassembled_witness :
    (feed sampleDeps {} [[2, 0], [0, 0, 0x03, 0x41, 1], [], [0, 0, 0, 0x0e]]).status = .returned ∧
    (feed sampleDeps {} [[2, 0], [0, 0, 0x03, 0x41, 1], [], [0, 0, 0, 0x0e]]).session.written =
      ({} : Session).written ++ [⟨0, [0x03, 0x41]⟩, ⟨0, [0x0e]⟩].map Frame.encode ∧
    (feed sampleDeps {} [[2, 0], [0, 0, 0x03, 0x41, 1], [], [0, 0, 0, 0x0e]]).session.clientBuffer
      = [] :=
  C1_frames_reassembled_across_chunks sampleDeps [⟨0, [0x03, 0x41]⟩, ⟨0, [0x0e]⟩]
    [[2, 0], [0, 0, 0x03, 0x41, 1], [], [0, 0, 0, 0x0e]] {}
    (by decide) (by decide) (by decide) rfl rfl

/-! ## Execute frames: registry miss (C9), escaping exceptions (C2, C10) -/

theorem classify_execute_miss (d : Deps) (s : Session) (pkt payload : Buffer) (seq : Nat)
    (statementId : Nat)
    (hcmd : payload.head? = some 0x17) (hlen : 1 < payload.length)
    (hid : readUInt32LE payload 1 = .ok statementId)
    (hmiss : getStatement s.store statementId = none) :
    classify d s pkt payload seq =
      ({ s with console := s.console ++ [.statementDoesNotExist statementId] }, none) := by
  cases payload with
  | nil => simp at hcmd
  | cons b bs =>
    have hb : b = 0x17 := by simpa using hcmd
    subst hb
    have hauth : detectAuthPacket d s pkt ((0x17 : Byte) :: bs) seq (0x17 : Byte).val = s := by
      simp only [detectAuthPacket]
      split_ifs with h1 h2
      · exact absurd h2.1 (by decide)
      · rfl
      · rfl
    have hlen' : (0x17 :: bs : Buffer).length > 1 := hlen
    unfold classify
    simp only [hauth, hlen', if_true]
    have hv : (0x17 : Byte).val = 23 := rfl
    simp [hv, COM_STMT_EXECUTE, COM_QUERY, COM_STMT_PREPARE, COM_LONG_DATA, executeCase, hid,
      hmiss]

/-- C9: for every execute frame whose payload holds the four bytes of a statement
id (at least 5 bytes) and whose statement id, read little-endian at payload
offset 1, is not in the registry, processing the frame with the upstream socket
writable raises no exception, decodes and reconstructs nothing, emits no log
record, leaves the registry and the pending command unchanged and writes the
frame upstream unmodified; the only trace is one console line. -/
theorem C9_execute_of_unknown_statement_is_forwarded (d : Deps) (s : Session) (seq : Byte)
    (payload : Buffer) (statementId : Nat)
    (hcmd : payload.head? = some 0x17)
    (hfits : payload.length < 2 ^ 24)
    (hid : readUInt32LE payload 1 = .ok statementId)
    (hmiss : getStatement s.store statementId = none)
    (hempty : s.clientBuffer = [])
    (hwritable : s.serverWritable = true) :
    processMySQLClientData d s (encodeFrame seq payload) =
      ⟨{ s with
         written := s.written ++ [encodeFrame seq payload]
         console := s.console ++ [.statementDoesNotExist statementId] }, .returned⟩ := by
  have hlen5 : 5 ≤ payload.length := by
    unfold readUInt32LE readUIntLE at hid
    split at hid
    · omega
    · cases hid
  obtain ⟨k, hk⟩ : ∃ k, (encodeFrame seq payload).length / 4 = k + 1 :=
    ⟨(encodeFrame seq payload).length / 4 - 1, by rw [encodeFrame_length]; omega⟩
  unfold processMySQLClientData
  simp only [hempty, List.nil_append, hk]
  rw [clientLoop_frame d (k + 1) _ seq payload [] hfits (by simp),
    classify_execute_miss d { s with clientBuffer := encodeFrame seq payload } _ payload _
      statementId hcmd (by omega) hid hmiss]
  simp only [hwritable, if_true]
  rw [clientLoop_incomplete d k _ (Or.inl (by simp))]

theorem C9_execute_of_unknown_statement_witness :
    processMySQLClientData sampleDeps {} (encodeFrame 1 [0x17, 99, 0, 0, 0, 0, 1, 0, 0, 0]) =
      ⟨{ ({} : Session) with
         written := ({} : Session).written ++ [encodeFrame 1 [0x17, 99, 0, 0, 0, 0, 1, 0, 0, 0]]
         console := ({} : Session).console ++ [.statementDoesNotExist 99] }, .returned⟩ :=
  C9_execute_of_unknown_statement_is_forwarded sampleDeps {} 1
    [0x17, 99, 0, 0, 0, 0, 1, 0, 0, 0] 99 rfl (by decide) rfl rfl rfl rfl

/-- C2 fails on the code, with a writable upstream socket, on three complete frames.
The frame `02 00 00 00 17 00`, an execute whose payload ends inside the statement
id, makes `processMySQLClientData` raise a `RangeError`.  With statement 1
registered, the frame `05 00 00 00 17 01 00 00 00`, an execute whose payload ends
after the statement id, raises a `RangeError` inside `setExecuteStatementQuery`.
With statement 1 registered with one parameter and the template `SELECT 1`, a
well-formed execute carrying one TINY value raises `InvalidAmountOfPlaceholders`.
Each time nothing is written upstream and the frame stays in the accumulator. -/
theorem C2_execute_frames_raise_and_are_not_forwarded :
    processMySQLClientData sampleDeps {} (encodeFrame 0 [0x17, 0x00]) =
      ⟨{ clientBuffer := [2, 0, 0, 0, 0x17, 0x00], serverWritable := true, written := [] },
        .threw .rangeError⟩ ∧
    processMySQLClientData sampleDeps { store := [(1, statementOf "SELECT 1" 1 0)] }
        (encodeFrame 0 [0x17, 1, 0, 0, 0]) =
      ⟨{ clientBuffer := [5, 0, 0, 0, 0x17, 1, 0, 0, 0]
         store := [(1, statementOf "SELECT 1" 1 0)]
         serverWritable := true
         written := [] }, .threw .rangeError⟩ ∧
    (processMySQLClientData sampleDeps { store := [(1, statementOf "SELECT 1" 1 1)] }
        (encodeFrame 0 [0x17, 1, 0, 0, 0, 0, 1, 0, 0, 0, 0x00, 0x01, 0x01, 0x00, 0x05])).status =
      .threw (.invalidAmountOfPlaceholders "SELECT 1".toList [.number 5]) ∧
    (processMySQLClientData sampleDeps { store := [(1, statementOf "SELECT 1" 1 1)] }
        (encodeFrame 0 [0x17, 1, 0, 0, 0, 0, 1, 0, 0, 0, 0x00, 0x01, 0x01, 0x00, 0x05])
      ).session.written = [] := by
  decide

/-- C10 fails on the code: for the five-byte execute payload `17 01 00 00 00` the
read of the flags byte at offset 5, which stands before the `try` block, raises a
`RangeError` that leaves `setExecuteStatementQuery`, whatever the statement. -/
theorem C10_short_payload_exception_escapes (st : MysqlPreparedStatement) :
    setExecuteStatementQuery st [0x17, 0x01, 0x00, 0x00, 0x00] = .error .rangeError := by
  rfl

/-! ## Single frames, the correlator loop, the registry -/

/-- A call on an empty accumulator with exactly one complete frame. -/
theorem process_single_frame (d : Deps) (s : Session) (seq : Byte) (p : Buffer)
    (hfits : p.length < 2 ^ 24) (hempty : s.clientBuffer = []) :
    processMySQLClientData d s (encodeFrame seq p) =
      match classify d { s with clientBuffer := encodeFrame seq p } (encodeFrame seq p) p seq.val
      with
      | (s1, some e) => ⟨s1, .threw e⟩
      | (s1, none) =>
        if s1.serverWritable then
          ⟨{ s1 with written := s1.written ++ [encodeFrame seq p], clientBuffer := [] }, .returned⟩
        else ⟨notWritable d s1 p seq.val, .returned⟩ := by
  obtain ⟨k, hk⟩ : ∃ k, (encodeFrame seq p).length / 4 = k + 1 :=
    ⟨(encodeFrame seq p).length / 4 - 1, by rw [encodeFrame_length]; omega⟩
  unfold processMySQLClientData
  simp only [hempty, List.nil_append, hk]
  rw [clientLoop_frame d (k + 1) _ seq p [] hfits (by simp)]
  rcases classify d { s with clientBuffer := encodeFrame seq p } (encodeFrame seq p) p seq.val
    with ⟨s1, _ | e⟩
  · simp only
    split
    · rw [clientLoop_incomplete d k _ (Or.inl (by simp))]
    · rfl
  · rfl

theorem prepareLoop_frame (now : Nat) (cmd : ClientCommand) (fuel : Nat) (seq : Byte)
    (p rest : Buffer) (lastStatementId : Option Nat) (store : Store) (hp : p.length < 2 ^ 24) :
    prepareLoop now cmd (fuel + 1) (encodeFrame seq p ++ rest) lastStatementId store =
      if p.head? = some 0x00 then
        match readUInt32LE p 1 with
        | .error e => ⟨encodeFrame seq p ++ rest, some cmd, lastStatementId, store, .threw e⟩
        | .ok statementId =>
          match readUInt16LE p 7 with
          | .error e => ⟨encodeFrame seq p ++ rest, some cmd, lastStatementId, store, .threw e⟩
          | .ok paramCount =>
            prepareLoop now cmd fuel rest (some statementId)
              (addStatement store statementId (newStatement now cmd statementId paramCount))
      else prepareLoop now cmd fuel rest lastStatementId store := by
  have hlen : (encodeFrame seq p ++ rest).length = 4 + p.length + rest.length := by
    simp [encodeFrame]; omega
  have h3 : leValue ((encodeFrame seq p ++ rest).take 3) = p.length := by
    simpa [encodeFrame] using leValue_header p.length hp
  have hpkt : subarray (encodeFrame seq p ++ rest) 0 (p.length + 4) = encodeFrame seq p := by
    have : p.length + 4 = (encodeFrame seq p).length := by rw [encodeFrame_length]; omega
    simp [subarray, this]
  have hpay : subarrayFrom (encodeFrame seq p) 4 = p := by
    simp [subarrayFrom, encodeFrame]
  have hrest : subarrayFrom (encodeFrame seq p ++ rest) (p.length + 4) = rest := by
    have : p.length + 4 = (encodeFrame seq p).length := by rw [encodeFrame_length]; omega
    simp [subarrayFrom, this]
  rw [prepareLoop]
  simp only [h3, hpkt, hpay, hrest]
  have hge : (encodeFrame seq p ++ rest).length ≥ 4 := by omega
  have hnlt : ¬ (encodeFrame seq p ++ rest).length < p.length + 4 := by omega
  simp only [hge, hnlt, if_true, if_false]

theorem prepareLoop_nil (now : Nat) (cmd : ClientCommand) (fuel : Nat)
    (lastStatementId : Option Nat) (store : Store) :
    prepareLoop now cmd (fuel + 1) [] lastStatementId store = ⟨[], none, none, store, .returned⟩ := by
  simp [prepareLoop]

theorem getStatement_set (store : Store) (k : Nat) (v : MysqlPreparedStatement) :
    getStatement (store.set k v) k = some v := by
  induction store with
  | nil => simp [Store.set, getStatement, List.lookup]
  | cons e es ih =>
    obtain ⟨k0, v0⟩ := e
    by_cases h : k0 = k
    · simp [Store.set, h, getStatement, List.lookup]
    · have h' : (k == k0) = false := by simp; exact fun e => h e.symm
      simp only [getStatement] at ih
      simp [Store.set, h, getStatement, List.lookup, h', ih]

theorem getStatement_delete (store : Store) (k : Nat) :
    getStatement (deleteStatement store k) k = none := by
  induction store with
  | nil => simp [deleteStatement, getStatement, List.lookup]
  | cons e es ih =>
    obtain ⟨k0, v0⟩ := e
    simp only [getStatement, deleteStatement] at ih ⊢
    by_cases h : k0 = k
    · simp [List.filter, h, ih]
      exact fun a b _ h1 h2 => h1 h2.symm
    · have h' : (k == k0) = false := by simp; exact fun e => h e.symm
      simp [List.filter, h, List.lookup, h', ih]
      exact fun a b _ h1 h2 => h1 h2.symm

/-! ## Reads of encoded values -/

theorem readUIntLE_append (pre x post : Buffer) :
    readUIntLE (pre ++ (x ++ post)) pre.length x.length = .ok (leValue x) := by
  simp [readUIntLE]

theorem leValue_u16le (n : Nat) (h : n < 2 ^ 16) : leValue (u16le n) = n := by
  simp only [leValue, u16le, byteOf]
  omega

theorem leValue_u32le (n : Nat) (h : n < 2 ^ 32) : leValue (u32le n) = n := by
  simp only [leValue, u32le, byteOf]
  omega

theorem toSigned_i32le (v : Int) (h1 : -2 ^ 31 ≤ v) (h2 : v < 2 ^ 31) :
    toSigned (8 * 4) (leValue (i32le v)) = v := by
  have hn : (v % 4294967296).toNat < 2 ^ 32 := by omega
  rw [i32le, leValue_u32le _ hn]
  simp only [toSigned]
  norm_num
  split_ifs with h <;> omega

theorem detectAuthPacket_known (d : Deps) (s : Session) (pkt p : Buffer) (seq c : Nat)
    (h : knownCommands.contains c = true) : detectAuthPacket d s pkt p seq c = s := by
  simp only [detectAuthPacket, h]
  split_ifs with h1 h2
  · simp at h2
  · rfl
  · rfl

/-- The codec on the execute payload of the scenario. -/
theorem setExecuteStatementQuery_scenario (st : MysqlPreparedStatement) (s : Nat) (flags : Byte)
    (v : Int) (w : Buffer) (hcount : st.paramCount = 2)
    (hv1 : -2 ^ 31 ≤ v) (hv2 : v < 2 ^ 31) (hw : w.length < 251) :
    setExecuteStatementQuery st (executePayload s flags v w) =
      .ok { st with
        flags := some flags.val
        iterationCount := some 1
        newParamsBoundFlag := some 1
        paramTypes := some [0x03, 0xFD]
        paramValues := some [.number v, .string (utf8Decode w)]
        paramValuesRaw := some (toHex (i32le v ++ byteOf w.length :: w))
        nullBitmap := some (toHex [0x00]) } := by
  revert hcount
  obtain ⟨date, statementId, paramCount, f1, f2, f3, f4, f5, f6, f7, f8, f9, pl, cid, sq, cb,
    qy⟩ := st
  intro hcount
  obtain rfl : paramCount = 2 := hcount
  have hlen : ∀ (a b c d e f g h i j k l m n o p q r t u x : Byte),
      (a :: b :: c :: d :: e :: f :: g :: h :: i :: j :: k :: l :: m :: n :: o :: p :: q :: r ::
        t :: u :: x :: w).length = w.length + 21 := by
    intros; simp
  have hb : (byteOf w.length).val = w.length := by
    simp only [byteOf]; omega
  have key : toSigned 32 (leValue [byteOf (v % 4294967296).toNat,
      byteOf ((v % 4294967296).toNat / 256), byteOf ((v % 4294967296).toNat / 65536),
      byteOf ((v % 4294967296).toNat / 16777216)]) = v := toSigned_i32le v hv1 hv2
  simp only [setExecuteStatementQuery, setExecuteStatementQueryTry, executePayload, u32le, i32le,
    readUInt8, readUInt16LE, readUInt32LE, readUIntLE, List.cons_append, List.nil_append,
    hlen, readParamTypes, readParamValues, readParamValue, readTagged, readInt32LE, readIntLE, isNull,
    subarray, subarrayFrom]
  simp only [List.drop_succ_cons, List.drop_zero, List.take_succ_cons, List.take_zero,
    List.length_cons, List.length_nil]
  have e1 : leValue [flags] = flags.val := by simp [leValue]
  have e2 : leValue [byteOf 1, byteOf (1 / 256), byteOf (1 / 65536), byteOf (1 / 16777216)] = 1 :=
    rfl
  have e3 : leValue [(1 : Byte)] = 1 := rfl
  have e4 : leValue [(3 : Byte), 0] = 3 := rfl
  have e5 : leValue [(253 : Byte), 0] = 253 := rfl
  have e6 : leValue [byteOf w.length] = w.length := by simp [leValue, hb]
  have e7 : leValue [(0 : Byte)] = 0 := rfl
  simp [e1, e2, e3, e4, e5, e6, e7, key, Except.map, MYSQL_TYPE_TINY, MYSQL_TYPE_SHORT,
    MYSQL_TYPE_LONG, MYSQL_TYPE_INT24, MYSQL_TYPE_LONGLONG, MYSQL_TYPE_FLOAT, MYSQL_TYPE_DOUBLE,
    MYSQL_TYPE_STRING, MYSQL_TYPE_VARCHAR, MYSQL_TYPE_VAR_STRING, MYSQL_TYPE_BLOB, hw, readText, subarray,
    show 21 + w.length = w.length + 21 from Nat.add_comm _ _]

/-! ## The three steps of the prepare / execute scenario -/

/-- A prepare frame: the pending command is set, nothing is logged, the frame is
written upstream. -/
theorem prepare_step (d : Deps) (s : Session) (seq : Byte) (q : Buffer)
    (hq : q ≠ []) (hfits : (0x16 :: q : Buffer).length < 2 ^ 24)
    (hempty : s.clientBuffer = []) (hwritable : s.serverWritable = true) :
    processMySQLClientData d s (encodeFrame seq (0x16 :: q)) =
      ⟨{ s with
         lastClientCommand := some
           { payload := 0x16 :: q
             clientId := d.clientId
             sequenceId := seq.val
             commandByte := COM_STMT_PREPARE
             query := utf8Decode q }
         written := s.written ++ [encodeFrame seq (0x16 :: q)] }, .returned⟩ := by
  have hlen : 1 < (0x16 :: q : Buffer).length := by
    cases q with
    | nil => exact absurd rfl hq
    | cons a b => simp
  have hc : classify d { s with clientBuffer := encodeFrame seq (0x16 :: q) }
      (encodeFrame seq (0x16 :: q)) (0x16 :: q) seq.val =
      ({ s with
         clientBuffer := encodeFrame seq (0x16 :: q)
         lastClientCommand := some
           { payload := 0x16 :: q
             clientId := d.clientId
             sequenceId := seq.val
             commandByte := COM_STMT_PREPARE
             query := utf8Decode q } }, none) := by
    have hv : (0x16 : Byte).val = 22 := rfl
    unfold classify
    simp only [detectAuthPacket_known d _ _ _ _ _ (show knownCommands.contains (0x16 : Byte).val
      = true from by decide)]
    simp [hv, COM_STMT_EXECUTE, COM_QUERY, COM_STMT_PREPARE, COM_LONG_DATA, subarrayFrom]
    intro h
    exact absurd h hq
  rw [process_single_frame d s seq _ hfits hempty, hc]
  simp [hwritable, hempty]

/-- The acknowledgement of a prepare, alone in its chunk: the statement is
registered under its id and the pending command is cleared. -/
theorem ack_step (now : Nat) (cmd : ClientCommand) (seq : Byte)
    (statementId numColumns paramCount warningCount : Nat) (lastStatementId : Option Nat)
    (store : Store) (hcmd : cmd.commandByte = COM_STMT_PREPARE)
    (hid : statementId < 2 ^ 32) (hcount : paramCount < 2 ^ 16) :
    handleStatementPrepareResponse now
      (encodeFrame seq (ackPayload statementId numColumns paramCount warningCount)) []
      (some cmd) lastStatementId store =
      ⟨[], none, none,
        addStatement store statementId (newStatement now cmd statementId paramCount),
        .returned⟩ := by
  have h1 : readUInt32LE (ackPayload statementId numColumns paramCount warningCount) 1 =
      .ok statementId := by
    have := readUIntLE_append [0x00] (u32le statementId)
      (u16le numColumns ++ u16le paramCount ++ [0x00] ++ u16le warningCount)
    rw [leValue_u32le _ hid] at this
    exact this
  have h2 : readUInt16LE (ackPayload statementId numColumns paramCount warningCount) 7 =
      .ok paramCount := by
    have := readUIntLE_append (0x00 :: (u32le statementId ++ u16le numColumns))
      (u16le paramCount) ([0x00] ++ u16le warningCount)
    rw [leValue_u16le _ hcount] at this
    simpa [ackPayload, readUInt16LE, u32le, u16le] using this
  have hfits : (ackPayload statementId numColumns paramCount warningCount).length < 2 ^ 24 := by
    simp [ackPayload, u32le, u16le]
  have hfuel : ([] ++ encodeFrame seq
      (ackPayload statementId numColumns paramCount warningCount)).length / 4 + 1 = 3 + 1 + 1 := by
    simp [encodeFrame, ackPayload, u32le, u16le]
  simp only [handleStatementPrepareResponse, hcmd, if_true, hfuel]
  have := prepareLoop_frame now cmd (3 + 1) seq
    (ackPayload statementId numColumns paramCount warningCount) [] lastStatementId store hfits
  simp only [List.append_nil] at this
  simp only [List.nil_append]
  rw [this, h1, h2]
  simp only [prepareLoop_nil]
  simp [ackPayload]

theorem classify_execute_hit (d : Deps) (s : Session) (pkt payload : Buffer) (seq : Nat)
    (statementId : Nat) (st st1 : MysqlPreparedStatement) (text : JsString)
    (hcmd : payload.head? = some 0x17) (hlen : 1 < payload.length)
    (hid : readUInt32LE payload 1 = .ok statementId)
    (hhit : getStatement s.store statementId = some st)
    (hset : setExecuteStatementQuery st payload = .ok st1)
    (htext : getQueryWithParameters d.fmt st1 = .ok text) :
    classify d s pkt payload seq =
      ({ s with
         logs := s.logs ++ [.queryLogMessage COM_STMT_EXECUTE text]
         store := deleteStatement (s.store.set statementId st1) statementId }, none) := by
  cases payload with
  | nil => simp at hcmd
  | cons b bs =>
    have hb : b = 0x17 := by simpa using hcmd
    subst hb
    have hlen' : (0x17 :: bs : Buffer).length > 1 := hlen
    have hv : (0x17 : Byte).val = 23 := rfl
    unfold classify
    simp only [detectAuthPacket_known d _ _ _ _ _ (show knownCommands.contains (0x17 : Byte).val
      = true from by decide), hlen', if_true]
    simp [hv, COM_STMT_EXECUTE, COM_QUERY, COM_STMT_PREPARE, COM_LONG_DATA, executeCase, hid,
      hhit, hset, htext]

/-- An execute frame of a registered statement that decodes and reconstructs: one
query log record, the statement deleted, the frame written upstream. -/
theorem execute_step (d : Deps) (s : Session) (seq : Byte) (payload : Buffer)
    (statementId : Nat) (st st1 : MysqlPreparedStatement) (text : JsString)
    (hcmd : payload.head? = some 0x17) (hlen : 1 < payload.length)
    (hfits : payload.length < 2 ^ 24)
    (hid : readUInt32LE payload 1 = .ok statementId)
    (hhit : getStatement s.store statementId = some st)
    (hset : setExecuteStatementQuery st payload = .ok st1)
    (htext : getQueryWithParameters d.fmt st1 = .ok text)
    (hempty : s.clientBuffer = []) (hwritable : s.serverWritable = true) :
    processMySQLClientData d s (encodeFrame seq payload) =
      ⟨{ s with
         logs := s.logs ++ [.queryLogMessage COM_STMT_EXECUTE text]
         store := deleteStatement (s.store.set statementId st1) statementId
         written := s.written ++ [encodeFrame seq payload] }, .returned⟩ := by
  rw [process_single_frame d s seq _ hfits hempty,
    classify_execute_hit d { s with clientBuffer := encodeFrame seq payload } _ payload _
      statementId st st1 text hcmd hlen hid hhit hset htext]
  simp [hwritable, hempty]

/-- Reconstruction for the template of the scenario: a number, then a text. -/
theorem getQueryWithParameters_scenario (fmt : Buffer → JsString) (st : MysqlPreparedStatement)
    (v : Int) (w : JsString) (hq : st.query = scenarioTemplate.toList)
    (hvalues : st.paramValues = some [.number v, .string w]) :
    getQueryWithParameters fmt st = .ok (scenarioText v w) := by
  have ht : scenarioTemplate.toList =
      "SELECT * FROM t WHERE id = ".toList ++ '?' :: (" AND name = ".toList ++ '?' :: []) := by
    decide
  have ha : '?' ∉ "SELECT * FROM t WHERE id = ".toList := by decide
  have hb : '?' ∉ "SELECT * FROM t WHERE id = ".toList ++ intToString v ++ " AND name = ".toList := by
    have := intToString_no_placeholder v
    have hc : '?' ∉ " AND name = ".toList := by decide
    simp only [List.mem_append, not_or]
    exact ⟨⟨ha, this⟩, hc⟩
  simp only [getQueryWithParameters, hvalues, hq, List.map, decorateParamValue]
  rw [ht, substituteParams_cons _ _ _ _ _ _ ha]
  rw [← List.append_assoc, substituteParams_cons _ _ _ _ _ _ hb]
  simp [substituteParams, scenarioText]

/-! ## The prepare / acknowledge / execute scenario (C6) -/

/-- C6: end to end, for every statement id `s`, every 4-byte signed integer `v`
and every text `w` of fewer than 251 bytes: after a client prepare frame carrying
the template `SELECT * FROM t WHERE id = ? AND name = ?`, a server acknowledgement
carrying statement id `s` and parameter count 2, and a client execute frame for
`s` with null bitmap `00`, new-params-bound flag 1, type tags LONG and VAR_STRING
and the values `v` and `w`, nothing is raised, exactly one log record has been
emitted, a query log record with command byte 0x17 and the text
`SELECT * FROM t WHERE id = <v> AND name = "<w>"`, and `s` is no longer in the
registry.  Whether `w` contains a `?` does not matter, it is substituted last. -/
theorem C6_prepare_then_execute_logs_the_reconstructed_query (d : Deps) (now : Nat)
    (c : Connection) (s : Nat) (v : Int) (w : Buffer) (seqP seqA seqE flags : Byte)
    (numColumns warningCount : Nat)
    (hs : s < 2 ^ 32) (hv1 : -2 ^ 31 ≤ v) (hv2 : v < 2 ^ 31) (hw : w.length < 251)
    (hclient : c.session.clientBuffer = []) (hserver : c.serverResponseBuffer = [])
    (hupstream : c.session.serverWritable = true) (hdownstream : c.clientWritable = true) :
    let c1 := (onClientData d c (encodeFrame seqP (preparePayload scenarioTemplate))).1
    let c2 := (onServerData d now c1 (encodeFrame seqA (ackPayload s numColumns 2 warningCount))).1
    let r := onClientData d c2 (encodeFrame seqE (executePayload s flags v w))
    r.2 = .returned ∧
    r.1.session.logs =
      c.session.logs ++ [.queryLogMessage 0x17 (scenarioText v (utf8Decode w))] ∧
    getStatement r.1.session.store s = none := by
  intro c1 c2 r
  have hq : utf8Decode (asciiBytes scenarioTemplate) = scenarioTemplate.toList := by decide
  let cmd : ClientCommand :=
    { payload := 0x16 :: asciiBytes scenarioTemplate
      clientId := d.clientId
      sequenceId := seqP.val
      commandByte := COM_STMT_PREPARE
      query := utf8Decode (asciiBytes scenarioTemplate) }
  let s1 : Session :=
    { c.session with
      lastClientCommand := some cmd
      written := c.session.written ++ [encodeFrame seqP (0x16 :: asciiBytes scenarioTemplate)] }
  let s2 : Session :=
    { s1 with
      lastClientCommand := none
      store := addStatement c.session.store s (newStatement now cmd s 2) }
  -- the prepare
  have h1 : processMySQLClientData d c.session (encodeFrame seqP (preparePayload scenarioTemplate))
      = ⟨s1, .returned⟩ :=
    prepare_step d c.session seqP (asciiBytes scenarioTemplate) (by decide) (by decide)
      hclient hupstream
  have hc1 : c1 = { c with session := s1 } := by
    show (onClientData d c (encodeFrame seqP (preparePayload scenarioTemplate))).1 = _
    simp only [onClientData, h1]
  -- the acknowledgement
  have h2 := ack_step now cmd seqA s numColumns 2 warningCount
    c.lastStatementId c.session.store rfl hs (by decide)
  have hc2 : c2.session = s2 := by
    show (onServerData d now c1
      (encodeFrame seqA (ackPayload s numColumns 2 warningCount))).1.session = _
    rw [hc1]
    simp only [onServerData, hdownstream, hserver, if_true]
    rw [h2]
  -- the execute
  have hset := setExecuteStatementQuery_scenario (newStatement now cmd s 2) s flags v w rfl
    hv1 hv2 hw
  have hid : readUInt32LE (executePayload s flags v w) 1 = .ok s := by
    have := readUIntLE_append [0x17] (u32le s) (flags :: (u32le 1 ++
      0x00 :: 0x01 :: 0x03 :: 0x00 :: 0xFD :: 0x00 :: (i32le v ++ byteOf w.length :: w)))
    rw [leValue_u32le _ hs] at this
    exact this
  have hplen : (executePayload s flags v w).length = w.length + 21 := by
    simp [executePayload, u32le, i32le]
  have h3 := execute_step d s2 seqE (executePayload s flags v w) s _ _
    (scenarioText v (utf8Decode w)) rfl (by omega) (by omega) hid
    (getStatement_set _ _ _) hset
    (getQueryWithParameters_scenario d.fmt _ v (utf8Decode w) hq rfl) hclient hupstream
  refine ⟨?_, ?_, ?_⟩
  · show (processMySQLClientData d c2.session
      (encodeFrame seqE (executePayload s flags v w))).status = _
    rw [hc2, h3]
  · show (processMySQLClientData d c2.session
      (encodeFrame seqE (executePayload s flags v w))).session.logs = _
    rw [hc2, h3]
    rfl
  · show getStatement (processMySQLClientData d c2.session
      (encodeFrame seqE (executePayload s flags v w))).session.store s = _
    rw [hc2, h3]
    exact getStatement_delete _ _

theorem C6_prepare_then_execute_witness :
    (onClientData sampleDeps
        (onServerData sampleDeps 1000
          (onClientData sampleDeps {} (encodeFrame 0 (preparePayload scenarioTemplate))).1
          (encodeFrame 1 (ackPayload 7 0 2 0))).1
        (encodeFrame 0 (executePayload 7 0 42 [0x62, 0x6f, 0x62]))).2 = .returned ∧
    (onClientData sampleDeps
        (onServerData sampleDeps 1000
          (onClientData sampleDeps {} (encodeFrame 0 (preparePayload scenarioTemplate))).1
          (encodeFrame 1 (ackPayload 7 0 2 0))).1
        (encodeFrame 0 (executePayload 7 0 42 [0x62, 0x6f, 0x62]))).1.session.logs =
      [.queryLogMessage 0x17
        ("SELECT * FROM t WHERE id = 42 AND name = ".toList ++ dquote :: "bob".toList ++ [dquote])] ∧
    getStatement
      (onClientData sampleDeps
        (onServerData sampleDeps 1000
          (onClientData sampleDeps {} (encodeFrame 0 (preparePayload scenarioTemplate))).1
          (encodeFrame 1 (ackPayload 7 0 2 0))).1
        (encodeFrame 0 (executePayload 7 0 42 [0x62, 0x6f, 0x62]))).1.session.store 7 = none :=
  C6_prepare_then_execute_logs_the_reconstructed_query sampleDeps 1000 {} 7 42 [0x62, 0x6f, 0x62]
    0 1 0 0 0 0 (by decide) (by decide) (by decide) (by decide) rfl rfl rfl rfl

/-! ## The null bitmap (C7) -/

theorem and_shiftLeft_ne_zero (b k : Nat) : ((b &&& (1 <<< k)) != 0) = b.testBit k := by
  rw [Nat.one_shiftLeft]
  cases h : b.testBit k
  · have h0 : b &&& 2 ^ k = 0 := by
      apply Nat.eq_of_testBit_eq
      intro i
      simp only [Nat.testBit_and, Nat.testBit_two_pow, Nat.zero_testBit, Bool.and_eq_false_imp,
        decide_eq_false_iff_not]
      intro hb hki
      subst hki
      simp [h] at hb
    simp [h0]
  · have h0 : b &&& 2 ^ k ≠ 0 := by
      intro e
      have := congrArg (fun x => x.testBit k) e
      simp [Nat.testBit_two_pow, h] at this
    simp [h0]

theorem except_map_ne_null {α : Type} (x : Except JsError α) (f : α → ParamValue × Nat)
    (hf : ∀ a, (f a).1 ≠ .null) (v : ParamValue) (n : Nat) (h : x.map f = .ok (v, n)) :
    v ≠ .null := by
  cases x with
  | error e => simp [Except.map] at h
  | ok a =>
    simp only [Except.map, Except.ok.injEq] at h
    have := hf a
    rw [h] at this
    exact this

/-- A successful value read never yields `null`. -/
theorem readParamValue_ne_null (payload : Buffer) (paramType offset : Nat) (v : ParamValue)
    (next : Nat) (h : readParamValue payload paramType offset = .ok (v, next)) : v ≠ .null := by
  unfold readParamValue readTagged at h
  by_cases c1 : paramType % 256 = MYSQL_TYPE_TINY
  · rw [if_pos c1] at h
    exact except_map_ne_null _ _ (fun a => by simp) _ _ h
  rw [if_neg c1] at h
  by_cases c2 : paramType % 256 = MYSQL_TYPE_SHORT
  · rw [if_pos c2] at h
    exact except_map_ne_null _ _ (fun a => by simp) _ _ h
  rw [if_neg c2] at h
  by_cases c3 : paramType % 256 = MYSQL_TYPE_LONG ∨ paramType % 256 = MYSQL_TYPE_INT24
  · rw [if_pos c3] at h
    exact except_map_ne_null _ _ (fun a => by simp) _ _ h
  rw [if_neg c3] at h
  by_cases c4 : paramType % 256 = MYSQL_TYPE_LONGLONG
  · rw [if_pos c4] at h
    exact except_map_ne_null _ _ (fun a => by simp) _ _ h
  rw [if_neg c4] at h
  by_cases c5 : paramType % 256 = MYSQL_TYPE_FLOAT
  · rw [if_pos c5] at h
    exact except_map_ne_null _ _ (fun a => by simp) _ _ h
  rw [if_neg c5] at h
  by_cases c6 : paramType % 256 = MYSQL_TYPE_DOUBLE
  · rw [if_pos c6] at h
    exact except_map_ne_null _ _ (fun a => by simp) _ _ h
  rw [if_neg c6] at h
  by_cases c7 : paramType % 256 = MYSQL_TYPE_STRING ∨ paramType % 256 = MYSQL_TYPE_VARCHAR ∨
      paramType % 256 = MYSQL_TYPE_VAR_STRING ∨ paramType % 256 = MYSQL_TYPE_BLOB
  · rw [if_pos c7] at h
    cases hr : readUInt8 payload offset with
    | error e => simp [hr] at h
    | ok strLen =>
      simp only [hr] at h
      by_cases d1 : strLen < 251
      · rw [if_pos d1] at h
        simp only [readText, Except.ok.injEq, Prod.mk.injEq] at h
        rw [← h.1]
        simp
      rw [if_neg d1] at h
      by_cases d2 : strLen = 252
      · rw [if_pos d2] at h
        exact except_map_ne_null _ _ (fun a => by simp [readText]) _ _ h
      rw [if_neg d2] at h
      by_cases d3 : strLen = 253
      · rw [if_pos d3] at h
        exact except_map_ne_null _ _ (fun a => by simp [readText]) _ _ h
      rw [if_neg d3] at h
      exact except_map_ne_null _ _ (fun a => by simp [readText]) _ _ h
  rw [if_neg c7] at h
  by_cases c8 : paramType % 256 = MYSQL_TYPE_DATE ∨ paramType % 256 = MYSQL_TYPE_DATETIME ∨
      paramType % 256 = MYSQL_TYPE_TIMESTAMP
  · rw [if_pos c8] at h
    exact except_map_ne_null _ _ (fun a => by simp [readHex]) _ _ h
  rw [if_neg c8] at h
  by_cases c9 : paramType % 256 = MYSQL_TYPE_TIME
  · rw [if_pos c9] at h
    exact except_map_ne_null _ _ (fun a => by simp [readHex]) _ _ h
  rw [if_neg c9] at h
  simp only [readHex, Except.ok.injEq, Prod.mk.injEq] at h
  rw [← h.1]
  simp

theorem readParamValues_spec (payload nullBitmap : Buffer) (paramTypes : List Nat) :
    ∀ (count i offset : Nat) (values : List ParamValue),
      readParamValues payload nullBitmap paramTypes count i offset = .ok values →
      values.length = count ∧
      (∀ k, k < count → (values[k]? = some .null ↔ isNull nullBitmap (i + k) = true)) ∧
      readBackToBack payload paramTypes
        ((List.range' i count).filter fun j => !isNull nullBitmap j) offset =
        .ok (values.filter fun v => v ≠ .null) := by
  intro count
  induction count with
  | zero =>
    intro i offset values h
    simp only [readParamValues, Except.ok.injEq] at h
    subst h
    simp [readBackToBack]
  | succ n ih =>
    intro i offset values h
    unfold readParamValues at h
    by_cases hn : isNull nullBitmap i = true
    · rw [if_pos hn] at h
      cases hrec : readParamValues payload nullBitmap paramTypes n (i + 1) offset with
      | error e => simp [hrec] at h
      | ok vs =>
        simp only [hrec, Except.ok.injEq] at h
        subst h
        obtain ⟨hl, hb, hr⟩ := ih (i + 1) offset vs hrec
        refine ⟨by simp [hl], ?_, ?_⟩
        · intro k hk
          cases k with
          | zero => simp [hn]
          | succ k =>
            have := hb k (by omega)
            simpa [Nat.add_assoc, Nat.add_comm 1 k] using this
        · simp [List.range', hn, hr]
    · rw [if_neg hn] at h
      cases hval : readParamValue payload ((paramTypes[i]?).getD 0) offset with
      | error e => simp [hval] at h
      | ok r =>
        obtain ⟨v, next⟩ := r
        simp only [hval] at h
        cases hrec : readParamValues payload nullBitmap paramTypes n (i + 1) next with
        | error e => simp [hrec] at h
        | ok vs =>
          simp only [hrec, Except.ok.injEq] at h
          subst h
          obtain ⟨hl, hb, hr⟩ := ih (i + 1) next vs hrec
          have hv : v ≠ .null := readParamValue_ne_null _ _ _ _ _ hval
          refine ⟨by simp [hl], ?_, ?_⟩
          · intro k hk
            cases k with
            | zero => simp [hn, hv]
            | succ k =>
              have := hb k (by omega)
              simpa [Nat.add_assoc, Nat.add_comm 1 k] using this
          · simp [List.range', hn, hr, readBackToBack, hval, hv]

theorem readParamTypes_spec (payload : Buffer) :
    ∀ (count offset : Nat) (paramTypes : List Nat) (stop : Nat),
      readParamTypes payload count offset = .ok (paramTypes, stop) →
      stop = offset + count * 2 ∧ paramTypes.length = count := by
  intro count
  induction count with
  | zero =>
    intro offset paramTypes stop h
    simp only [readParamTypes, Except.ok.injEq, Prod.mk.injEq] at h
    simp [← h.1, ← h.2]
  | succ n ih =>
    intro offset paramTypes stop h
    unfold readParamTypes at h
    cases h1 : readUInt16LE payload offset with
    | error e => simp [h1] at h
    | ok t =>
      simp only [h1] at h
      cases h2 : readParamTypes payload n (offset + 2) with
      | error e => simp [h2] at h
      | ok r =>
        obtain ⟨ts, st⟩ := r
        simp only [h2, Except.ok.injEq, Prod.mk.injEq] at h
        obtain ⟨hs, hl⟩ := ih _ _ _ h2
        refine ⟨?_, ?_⟩
        · rw [← h.2, hs]; omega
        · rw [← h.1]; simp [hl]

/-- The null test reads the bit of the payload byte behind the ten header bytes. -/
theorem isNull_subarray (payload : Buffer) (nullBitmapBytes i : Nat)
    (hi : i / 8 < nullBitmapBytes) (hlen : 10 + nullBitmapBytes ≤ payload.length) :
    isNull (subarray payload 10 (10 + nullBitmapBytes)) i =
      Nat.testBit (payload.getD (10 + i / 8) 0).val (i % 8) := by
  have hget : (subarray payload 10 (10 + nullBitmapBytes))[i / 8]? = payload[10 + i / 8]? := by
    simp only [subarray, List.getElem?_drop]
    rw [List.getElem?_take_of_lt (by omega)]
  have hsome : payload[10 + i / 8]? = some (payload.getD (10 + i / 8) 0) := by
    rw [List.getD_eq_getElem?_getD, List.getElem?_eq_getElem (by omega)]
    simp
  simp only [isNull, hget, hsome]
  exact and_shiftLeft_ne_zero _ _

/-- What a call that recorded values went through. -/
theorem setExecuteStatementQuery_values (st st1 : MysqlPreparedStatement) (payload : Buffer)
    (values : List ParamValue) (hcount : 0 < st.paramCount) (hfresh : st.paramValues = none)
    (hset : setExecuteStatementQuery st payload = .ok st1)
    (hvalues : st1.paramValues = some values) :
    ∃ paramTypes,
      10 + (st.paramCount + 7) / 8 + 1 ≤ payload.length ∧
      st1.paramTypes = some paramTypes ∧ st1.newParamsBoundFlag = some 1 ∧
      st1.query = st.query ∧
      readParamValues payload (subarray payload 10 (10 + (st.paramCount + 7) / 8)) paramTypes
        st.paramCount 0 (10 + (st.paramCount + 7) / 8 + 1 + st.paramCount * 2) = .ok values := by
  unfold setExecuteStatementQuery at hset
  cases h5 : readUInt8 payload 5 with
  | error e => simp [h5] at hset
  | ok flags =>
    cases h6 : readUInt32LE payload 6 with
    | error e => simp [h5, h6] at hset
    | ok iterationCount =>
      simp only [h5, h6, Except.ok.injEq] at hset
      subst hset
      have hgt : st.paramCount > 0 := hcount
      unfold setExecuteStatementQueryTry at hvalues ⊢
      simp only [hgt, if_true] at hvalues ⊢
      cases hf : readUInt8 payload (10 + (st.paramCount + 7) / 8) with
      | error e => simp [hf, hfresh] at hvalues
      | ok flag =>
        have hlen : 10 + (st.paramCount + 7) / 8 + 1 ≤ payload.length := by
          unfold readUInt8 readUIntLE at hf
          split at hf
          · assumption
          · cases hf
        simp only [hf] at hvalues ⊢
        by_cases h1 : flag = 1
        · simp only [h1, if_true] at hvalues ⊢
          cases ht : readParamTypes payload st.paramCount (10 + (st.paramCount + 7) / 8 + 1) with
          | error e => simp [ht, hfresh] at hvalues
          | ok r =>
            obtain ⟨paramTypes, offset⟩ := r
            obtain ⟨hoff, -⟩ := readParamTypes_spec _ _ _ _ _ ht
            subst hoff
            simp only [ht] at hvalues ⊢
            cases hv : readParamValues payload (subarray payload 10 (10 + (st.paramCount + 7) / 8))
                paramTypes st.paramCount 0
                (10 + (st.paramCount + 7) / 8 + 1 + st.paramCount * 2) with
            | error e => simp [hv, hfresh] at hvalues
            | ok vs =>
              simp only [hv, Option.some.injEq] at hvalues ⊢
              subst hvalues
              refine ⟨paramTypes, hlen, ?_, ?_, ?_, ?_⟩ <;> first | rfl | trivial
        · simp [h1, hfresh] at hvalues

/-! ### Null parameters -/

/-- C7: for an execute payload decoded for a fresh statement with paramCount n > 0
(values are recorded, which takes the new-params-bound flag 1): there are n
values; parameter i is decoded as null exactly when bit (i mod 8) of null-bitmap
byte floor(i / 8), the payload byte at offset 10 + floor(i / 8), is set; a null
parameter consumes no value bytes, that is, the non-null values are those of the
non-null parameters read back to back from the end of the type tags; null is
rendered as `NULL`; and with two parameters, bit 0 set and bit 1 clear, the second
value is read at offset 16, where the first would have started, and the text has
`NULL` at the first placeholder and the second value at the second. -/
theorem C7_null_parameters_consume_no_bytes (fmt : Buffer → JsString)
    (st st1 : MysqlPreparedStatement) (payload : Buffer) (values : List ParamValue)
    (hcount : 0 < st.paramCount) (hfresh : st.paramValues = none)
    (hset : setExecuteStatementQuery st payload = .ok st1)
    (hvalues : st1.paramValues = some values) :
    ∃ paramTypes, st1.paramTypes = some paramTypes ∧ st1.newParamsBoundFlag = some 1 ∧
      values.length = st.paramCount ∧
      (∀ i, i < st.paramCount →
        (values[i]? = some .null ↔
          Nat.testBit (payload.getD (10 + i / 8) 0).val (i % 8) = true)) ∧
      readBackToBack payload paramTypes
        ((List.range st.paramCount).filter fun i =>
          !Nat.testBit (payload.getD (10 + i / 8) 0).val (i % 8))
        (10 + (st.paramCount + 7) / 8 + 1 + st.paramCount * 2) =
        .ok (values.filter fun v => v ≠ .null) ∧
      decorateParamValue fmt .null = ['N', 'U', 'L', 'L'] ∧
      (st.paramCount = 2 → Nat.testBit (payload.getD 10 0).val 0 = true →
        Nat.testBit (payload.getD 10 0).val 1 = false →
        ∃ v next, readParamValue payload ((paramTypes[1]?).getD 0) 16 = .ok (v, next) ∧
          values = [.null, v] ∧
          ∀ a b c : JsString, '?' ∉ a → '?' ∉ b → st.query = a ++ '?' :: (b ++ '?' :: c) →
            getQueryWithParameters fmt st1 =
              .ok (a ++ ['N', 'U', 'L', 'L'] ++ b ++ decorateParamValue fmt v ++ c)) := by
  obtain ⟨paramTypes, hlen, htypes, hflag, hquery, hread⟩ :=
    setExecuteStatementQuery_values st st1 payload values hcount hfresh hset hvalues
  obtain ⟨hl, hb, hr⟩ := readParamValues_spec _ _ _ _ _ _ _ hread
  have hbit : ∀ i, i < st.paramCount →
      isNull (subarray payload 10 (10 + (st.paramCount + 7) / 8)) i =
        Nat.testBit (payload.getD (10 + i / 8) 0).val (i % 8) := by
    intro i hi
    exact isNull_subarray payload _ i (by omega) (by omega)
  have hfilter : (List.range' 0 st.paramCount).filter
      (fun j => !isNull (subarray payload 10 (10 + (st.paramCount + 7) / 8)) j) =
      (List.range st.paramCount).filter fun i =>
        !Nat.testBit (payload.getD (10 + i / 8) 0).val (i % 8) := by
    rw [← List.range_eq_range']
    apply List.filter_congr
    intro i hi
    rw [hbit i (List.mem_range.mp hi)]
  rw [hfilter] at hr
  refine ⟨paramTypes, htypes, hflag, hl, ?_, hr, rfl, ?_⟩
  · intro i hi
    rw [← hbit i hi]
    simpa using hb i hi
  · intro h2 hb0 hb1
    simp only [h2] at hr hl hb hbit
    have hn0 : isNull (subarray payload 10 (10 + (2 + 7) / 8)) 0 = true := by
      rw [hbit 0 (by omega)]
      simpa using hb0
    have hn1 : isNull (subarray payload 10 (10 + (2 + 7) / 8)) 1 = false := by
      rw [hbit 1 (by omega)]
      simpa using hb1
    have hfl : (List.range 2).filter (fun i =>
        !Nat.testBit (payload.getD (10 + i / 8) 0).val (i % 8)) = [1] := by
      have hr2 : List.range 2 = [0, 1] := rfl
      rw [hr2, List.filter_cons_of_neg (by simpa using hb0),
        List.filter_cons_of_pos (by simpa using hb1), List.filter_nil]
    rw [hfl] at hr
    match values, hl with
    | [x, y], _ =>
      have hx : x = .null := by
        have := (hb 0 (by omega)).mpr (by simpa using hn0)
        simpa using this
      have hy : y ≠ .null := by
        intro e
        have := (hb 1 (by omega)).mp (by simp [e])
        simp [hn1] at this
      subst hx
      simp only [readBackToBack] at hr
      cases hv : readParamValue payload ((paramTypes[1]?).getD 0)
          (10 + (2 + 7) / 8 + 1 + 2 * 2) with
      | error e => simp [hv] at hr
      | ok r =>
        obtain ⟨v, next⟩ := r
        simp [hv, List.filter, hy] at hr
        subst hr
        refine ⟨v, next, rfl, rfl, ?_⟩
        intro a b c ha hb' hq
        have hab : '?' ∉ a ++ ['N', 'U', 'L', 'L'] ++ b := by
          simp only [List.mem_append, not_or]
          exact ⟨⟨ha, by decide⟩, hb'⟩
        simp only [getQueryWithParameters, hvalues, hquery, hq, List.map, decorateParamValue]
        rw [substituteParams_cons _ _ _ _ _ _ ha, ← List.append_assoc,
          substituteParams_cons _ _ _ _ _ _ hab]
        simp [substituteParams]

theorem C7_null_parameters_witness :
    ∃ paramTypes, nullScenarioDecoded.paramTypes = some paramTypes ∧
      nullScenarioDecoded.newParamsBoundFlag = some 1 ∧
      [ParamValue.null, ParamValue.number 5].length = nullScenarioStatement.paramCount ∧
      (∀ i, i < nullScenarioStatement.paramCount →
        ([ParamValue.null, ParamValue.number 5][i]? = some .null ↔
          Nat.testBit (nullScenarioPayload.getD (10 + i / 8) 0).val (i % 8) = true)) ∧
      readBackToBack nullScenarioPayload paramTypes
        ((List.range nullScenarioStatement.paramCount).filter fun i =>
          !Nat.testBit (nullScenarioPayload.getD (10 + i / 8) 0).val (i % 8))
        (10 + (nullScenarioStatement.paramCount + 7) / 8 + 1 +
          nullScenarioStatement.paramCount * 2) =
        .ok ([ParamValue.null, ParamValue.number 5].filter fun v => v ≠ .null) ∧
      decorateParamValue noFloat .null = ['N', 'U', 'L', 'L'] ∧
      (nullScenarioStatement.paramCount = 2 →
        Nat.testBit (nullScenarioPayload.getD 10 0).val 0 = true →
        Nat.testBit (nullScenarioPayload.getD 10 0).val 1 = false →
        ∃ v next, readParamValue nullScenarioPayload ((paramTypes[1]?).getD 0) 16 = .ok (v, next) ∧
          [ParamValue.null, ParamValue.number 5] = [.null, v] ∧
          ∀ a b c : JsString, '?' ∉ a → '?' ∉ b →
            nullScenarioStatement.query = a ++ '?' :: (b ++ '?' :: c) →
            getQueryWithParameters noFloat nullScenarioDecoded =
              .ok (a ++ ['N', 'U', 'L', 'L'] ++ b ++ decorateParamValue noFloat v ++ c)) :=
  C7_null_parameters_consume_no_bytes noFloat nullScenarioStatement nullScenarioDecoded
    nullScenarioPayload [.null, .number 5] (by decide) rfl (by decide) rfl

/-! ## The life of a registry entry (C8) -/

/-- An execute that the dispatcher gets through without an exception leaves no
entry under its statement id. -/
theorem executeCase_returned_removes (d : Deps) (s s1 : Session) (payload : Buffer)
    (statementId : Nat) (hid : readUInt32LE payload 1 = .ok statementId)
    (h : executeCase d s payload = (s1, none)) : getStatement s1.store statementId = none := by
  unfold executeCase at h
  simp only [hid] at h
  cases hget : getStatement s.store statementId with
  | none =>
    simp only [hget, Prod.mk.injEq, and_true] at h
    rw [← h]
    exact hget
  | some st =>
    simp only [hget] at h
    cases hset : setExecuteStatementQuery st payload with
    | error e => simp [hset] at h
    | ok st1 =>
      simp only [hset] at h
      cases htext : getQueryWithParameters d.fmt st1 with
      | error e => simp [htext] at h
      | ok text =>
        simp only [htext, Prod.mk.injEq, and_true] at h
        rw [← h]
        exact getStatement_delete _ _

/-- C8 fails on the code: after a prepare of `SELECT 1` and its acknowledgement
carrying statement id 7 and no parameters, statement 7 is in the registry; the
execute frame whose payload `17 07 00 00 00` ends after the statement id makes the
dispatcher raise a `RangeError` before `deleteStatement` is reached, and statement
7 is still in the registry afterwards, unchanged. -/
theorem C8_statement_survives_truncated_execute :
    (getStatement
      (onServerData sampleDeps 1000
        (onClientData sampleDeps {} (encodeFrame 0 (preparePayload "SELECT 1"))).1
        (encodeFrame 1 (ackPayload 7 0 0 0))).1.session.store 7).isSome = true ∧
    (onClientData sampleDeps
      (onServerData sampleDeps 1000
        (onClientData sampleDeps {} (encodeFrame 0 (preparePayload "SELECT 1"))).1
        (encodeFrame 1 (ackPayload 7 0 0 0))).1
      (encodeFrame 0 [0x17, 7, 0, 0, 0])).2 = .threw .rangeError ∧
    getStatement
      (onClientData sampleDeps
        (onServerData sampleDeps 1000
          (onClientData sampleDeps {} (encodeFrame 0 (preparePayload "SELECT 1"))).1
          (encodeFrame 1 (ackPayload 7 0 0 0))).1
        (encodeFrame 0 [0x17, 7, 0, 0, 0])).1.session.store 7 =
      getStatement
        (onServerData sampleDeps 1000
          (onClientData sampleDeps {} (encodeFrame 0 (preparePayload "SELECT 1"))).1
          (encodeFrame 1 (ackPayload 7 0 0 0))).1.session.store 7 := by
  decide

/-! ## The loops never run out of fuel -/

theorem clientLoop_fuel (d : Deps) :
    ∀ (fuel : Nat) (s : Session), s.clientBuffer.length / 4 < fuel →
      (clientLoop d fuel s).status ≠ .outOfFuel := by
  intro fuel
  induction fuel with
  | zero => intro s h; omega
  | succ k ih =>
    intro s h
    unfold clientLoop
    simp only
    split_ifs with h4 hlt
    · simp
    · split
      · simp
      · split_ifs
        · apply ih
          simp only [subarrayFrom, List.length_drop]
          omega
        · simp
    · simp

theorem processMySQLClientData_fuel (d : Deps) (s : Session) (dataChunk : Buffer) :
    (processMySQLClientData d s dataChunk).status ≠ .outOfFuel := by
  unfold processMySQLClientData
  exact clientLoop_fuel d _ _ (by simp)

theorem prepareLoop_fuel (now : Nat) (cmd : ClientCommand) :
    ∀ (fuel : Nat) (buffer : Buffer) (lastStatementId : Option Nat) (store : Store),
      buffer.length / 4 < fuel →
      (prepareLoop now cmd fuel buffer lastStatementId store).status ≠ .outOfFuel := by
  intro fuel
  induction fuel with
  | zero => intro b l st h; omega
  | succ k ih =>
    intro b l st h
    unfold prepareLoop
    simp only
    have hrec : ∀ (n : Nat) (l1 : Option Nat) (st1 : Store), 4 ≤ n → n ≤ b.length →
        (prepareLoop now cmd k (subarrayFrom b n) l1 st1).status ≠ .outOfFuel := by
      intro n l1 st1 h4 hn
      apply ih
      simp only [subarrayFrom, List.length_drop]
      omega
    split_ifs with h4 hlt h0 h0 h0
    all_goals first
      | (simp; done)
      | exact hrec _ _ _ (by omega) (by omega)
      | (split
         · simp
         · split
           · simp
           · exact hrec _ _ _ (by omega) (by omega))

theorem handleStatementPrepareResponse_fuel (now : Nat) (data serverResponseBuffer : Buffer)
    (lastClientCommand : Option ClientCommand) (lastStatementId : Option Nat) (store : Store) :
    (handleStatementPrepareResponse now data serverResponseBuffer lastClientCommand
      lastStatementId store).status ≠ .outOfFuel := by
  unfold handleStatementPrepareResponse
  split
  · simp
  · split_ifs
    · exact prepareLoop_fuel now _ _ _ _ _ (by simp)
    · simp

/-! ## Which payloads make `setExecuteStatementQuery` throw -/

/-- A payload that holds the ten header bytes never makes the call throw: what
fails later is caught and stored. -/
theorem setExecuteStatementQuery_ok_of_header (st : MysqlPreparedStatement) (payload : Buffer)
    (h : 10 ≤ payload.length) : ∃ st1, setExecuteStatementQuery st payload = .ok st1 := by
  have h5 : 5 + 1 ≤ payload.length := by omega
  have h6 : 6 + 4 ≤ payload.length := by omega
  simp [setExecuteStatementQuery, readUInt8, readUInt32LE, readUIntLE, h5, h6]

/-- A payload shorter than the ten header bytes always makes the call throw. -/
theorem setExecuteStatementQuery_throws_of_short (st : MysqlPreparedStatement) (payload : Buffer)
    (h : payload.length < 10) : setExecuteStatementQuery st payload = .error .rangeError := by
  by_cases h5 : 5 + 1 ≤ payload.length
  · have h6 : ¬ 6 + 4 ≤ payload.length := by omega
    simp [setExecuteStatementQuery, readUInt8, readUInt32LE, readUIntLE, h5, h6]
  · simp [setExecuteStatementQuery, readUInt8, readUIntLE, h5]

/-! ## Value decoding by type tag: integers (C13, C14) -/

theorem leValue_lt (bs : List Byte) : leValue bs < 256 ^ bs.length := by
  induction bs with
  | nil => simp [leValue]
  | cons b bs ih =>
    have hb := b.isLt
    simp only [leValue, List.length_cons, pow_succ]
    omega

theorem length_take_drop (payload : Buffer) (offset width : Nat)
    (h : offset + width ≤ payload.length) : ((payload.drop offset).take width).length = width := by
  simp only [List.length_take, List.length_drop]
  omega

/-- The two's-complement reading is the one integer of the signed range that is
congruent to the unsigned value. -/
theorem toSigned_spec (bits u : Nat) (hbits : 0 < bits) (hu : u < 2 ^ bits) :
    -(2 : Int) ^ (bits - 1) ≤ toSigned bits u ∧ toSigned bits u < (2 : Int) ^ (bits - 1) ∧
      toSigned bits u % (2 : Int) ^ bits = (u : Int) := by
  obtain ⟨k, rfl⟩ : ∃ k, bits = k + 1 := ⟨bits - 1, by omega⟩
  simp only [Nat.add_sub_cancel, toSigned]
  have h2 : (2 : Int) ^ (k + 1) = 2 * 2 ^ k := by ring
  have h2n : (2 : Nat) ^ (k + 1) = 2 * 2 ^ k := by ring
  have hpos : (0 : Int) < 2 ^ k := by positivity
  have hcast : ((2 ^ (k + 1) : Nat) : Int) = 2 * 2 ^ k := by push_cast; ring
  have hcastk : ((2 ^ k : Nat) : Int) = 2 ^ k := by push_cast; rfl
  have hun : (u : Int) < 2 * 2 ^ k := by
    have : ((u : Nat) : Int) < ((2 ^ (k + 1) : Nat) : Int) := by exact_mod_cast hu
    rw [hcast] at this
    exact this
  split_ifs with h
  · have hlt : (u : Int) < 2 ^ k := by
      have : ((u : Nat) : Int) < ((2 ^ k : Nat) : Int) := by exact_mod_cast h
      rwa [hcastk] at this
    refine ⟨by omega, hlt, ?_⟩
    rw [h2]
    exact Int.emod_eq_of_lt (by omega) (by omega)
  · have hge : (2 : Int) ^ k ≤ u := by
      have : ((2 ^ k : Nat) : Int) ≤ ((u : Nat) : Int) := by exact_mod_cast Nat.le_of_not_lt h
      rwa [hcastk] at this
    rw [hcast, h2]
    refine ⟨by omega, by omega, ?_⟩
    have : ((u : Int) - 2 * 2 ^ k) % (2 * 2 ^ k) = (u : Int) % (2 * 2 ^ k) := by
      rw [Int.sub_emod, Int.emod_self, sub_zero, Int.emod_emod_of_dvd _ (dvd_refl _)]
    rw [this]
    exact Int.emod_eq_of_lt (by omega) hun

/-- The four integer tags: the signed reading of the next `width` bytes. -/
theorem readParamValue_integer (payload : Buffer) (paramType offset width : Nat)
    (htag : (paramType % 256 = 0x01 ∧ width = 1) ∨ (paramType % 256 = 0x02 ∧ width = 2) ∨
      (paramType % 256 = 0x03 ∧ width = 4) ∨ (paramType % 256 = 0x09 ∧ width = 4))
    (hpresent : offset + width ≤ payload.length) :
    readParamValue payload paramType offset =
      .ok (.number (toSigned (8 * width) (leValue ((payload.drop offset).take width))),
        offset + width) := by
  rcases htag with ⟨ht, rfl⟩ | ⟨ht, rfl⟩ | ⟨ht, rfl⟩ | ⟨ht, rfl⟩ <;>
    simp [readParamValue, readTagged, ht, MYSQL_TYPE_TINY, MYSQL_TYPE_SHORT, MYSQL_TYPE_LONG,
      MYSQL_TYPE_INT24, readInt8, readInt16LE, readInt32LE, readIntLE, readUIntLE, hpresent,
      Except.map]

/-- C13: for a non-null parameter whose type tag has the low byte TINY (0x01), SHORT
(0x02), LONG (0x03) or INT24 (0x09), whatever its high byte, and whose 1, 2, 4
and 4 value bytes are in the payload, the decoded value is a number, the one
integer of the signed range of that width congruent to the little-endian value
of those bytes (their two's-complement reading), and the read position advances
by exactly that width. -/
theorem C13_small_integers_are_signed_little_endian (payload : Buffer)
    (paramType offset width : Nat)
    (htag : (paramType % 256 = 0x01 ∧ width = 1) ∨ (paramType % 256 = 0x02 ∧ width = 2) ∨
      (paramType % 256 = 0x03 ∧ width = 4) ∨ (paramType % 256 = 0x09 ∧ width = 4))
    (hpresent : offset + width ≤ payload.length) :
    ∃ v : Int, readParamValue payload paramType offset = .ok (.number v, offset + width) ∧
      -(2 : Int) ^ (8 * width - 1) ≤ v ∧ v < (2 : Int) ^ (8 * width - 1) ∧
      v % (2 : Int) ^ (8 * width) = (leValue ((payload.drop offset).take width) : Int) := by
  have hw : 0 < width := by rcases htag with ⟨-, rfl⟩ | ⟨-, rfl⟩ | ⟨-, rfl⟩ | ⟨-, rfl⟩ <;> omega
  have hlt : leValue ((payload.drop offset).take width) < 2 ^ (8 * width) := by
    have := leValue_lt ((payload.drop offset).take width)
    rw [length_take_drop payload offset width hpresent] at this
    rwa [pow_mul, show (2 : Nat) ^ 8 = 256 from rfl]
  exact ⟨_, readParamValue_integer payload paramType offset width htag hpresent,
    toSigned_spec (8 * width) _ (by omega) hlt⟩

theorem C13_small_integers_witness :
    ∃ v : Int, readParamValue [0x00, 0xfe, 0xff] 0x8002 1 = .ok (.number v, 1 + 2) ∧
      -(2 : Int) ^ (8 * 2 - 1) ≤ v ∧ v < (2 : Int) ^ (8 * 2 - 1) ∧
      v % (2 : Int) ^ (8 * 2) = (leValue (([0x00, 0xfe, 0xff] : Buffer).drop 1 |>.take 2) : Int) :=
  C13_small_integers_are_signed_little_endian [0x00, 0xfe, 0xff] 0x8002 1 2
    (Or.inr (Or.inl ⟨by decide, rfl⟩)) (by decide)

theorem digitChar_decimal (n : Nat) (h : n < 10) :
    (Nat.digitChar n).toNat - '0'.toNat = n ∧ (Nat.digitChar n).isDigit = true := by
  interval_cases n <;> decide

theorem toDigitsCore_value :
    ∀ (fuel n : Nat) (ds : List Char), n < fuel →
      (Nat.toDigitsCore 10 fuel n ds).foldl (fun acc c => 10 * acc + (c.toNat - '0'.toNat)) 0 =
        ds.foldl (fun acc c => 10 * acc + (c.toNat - '0'.toNat)) n := by
  intro fuel
  induction fuel with
  | zero => intro n ds h; omega
  | succ k ih =>
    intro n ds h
    have hd := (digitChar_decimal (n % 10) (Nat.mod_lt n (by decide))).1
    simp only [Nat.toDigitsCore]
    split
    · rename_i h0
      simp only [List.foldl_cons, hd]
      congr 1
      omega
    · rename_i h0
      rw [ih (n / 10) _ (by omega)]
      simp only [List.foldl_cons, hd]
      congr 1
      omega

theorem toDigitsCore_isDigit :
    ∀ (fuel n : Nat) (ds : List Char), (∀ c ∈ ds, c.isDigit = true) →
      ∀ c ∈ Nat.toDigitsCore 10 fuel n ds, c.isDigit = true := by
  intro fuel
  induction fuel with
  | zero => intro n ds h; simpa [Nat.toDigitsCore] using h
  | succ k ih =>
    intro n ds h
    have hd : ∀ c ∈ Nat.digitChar (n % 10) :: ds, c.isDigit = true := by
      intro c hc
      rcases List.mem_cons.mp hc with rfl | hc
      · exact (digitChar_decimal (n % 10) (Nat.mod_lt n (by decide))).2
      · exact h c hc
    simp only [Nat.toDigitsCore]
    split
    · exact hd
    · exact ih _ _ hd

/-- The decimal text of a natural number denotes that number and holds digits only. -/
theorem toDigits_decimal (n : Nat) :
    decimalValue (Nat.toDigits 10 n) = n ∧ ∀ c ∈ Nat.toDigits 10 n, c.isDigit = true := by
  constructor
  · unfold decimalValue Nat.toDigits
    rw [toDigitsCore_value (n + 1) n [] (by omega)]
    rfl
  · unfold Nat.toDigits
    exact toDigitsCore_isDigit _ _ _ (by simp)

/-- C14: for a non-null parameter whose type tag has the low byte LONGLONG (0x08)
and whose eight value bytes are in the payload, the decoded value is a BigInt,
exactly the unsigned little-endian value of those bytes, below 2^64; the read
position advances by 8; its rendering consists of decimal digits that denote
exactly that value, and reconstruction puts this rendering in place of the
placeholder. -/
theorem C14_longlong_is_exact_unsigned (fmt : Buffer → JsString) (payload : Buffer)
    (paramType offset : Nat)
    (htag : paramType % 256 = 0x08) (hpresent : offset + 8 ≤ payload.length) :
    ∃ u : Nat, readParamValue payload paramType offset = .ok (.bigint u, offset + 8) ∧
      u = leValue ((payload.drop offset).take 8) ∧ u < 2 ^ 64 ∧
      decimalValue (decorateParamValue fmt (.bigint u)) = u ∧
      (∀ c ∈ decorateParamValue fmt (.bigint u), c.isDigit = true) ∧
      ∀ (st : MysqlPreparedStatement) (a b : JsString), st.paramValues = some [.bigint u] →
        st.query = a ++ '?' :: b → '?' ∉ a →
        getQueryWithParameters fmt st = .ok (a ++ decorateParamValue fmt (.bigint u) ++ b) := by
  have hlt : leValue ((payload.drop offset).take 8) < 2 ^ 64 := by
    have := leValue_lt ((payload.drop offset).take 8)
    rw [length_take_drop payload offset 8 hpresent] at this
    exact this
  refine ⟨_, ?_, rfl, hlt, (toDigits_decimal _).1, (toDigits_decimal _).2, ?_⟩
  · simp [readParamValue, readTagged, htag, MYSQL_TYPE_TINY, MYSQL_TYPE_SHORT, MYSQL_TYPE_LONG,
      MYSQL_TYPE_INT24, MYSQL_TYPE_LONGLONG, readBigUInt64LE, readUIntLE, hpresent, Except.map]
  · intro st a b hvalues hq ha
    simp only [getQueryWithParameters, hvalues, hq, List.map]
    rw [substituteParams_cons _ _ _ _ _ _ ha]
    simp [substituteParams]

theorem C14_longlong_witness :
    ∃ u : Nat, readParamValue [0xff, 0xff, 0xff, 0xff, 0xff, 0xff, 0xff, 0xff] 0x8008 0 =
        .ok (.bigint u, 0 + 8) ∧
      u = leValue (([0xff, 0xff, 0xff, 0xff, 0xff, 0xff, 0xff, 0xff] : Buffer).drop 0 |>.take 8) ∧
      u < 2 ^ 64 ∧
      decimalValue (decorateParamValue noFloat (.bigint u)) = u ∧
      (∀ c ∈ decorateParamValue noFloat (.bigint u), c.isDigit = true) ∧
      ∀ (st : MysqlPreparedStatement) (a b : JsString), st.paramValues = some [.bigint u] →
        st.query = a ++ '?' :: b → '?' ∉ a →
        getQueryWithParameters noFloat st =
          .ok (a ++ decorateParamValue noFloat (.bigint u) ++ b) :=
  C14_longlong_is_exact_unsigned noFloat [0xff, 0xff, 0xff, 0xff, 0xff, 0xff, 0xff, 0xff] 0x8008 0
    (by decide) (by decide)

/-! ## Value decoding by type tag: raw spans in hex (C15, C16) -/

theorem subarray_eq_take_drop (b : Buffer) (start len : Nat) :
    subarray b start (start + len) = (b.drop start).take len := by
  simp [subarray, List.drop_take]

theorem digitChar_hex (n : Nat) (h : n < 16) : hexDigits[n]? = some (Nat.digitChar n) := by
  interval_cases n <;> rfl

theorem toHex_length (bs : Buffer) : (toHex bs).length = 2 * bs.length := by
  induction bs with
  | nil => rfl
  | cons b bs ih => simp [toHex, ih]; omega

/-- Byte `i` of a span gives the digits `2 i` and `2 i + 1` of its hex text: the
digit of its high half, then the digit of its low half. -/
theorem toHex_digits :
    ∀ (bs : Buffer) (i : Nat) (b : Byte), bs[i]? = some b →
      (toHex bs)[2 * i]? = hexDigits[b.val / 16]? ∧
      (toHex bs)[2 * i + 1]? = hexDigits[b.val % 16]? := by
  intro bs
  induction bs with
  | nil => intro i b h; simp at h
  | cons x xs ih =>
    intro i b h
    cases i with
    | zero =>
      simp only [List.getElem?_cons_zero, Option.some.injEq] at h
      subst h
      have h1 := digitChar_hex (x.val / 16) (by have := x.isLt; omega)
      have h2 := digitChar_hex (x.val % 16) (by omega)
      simp [toHex, h1, h2]
    | succ j =>
      simp only [List.getElem?_cons_succ] at h
      obtain ⟨h1, h2⟩ := ih j b h
      have e1 : 2 * (j + 1) = 2 * j + 1 + 1 := by omega
      have e2 : 2 * (j + 1) + 1 = 2 * j + 1 + 1 + 1 := by omega
      simp only [toHex, e1, e2, List.getElem?_cons_succ]
      exact ⟨h1, h2⟩

/-- C15: for a non-null parameter whose type tag has the low byte DATE (0x0A),
DATETIME (0x0C), TIMESTAMP (0x07) or TIME (0x0B) and whose value is in the
payload as one length byte L followed by L bytes, the decoded value is the
string `0x` followed by the hex text of exactly those L bytes: 2 L lowercase
hexadecimal digits, two per byte in order, high half first; the read position
advances by 1 + L. -/
theorem C15_temporal_values_are_raw_hex (payload : Buffer) (paramType offset len : Nat)
    (htag : paramType % 256 = 0x0A ∨ paramType % 256 = 0x0C ∨ paramType % 256 = 0x07 ∨
      paramType % 256 = 0x0B)
    (hlen : readUInt8 payload offset = .ok len)
    (hpresent : offset + 1 + len ≤ payload.length) :
    readParamValue payload paramType offset =
      .ok (.string ('0' :: 'x' :: toHex ((payload.drop (offset + 1)).take len)),
        offset + 1 + len) ∧
    ((payload.drop (offset + 1)).take len).length = len ∧
    (toHex ((payload.drop (offset + 1)).take len)).length = 2 * len ∧
    ∀ (i : Nat) (b : Byte), i < len → payload[offset + 1 + i]? = some b →
      (toHex ((payload.drop (offset + 1)).take len))[2 * i]? = hexDigits[b.val / 16]? ∧
      (toHex ((payload.drop (offset + 1)).take len))[2 * i + 1]? = hexDigits[b.val % 16]? := by
  have hl := length_take_drop payload (offset + 1) len hpresent
  refine ⟨?_, hl, by rw [toHex_length, hl], ?_⟩
  · rcases htag with ht | ht | ht | ht <;>
      simp [readParamValue, readTagged, ht, MYSQL_TYPE_TINY, MYSQL_TYPE_SHORT, MYSQL_TYPE_LONG,
        MYSQL_TYPE_INT24, MYSQL_TYPE_LONGLONG, MYSQL_TYPE_FLOAT, MYSQL_TYPE_DOUBLE,
        MYSQL_TYPE_STRING, MYSQL_TYPE_VARCHAR, MYSQL_TYPE_VAR_STRING, MYSQL_TYPE_BLOB,
        MYSQL_TYPE_DATE, MYSQL_TYPE_DATETIME, MYSQL_TYPE_TIMESTAMP, MYSQL_TYPE_TIME, hlen,
        Except.map, readHex, subarray_eq_take_drop]
  · intro i b hi hb
    apply toHex_digits
    rw [List.getElem?_take_of_lt hi, List.getElem?_drop]
    exact hb

theorem C15_temporal_values_witness :
    readParamValue [0x04, 0xe8, 0x07, 0x0b, 0x05] 0x000A 0 =
      .ok (.string ('0' :: 'x' ::
        toHex ((([0x04, 0xe8, 0x07, 0x0b, 0x05] : Buffer).drop (0 + 1)).take 4)), 0 + 1 + 4) ∧
    ((([0x04, 0xe8, 0x07, 0x0b, 0x05] : Buffer).drop (0 + 1)).take 4).length = 4 ∧
    (toHex ((([0x04, 0xe8, 0x07, 0x0b, 0x05] : Buffer).drop (0 + 1)).take 4)).length = 2 * 4 ∧
    ∀ (i : Nat) (b : Byte), i < 4 →
      ([0x04, 0xe8, 0x07, 0x0b, 0x05] : Buffer)[0 + 1 + i]? = some b →
      (toHex ((([0x04, 0xe8, 0x07, 0x0b, 0x05] : Buffer).drop (0 + 1)).take 4))[2 * i]? =
        hexDigits[b.val / 16]? ∧
      (toHex ((([0x04, 0xe8, 0x07, 0x0b, 0x05] : Buffer).drop (0 + 1)).take 4))[2 * i + 1]? =
        hexDigits[b.val % 16]? :=
  C15_temporal_values_are_raw_hex [0x04, 0xe8, 0x07, 0x0b, 0x05] 0x000A 0 4
    (Or.inl (by decide)) rfl (by decide)

/-- C16: for a non-null parameter whose type tag has a low byte that is none of
the recognized ones, decoding raises nothing and yields the string `0x` followed
by the hex text of the next 8 payload bytes, or of as many as remain when fewer
than 8 are left (two lowercase hexadecimal digits per byte), and the read
position advances by exactly 8. -/
theorem C16_unrecognized_tag_falls_back_to_hex (payload : Buffer) (paramType offset : Nat)
    (htag : paramType % 256 ∉ recognizedTags) :
    readParamValue payload paramType offset =
      .ok (.string ('0' :: 'x' :: toHex ((payload.drop offset).take 8)), offset + 8) ∧
    ((payload.drop offset).take 8).length = min 8 (payload.length - offset) ∧
    (toHex ((payload.drop offset).take 8)).length = 2 * min 8 (payload.length - offset) ∧
    ∀ (i : Nat) (b : Byte), i < 8 → payload[offset + i]? = some b →
      (toHex ((payload.drop offset).take 8))[2 * i]? = hexDigits[b.val / 16]? ∧
      (toHex ((payload.drop offset).take 8))[2 * i + 1]? = hexDigits[b.val % 16]? := by
  have hl : ((payload.drop offset).take 8).length = min 8 (payload.length - offset) := by
    simp [List.length_take, List.length_drop]
  simp only [recognizedTags, List.mem_cons, List.mem_singleton, List.not_mem_nil, or_false,
    not_or] at htag
  obtain ⟨h1, h2, h3, h4, h5, h7, h8, h9, ha, hb, hc, hf, hfc, hfd, hfe⟩ := htag
  refine ⟨?_, hl, by rw [toHex_length, hl], ?_⟩
  · simp [readParamValue, readTagged, h1, h2, h3, h4, h5, h7, h8, h9, ha, hb, hc, hf, hfc, hfd,
      hfe, MYSQL_TYPE_TINY, MYSQL_TYPE_SHORT, MYSQL_TYPE_LONG,
      MYSQL_TYPE_INT24, MYSQL_TYPE_LONGLONG, MYSQL_TYPE_FLOAT, MYSQL_TYPE_DOUBLE,
      MYSQL_TYPE_STRING, MYSQL_TYPE_VARCHAR, MYSQL_TYPE_VAR_STRING, MYSQL_TYPE_BLOB,
      MYSQL_TYPE_DATE, MYSQL_TYPE_DATETIME, MYSQL_TYPE_TIMESTAMP, MYSQL_TYPE_TIME, readHex,
      subarray_eq_take_drop]
  · intro i b hi hb'
    apply toHex_digits
    rw [List.getElem?_take_of_lt hi, List.getElem?_drop]
    exact hb'

theorem C16_unrecognized_tag_witness :
    readParamValue [0x01, 0xab, 0xcd] 0x000D 1 =
      .ok (.string ('0' :: 'x' :: toHex ((([0x01, 0xab, 0xcd] : Buffer).drop 1).take 8)), 1 + 8) ∧
    ((([0x01, 0xab, 0xcd] : Buffer).drop 1).take 8).length =
      min 8 (([0x01, 0xab, 0xcd] : Buffer).length - 1) ∧
    (toHex ((([0x01, 0xab, 0xcd] : Buffer).drop 1).take 8)).length =
      2 * min 8 (([0x01, 0xab, 0xcd] : Buffer).length - 1) ∧
    ∀ (i : Nat) (b : Byte), i < 8 → ([0x01, 0xab, 0xcd] : Buffer)[1 + i]? = some b →
      (toHex ((([0x01, 0xab, 0xcd] : Buffer).drop 1).take 8))[2 * i]? = hexDigits[b.val / 16]? ∧
      (toHex ((([0x01, 0xab, 0xcd] : Buffer).drop 1).take 8))[2 * i + 1]? =
        hexDigits[b.val % 16]? :=
  C16_unrecognized_tag_falls_back_to_hex [0x01, 0xab, 0xcd] 0x000D 1 (by decide)

/-! ## Value decoding by type tag: length-prefixed text (C12) -/

theorem leValue_append (a b : List Byte) :
    leValue (a ++ b) = leValue a + 256 ^ a.length * leValue b := by
  induction a with
  | nil => simp [leValue]
  | cons x xs ih =>
    have e : leValue (x :: xs ++ b) = x.val + 256 * leValue (xs ++ b) := rfl
    rw [e, ih]
    simp only [leValue, List.length_cons, pow_succ]
    ring

theorem take_succ_of_lt (l : List Byte) (n : Nat) (h : n < l.length) :
    l.take (n + 1) = l.take n ++ [l[n]] := by
  rw [List.take_succ, List.getElem?_eq_getElem h]
  rfl

/-- The low three bytes of a four-byte read are the three-byte value. -/
theorem leValue_take_four_mod (l : List Byte) (h : 4 ≤ l.length) :
    leValue (l.take 4) % 0x1000000 = leValue (l.take 3) := by
  rw [take_succ_of_lt l 3 (by omega), leValue_append]
  have h3 : (l.take 3).length = 3 := by simp; omega
  have hlt := leValue_lt (l.take 3)
  rw [h3] at hlt ⊢
  norm_num at hlt ⊢
  omega

/-- Every length-prefixed text value that is all in the payload decodes to the text
of its bytes and moves the read position behind them, except that the three-byte
form needs one more byte in the payload behind its three length bytes. -/
theorem readParamValue_text (payload : Buffer) (paramType offset marker : Nat)
    (htag : paramType % 256 = 0xFE ∨ paramType % 256 = 0x0F ∨ paramType % 256 = 0xFD ∨
      paramType % 256 = 0xFC)
    (hmarker : readUInt8 payload offset = .ok marker) :
    (marker < 251 → offset + 1 + marker ≤ payload.length →
      readParamValue payload paramType offset =
        .ok (.string (utf8Decode ((payload.drop (offset + 1)).take marker)),
          offset + 1 + marker)) ∧
    (marker = 0xFC → ∀ len, len = leValue ((payload.drop (offset + 1)).take 2) →
      offset + 1 + 2 + len ≤ payload.length →
      readParamValue payload paramType offset =
        .ok (.string (utf8Decode ((payload.drop (offset + 1 + 2)).take len)),
          offset + 1 + 2 + len)) ∧
    (marker = 0xFD → ∀ len, len = leValue ((payload.drop (offset + 1)).take 3) →
      offset + 1 + 3 + len ≤ payload.length → offset + 1 + 4 ≤ payload.length →
      readParamValue payload paramType offset =
        .ok (.string (utf8Decode ((payload.drop (offset + 1 + 3)).take len)),
          offset + 1 + 3 + len)) ∧
    (marker = 0xFE → ∀ len, len = leValue ((payload.drop (offset + 1)).take 8) →
      offset + 1 + 8 + len ≤ payload.length →
      readParamValue payload paramType offset =
        .ok (.string (utf8Decode ((payload.drop (offset + 1 + 8)).take len)),
          offset + 1 + 8 + len)) := by
  have hstr : readParamValue payload paramType offset =
      if marker < 251 then
        .ok (readText payload (offset + 1) marker)
      else if marker = 252 then
        (readUInt16LE payload (offset + 1)).map fun len => readText payload (offset + 1 + 2) len
      else if marker = 253 then
        (readUInt32LE payload (offset + 1)).map fun len =>
          readText payload (offset + 1 + 3) (len % 0x1000000)
      else
        (readBigUInt64LE payload (offset + 1)).map fun len =>
          readText payload (offset + 1 + 8) len := by
    rcases htag with ht | ht | ht | ht <;>
      simp [readParamValue, readTagged, ht, MYSQL_TYPE_TINY, MYSQL_TYPE_SHORT, MYSQL_TYPE_LONG,
        MYSQL_TYPE_INT24, MYSQL_TYPE_LONGLONG, MYSQL_TYPE_FLOAT, MYSQL_TYPE_DOUBLE,
        MYSQL_TYPE_STRING, MYSQL_TYPE_VARCHAR, MYSQL_TYPE_VAR_STRING, MYSQL_TYPE_BLOB, hmarker]
  rw [hstr]
  refine ⟨?_, ?_, ?_, ?_⟩
  · intro hm _
    simp [hm, readText, subarray_eq_take_drop]
  · intro hm len hlen hp
    subst hm
    have h2 : offset + 1 + 2 ≤ payload.length := by omega
    simp [readUInt16LE, readUIntLE, h2, Except.map, readText, subarray_eq_take_drop, ← hlen]
  · intro hm len hlen hp h4
    subst hm
    have hmod := leValue_take_four_mod (payload.drop (offset + 1))
      (by simp only [List.length_drop]; omega)
    simp [readUInt32LE, readUIntLE, h4, Except.map, readText, subarray_eq_take_drop, hmod,
      ← hlen]
  · intro hm len hlen hp
    subst hm
    have h8 : offset + 1 + 8 ≤ payload.length := by omega
    simp [readBigUInt64LE, readUIntLE, h8, Except.map, readText, subarray_eq_take_drop, ← hlen]

/-- C12: for every non-null parameter whose type tag has the low byte STRING
(0xFE), VARCHAR (0x0F), VAR_STRING (0xFD) or BLOB (0xFC) and whose value is all
in the payload as a length-encoded integer L followed by L bytes (one byte when
L < 251; 0xFC then L in 2 bytes; 0xFD then L in 3 bytes; 0xFE then L in 8
bytes, least significant byte first), the decoded value is the text of exactly
those L bytes and the read position for the next parameter is immediately
behind them.  In the three-byte form L is taken to be at least 1: the encoding
writes every L below 251 in one byte. -/
theorem C12_length_encoded_text_is_decoded (payload : Buffer)
    (paramType offset marker : Nat)
    (htag : paramType % 256 = 0xFE ∨ paramType % 256 = 0x0F ∨ paramType % 256 = 0xFD ∨
      paramType % 256 = 0xFC)
    (hmarker : readUInt8 payload offset = .ok marker) :
    (marker < 251 → offset + 1 + marker ≤ payload.length →
      readParamValue payload paramType offset =
        .ok (.string (utf8Decode ((payload.drop (offset + 1)).take marker)),
          offset + 1 + marker)) ∧
    (marker = 0xFC → ∀ len, len = leValue ((payload.drop (offset + 1)).take 2) →
      offset + 1 + 2 + len ≤ payload.length →
      readParamValue payload paramType offset =
        .ok (.string (utf8Decode ((payload.drop (offset + 1 + 2)).take len)),
          offset + 1 + 2 + len)) ∧
    (marker = 0xFD → ∀ len, len = leValue ((payload.drop (offset + 1)).take 3) →
      1 ≤ len → offset + 1 + 3 + len ≤ payload.length →
      readParamValue payload paramType offset =
        .ok (.string (utf8Decode ((payload.drop (offset + 1 + 3)).take len)),
          offset + 1 + 3 + len)) ∧
    (marker = 0xFE → ∀ len, len = leValue ((payload.drop (offset + 1)).take 8) →
      offset + 1 + 8 + len ≤ payload.length →
      readParamValue payload paramType offset =
        .ok (.string (utf8Decode ((payload.drop (offset + 1 + 8)).take len)),
          offset + 1 + 8 + len)) := by
  obtain ⟨h1, h2, h3, h4⟩ := readParamValue_text payload paramType offset marker htag hmarker
  refine ⟨h1, h2, ?_, h4⟩
  intro hm len hlen hpos hp
  exact h3 hm len hlen hp (by omega)

theorem C12_length_encoded_text_witness :
    readParamValue [3, 0x61, 0x62, 0x63, 0x07] 0x00FD 0 =
      .ok (.string (utf8Decode ((([3, 0x61, 0x62, 0x63, 0x07] : Buffer).drop (0 + 1)).take 3)),
        0 + 1 + 3) ∧
    readParamValue [0xFD, 2, 0, 0, 0x61, 0x62] 0x00FD 0 =
      .ok (.string (utf8Decode ((([0xFD, 2, 0, 0, 0x61, 0x62] : Buffer).drop (0 + 1 + 3)).take 2)),
        0 + 1 + 3 + 2) :=
  ⟨(C12_length_encoded_text_is_decoded [3, 0x61, 0x62, 0x63, 0x07] 0x00FD 0 3
      (Or.inr (Or.inr (Or.inl (by decide)))) rfl).1 (by decide) (by decide),
   (C12_length_encoded_text_is_decoded [0xFD, 2, 0, 0, 0x61, 0x62] 0x00FD 0 0xFD
      (Or.inr (Or.inr (Or.inl (by decide)))) rfl).2.2.1 rfl 2 (by decide) (by decide)
      (by decide)⟩

/-- Outside the encoding of the specification: the empty text written in the
three-byte form `fd 00 00 00` at the very end of the payload is not decoded,
because the length is read with a four-byte read; with one more byte behind it
the same value decodes to the empty text. -/
theorem three_byte_length_at_the_end_is_not_decoded :
    readUInt8 emptyTextPayload 14 = .ok 0xFD ∧
    14 + 1 + 3 + leValue ((emptyTextPayload.drop (14 + 1)).take 3) ≤ emptyTextPayload.length ∧
    readParamValue emptyTextPayload 0x00FD 14 = .error .rangeError ∧
    (setExecuteStatementQuery (statementOf "SELECT ?" 1 1) emptyTextPayload).map
        (fun st => (st.paramValues, st.error)) = .ok (none, some .rangeError) ∧
    readParamValue (emptyTextPayload ++ [0x00]) 0x00FD 14 = .ok (.string [], 18) := by
  decide

/-! ## The correlator (C17, C18, C19) -/

theorem prepareLoop_incomplete (now : Nat) (cmd : ClientCommand) (fuel : Nat) (buffer : Buffer)
    (lastStatementId : Option Nat) (store : Store) (h : Incomplete buffer) :
    prepareLoop now cmd (fuel + 1) buffer lastStatementId store =
      if buffer.length = 0 then ⟨buffer, none, none, store, .returned⟩
      else ⟨buffer, some cmd, lastStatementId, store, .returned⟩ := by
  unfold prepareLoop
  by_cases h4 : buffer.length ≥ 4
  · have h' : buffer.length < leValue (buffer.take 3) + 4 := by
      rcases h with h | h <;> omega
    simp [h4, h']
  · simp [h4]

/-- Complete frames none of which begins with `0x00`, then an incomplete rest: the
loop passes over the frames and ends on the rest, the registry untouched. -/
theorem prepareLoop_frames (now : Nat) (cmd : ClientCommand) :
    ∀ (fs : List Frame) (rest : Buffer) (fuel : Nat) (lastStatementId : Option Nat)
      (store : Store),
      (∀ f ∈ fs, f.valid ∧ f.payload.head? ≠ some 0x00) → Incomplete rest → fs.length < fuel →
      prepareLoop now cmd fuel (encodeFrames fs ++ rest) lastStatementId store =
        if rest.length = 0 then ⟨rest, none, none, store, .returned⟩
        else ⟨rest, some cmd, lastStatementId, store, .returned⟩ := by
  intro fs
  induction fs with
  | nil =>
    intro rest fuel lid store _ hrest hfuel
    obtain ⟨k, rfl⟩ : ∃ k, fuel = k + 1 := ⟨fuel - 1, by simp at hfuel; omega⟩
    simpa [encodeFrames] using prepareLoop_incomplete now cmd k rest lid store hrest
  | cons f fs ih =>
    intro rest fuel lid store hfs hrest hfuel
    obtain ⟨k, rfl⟩ : ∃ k, fuel = k + 1 := ⟨fuel - 1, by simp at hfuel; omega⟩
    have hf := hfs f (by simp)
    have hbuf : encodeFrames (f :: fs) ++ rest =
        encodeFrame f.sequenceId f.payload ++ (encodeFrames fs ++ rest) := by
      simp [encodeFrames, Frame.encode]
    rw [hbuf, prepareLoop_frame now cmd k f.sequenceId f.payload _ lid store hf.1, if_neg hf.2]
    exact ih rest k lid store (fun g hg => hfs g (by simp [hg])) hrest
      (by simp at hfuel; omega)

/-- C19: when a prepare is pending and the accumulated server bytes, the old
accumulator followed by the new chunk, consist only of complete frames none of
whose payload begins with `0x00`, `handleStatementPrepareResponse` returns a
cleared (null) pending command, a cleared last statement id and an empty
accumulator, and leaves the registry unchanged. -/
theorem C19_drained_without_acknowledgement_clears_pending (now : Nat)
    (data serverResponseBuffer : Buffer) (cmd : ClientCommand) (lastStatementId : Option Nat)
    (store : Store) (fs : List Frame)
    (hpending : cmd.commandByte = COM_STMT_PREPARE)
    (hframes : serverResponseBuffer ++ data = encodeFrames fs)
    (hvalid : ∀ f ∈ fs, f.valid)
    (hnoack : ∀ f ∈ fs, f.payload.head? ≠ some 0x00) :
    handleStatementPrepareResponse now data serverResponseBuffer (some cmd) lastStatementId
      store = ⟨[], none, none, store, .returned⟩ := by
  simp only [handleStatementPrepareResponse, hpending, if_true, hframes]
  have h := prepareLoop_frames now cmd fs [] ((encodeFrames fs).length / 4 + 1) lastStatementId
    store (fun f hf => ⟨hvalid f hf, hnoack f hf⟩) (Or.inl (by simp))
    (by have := encodeFrames_length fs; omega)
  simpa using h

theorem C19_drained_without_acknowledgement_witness :
    handleStatementPrepareResponse 1000 [0x00, 0x02, 0xfe, 0x00, 0x00, 0x00, 0x00]
      [0x01, 0x00, 0x00, 0x01, 0x03, 0x05, 0x00]
      (some ⟨preparePayload "SELECT ?", [], 0, COM_STMT_PREPARE, "SELECT ?".toList⟩) (some 3)
      [(1, statementOf "SELECT 1" 1 0)] =
      ⟨[], none, none, [(1, statementOf "SELECT 1" 1 0)], .returned⟩ :=
  C19_drained_without_acknowledgement_clears_pending 1000
    [0x00, 0x02, 0xfe, 0x00, 0x00, 0x00, 0x00] [0x01, 0x00, 0x00, 0x01, 0x03, 0x05, 0x00]
    ⟨preparePayload "SELECT ?", [], 0, COM_STMT_PREPARE, "SELECT ?".toList⟩ (some 3)
    [(1, statementOf "SELECT 1" 1 0)] [⟨1, [0x03]⟩, ⟨2, [0xfe, 0x00, 0x00, 0x00, 0x00]⟩]
    rfl (by decide) (by decide) (by decide)

theorem getStatement_set_ne (store : Store) (k id : Nat) (v : MysqlPreparedStatement)
    (h : k ≠ id) : getStatement (store.set id v) k = getStatement store k := by
  induction store with
  | nil =>
    have h' : (k == id) = false := by simpa using h
    simp [Store.set, getStatement, List.lookup, h']
  | cons e es ih =>
    obtain ⟨k0, v0⟩ := e
    simp only [getStatement] at ih
    by_cases h0 : k0 = id
    · subst h0
      have h' : (k == k0) = false := by simpa using h
      simp [Store.set, getStatement, List.lookup, h']
    · by_cases h1 : k = k0
      · subst h1
        simp [Store.set, h0, getStatement, List.lookup]
      · have h' : (k == k0) = false := by simpa using h1
        simp [Store.set, h0, getStatement, List.lookup, h', ih]

/-- Whatever the loop meets, an entry built from the pending command stays one. -/
theorem prepareLoop_keeps (now : Nat) (cmd : ClientCommand) (id : Nat) :
    ∀ (fuel : Nat) (buffer : Buffer) (lastStatementId : Option Nat) (store : Store),
      (∃ st, getStatement store id = some st ∧ builtFrom cmd st) →
      ∃ st, getStatement (prepareLoop now cmd fuel buffer lastStatementId store).store id =
        some st ∧ builtFrom cmd st := by
  intro fuel
  induction fuel with
  | zero => intro b l store h; exact h
  | succ k ih =>
    intro b l store h
    unfold prepareLoop
    simp only
    split_ifs with h4 hlt h0 h1 h2
    all_goals first
      | exact h
      | exact ih _ _ _ h
      | (split
         · exact h
         · split
           · exact h
           · rename_i _ sid _ _ pc _
             apply ih
             by_cases hs : id = sid
             · subst hs
               exact ⟨_, getStatement_set _ _ _, rfl, rfl, rfl, rfl⟩
             · obtain ⟨st, hst, hb⟩ := h
               exact ⟨st, by rw [addStatement, getStatement_set_ne _ _ _ _ hs]; exact hst, hb⟩)

/-- The first frame of the accumulated bytes is an acknowledgement of at least nine
bytes: the loop registers its statement and goes on with what follows. -/
theorem handle_acknowledgement (now : Nat) (data serverResponseBuffer : Buffer)
    (cmd : ClientCommand) (lastStatementId : Option Nat) (store : Store) (seq : Byte)
    (payload rest : Buffer)
    (hpending : cmd.commandByte = COM_STMT_PREPARE)
    (hbuf : serverResponseBuffer ++ data = encodeFrame seq payload ++ rest)
    (hack : payload.head? = some 0x00) (hlen : 9 ≤ payload.length)
    (hfits : payload.length < 2 ^ 24) :
    handleStatementPrepareResponse now data serverResponseBuffer (some cmd) lastStatementId
      store =
      prepareLoop now cmd ((encodeFrame seq payload ++ rest).length / 4) rest
        (some (leValue ((payload.drop 1).take 4)))
        (addStatement store (leValue ((payload.drop 1).take 4))
          (newStatement now cmd (leValue ((payload.drop 1).take 4))
            (leValue ((payload.drop 7).take 2)))) := by
  have h1 : readUInt32LE payload 1 = .ok (leValue ((payload.drop 1).take 4)) := by
    simp [readUInt32LE, readUIntLE]; omega
  have h7 : readUInt16LE payload 7 = .ok (leValue ((payload.drop 7).take 2)) := by
    simp [readUInt16LE, readUIntLE]; omega
  simp only [handleStatementPrepareResponse, hpending, if_true, hbuf]
  rw [prepareLoop_frame now cmd _ seq payload rest lastStatementId store hfits, if_pos hack,
    h1, h7]

/-- C17: while a prepare command is pending, for a complete server frame at the head
of the accumulated bytes whose payload begins with `0x00` and is at least 9 bytes
long, `handleStatementPrepareResponse` registers, under the unsigned 32-bit
little-endian value at payload offset 1, a statement whose paramCount is the
unsigned 16-bit little-endian value at payload offset 7 and whose query template,
connection id, sequence id and command byte are those of the pending command; a
lookup of that id yields this statement, not one registered earlier, and every
other id keeps its entry.  The call then goes on with the bytes that follow, at
the end of which the id is still mapped to a statement of the pending command;
when nothing follows, the call returns with exactly this registry. -/
theorem C17_acknowledgement_registers_the_statement (now : Nat)
    (data serverResponseBuffer : Buffer) (cmd : ClientCommand) (lastStatementId : Option Nat)
    (store : Store) (seq : Byte) (payload rest : Buffer)
    (hpending : cmd.commandByte = COM_STMT_PREPARE)
    (hbuf : serverResponseBuffer ++ data = encodeFrame seq payload ++ rest)
    (hack : payload.head? = some 0x00) (hlen : 9 ≤ payload.length)
    (hfits : payload.length < 2 ^ 24) :
    getStatement
        (addStatement store (ackStatementId payload)
          (newStatement now cmd (ackStatementId payload) (ackParamCount payload)))
        (ackStatementId payload) =
      some (newStatement now cmd (ackStatementId payload) (ackParamCount payload)) ∧
    (newStatement now cmd (ackStatementId payload) (ackParamCount payload)).paramCount =
      ackParamCount payload ∧
    builtFrom cmd (newStatement now cmd (ackStatementId payload) (ackParamCount payload)) ∧
    (∀ k, k ≠ ackStatementId payload →
      getStatement
        (addStatement store (ackStatementId payload)
          (newStatement now cmd (ackStatementId payload) (ackParamCount payload))) k =
        getStatement store k) ∧
    handleStatementPrepareResponse now data serverResponseBuffer (some cmd) lastStatementId store =
      prepareLoop now cmd ((encodeFrame seq payload ++ rest).length / 4) rest
        (some (ackStatementId payload))
        (addStatement store (ackStatementId payload)
          (newStatement now cmd (ackStatementId payload) (ackParamCount payload))) ∧
    (∃ st, getStatement
        (handleStatementPrepareResponse now data serverResponseBuffer (some cmd) lastStatementId store).store
        (ackStatementId payload) = some st ∧ builtFrom cmd st) ∧
    (∀ (fuel : Nat) (lid0 : Option Nat) (store0 : Store),
      prepareLoop now cmd (fuel + 1) (encodeFrame seq payload ++ rest) lid0 store0 =
        prepareLoop now cmd fuel rest (some (ackStatementId payload))
          (addStatement store0 (ackStatementId payload)
            (newStatement now cmd (ackStatementId payload) (ackParamCount payload)))) ∧
    (rest = [] →
      handleStatementPrepareResponse now data serverResponseBuffer (some cmd) lastStatementId store =
        ⟨[], none, none,
          addStatement store (ackStatementId payload)
            (newStatement now cmd (ackStatementId payload) (ackParamCount payload)),
          .returned⟩) := by
  have heq := handle_acknowledgement now data serverResponseBuffer cmd lastStatementId store seq
    payload rest hpending hbuf hack hlen hfits
  refine ⟨getStatement_set _ _ _, rfl, ⟨rfl, rfl, rfl, rfl⟩,
    fun k hk => getStatement_set_ne _ _ _ _ hk, heq, ?_, ?_, ?_⟩
  · rw [heq]
    exact prepareLoop_keeps now cmd _ _ _ _ _ ⟨_, getStatement_set _ _ _, rfl, rfl, rfl, rfl⟩
  · intro fuel lid0 store0
    have h1 : readUInt32LE payload 1 = .ok (ackStatementId payload) := by
      simp [readUInt32LE, readUIntLE, ackStatementId]; omega
    have h7 : readUInt16LE payload 7 = .ok (ackParamCount payload) := by
      simp [readUInt16LE, readUIntLE, ackParamCount]; omega
    rw [prepareLoop_frame now cmd fuel seq payload rest lid0 store0 hfits, if_pos hack, h1, h7]
  · intro hrest
    subst hrest
    rw [heq]
    have hpos : (encodeFrame seq payload ++ []).length / 4 =
        ((encodeFrame seq payload ++ []).length / 4 - 1) + 1 := by
      simp only [List.append_nil, encodeFrame_length]
      omega
    rw [hpos, prepareLoop_nil]
    rfl

theorem C17_acknowledgement_witness :
    getStatement
        (addStatement [(7, statementOf "SELECT 1" 7 0)] (ackStatementId (ackPayload 7 0 1 0))
          (newStatement 1000 samplePending (ackStatementId (ackPayload 7 0 1 0)) (ackParamCount (ackPayload 7 0 1 0))))
        (ackStatementId (ackPayload 7 0 1 0)) =
      some (newStatement 1000 samplePending (ackStatementId (ackPayload 7 0 1 0)) (ackParamCount (ackPayload 7 0 1 0))) ∧
    (newStatement 1000 samplePending (ackStatementId (ackPayload 7 0 1 0)) (ackParamCount (ackPayload 7 0 1 0))).paramCount =
      ackParamCount (ackPayload 7 0 1 0) ∧
    builtFrom samplePending (newStatement 1000 samplePending (ackStatementId (ackPayload 7 0 1 0)) (ackParamCount (ackPayload 7 0 1 0))) ∧
    (∀ k, k ≠ ackStatementId (ackPayload 7 0 1 0) →
      getStatement
        (addStatement [(7, statementOf "SELECT 1" 7 0)] (ackStatementId (ackPayload 7 0 1 0))
          (newStatement 1000 samplePending (ackStatementId (ackPayload 7 0 1 0)) (ackParamCount (ackPayload 7 0 1 0)))) k =
        getStatement [(7, statementOf "SELECT 1" 7 0)] k) ∧
    handleStatementPrepareResponse 1000 (encodeFrame 1 (ackPayload 7 0 1 0) ++ [0x05]) [] (some samplePending) none [(7, statementOf "SELECT 1" 7 0)] =
      prepareLoop 1000 samplePending ((encodeFrame 1 (ackPayload 7 0 1 0) ++ [0x05]).length / 4) [0x05]
        (some (ackStatementId (ackPayload 7 0 1 0)))
        (addStatement [(7, statementOf "SELECT 1" 7 0)] (ackStatementId (ackPayload 7 0 1 0))
          (newStatement 1000 samplePending (ackStatementId (ackPayload 7 0 1 0)) (ackParamCount (ackPayload 7 0 1 0)))) ∧
    (∃ st, getStatement
        (handleStatementPrepareResponse 1000 (encodeFrame 1 (ackPayload 7 0 1 0) ++ [0x05]) [] (some samplePending) none [(7, statementOf "SELECT 1" 7 0)]).store
        (ackStatementId (ackPayload 7 0 1 0)) = some st ∧ builtFrom samplePending st) ∧
    (∀ (fuel : Nat) (lid0 : Option Nat) (store0 : Store),
      prepareLoop 1000 samplePending (fuel + 1) (encodeFrame 1 (ackPayload 7 0 1 0) ++ ([0x05] : Buffer)) lid0 store0 =
        prepareLoop 1000 samplePending fuel ([0x05] : Buffer) (some (ackStatementId (ackPayload 7 0 1 0)))
          (addStatement store0 (ackStatementId (ackPayload 7 0 1 0))
            (newStatement 1000 samplePending (ackStatementId (ackPayload 7 0 1 0)) (ackParamCount (ackPayload 7 0 1 0))))) ∧
    (([0x05] : Buffer) = [] →
      handleStatementPrepareResponse 1000 (encodeFrame 1 (ackPayload 7 0 1 0) ++ [0x05]) [] (some samplePending) none [(7, statementOf "SELECT 1" 7 0)] =
        ⟨[], none, none,
          addStatement [(7, statementOf "SELECT 1" 7 0)] (ackStatementId (ackPayload 7 0 1 0))
            (newStatement 1000 samplePending (ackStatementId (ackPayload 7 0 1 0)) (ackParamCount (ackPayload 7 0 1 0))),
          .returned⟩) :=
  C17_acknowledgement_registers_the_statement 1000
    (encodeFrame 1 (ackPayload 7 0 1 0) ++ [0x05]) [] samplePending none
    [(7, statementOf "SELECT 1" 7 0)] 1 (ackPayload 7 0 1 0) [0x05] rfl rfl rfl (by decide)
    (by decide)

/-- A call of the loop that returns clears the pending command exactly when it
leaves the accumulator empty. -/
theorem prepareLoop_returned (now : Nat) (cmd : ClientCommand) :
    ∀ (fuel : Nat) (buffer : Buffer) (lastStatementId : Option Nat) (store : Store),
      (prepareLoop now cmd fuel buffer lastStatementId store).status = .returned →
      ((prepareLoop now cmd fuel buffer lastStatementId store).serverResponseBuffer = [] →
        (prepareLoop now cmd fuel buffer lastStatementId store).lastClientCommand = none) ∧
      ((prepareLoop now cmd fuel buffer lastStatementId store).serverResponseBuffer ≠ [] →
        (prepareLoop now cmd fuel buffer lastStatementId store).lastClientCommand = some cmd) := by
  intro fuel
  induction fuel with
  | zero => intro b l store h; simp [prepareLoop] at h
  | succ k ih =>
    intro b l store
    unfold prepareLoop
    simp only
    split_ifs with h4 hlt h0 h1 h2
    all_goals first
      | exact ih _ _ _
      | (intro _
         refine ⟨fun h => ?_, fun h => ?_⟩
         · first
             | rfl
             | exact absurd (List.length_eq_zero.mpr h) (by assumption)
         · first
             | rfl
             | exact absurd (List.length_eq_zero.mp (by assumption)) h)
      | (split
         · intro h; simp at h
         · split
           · intro h; simp at h
           · exact ih _ _ _)

/-- C18, as stated, fails: a prepare of `SELECT ?` is pending and the chunk holds
the acknowledgement of statement 7 followed by one more byte, `05`; the
acknowledgement is matched (statement 7 is registered), the call returns, and
the pending command it returns is still the pending prepare, not null. -/
theorem C18_counterexample :
    (handleStatementPrepareResponse 1000 (encodeFrame 1 (ackPayload 7 0 1 0) ++ [0x05]) []
      (some samplePending) none []) =
      ⟨[0x05], some samplePending, some 7, [(7, newStatement 1000 samplePending 7 1)],
        .returned⟩ := by
  decide

/-- C18 (amended): whenever `handleStatementPrepareResponse` matches a prepare
acknowledgement (a complete frame at the head of the accumulated bytes, beginning
with `0x00` and holding the 9 payload bytes that are read, while a prepare is
pending) and returns, the pending command it returns is cleared (null) when the
accumulator it returns is empty, and is the pending command, unchanged, when
bytes remain in the accumulator.  So it is cleared when complete frames only
follow the acknowledgement (here: frames not beginning with `0x00`), and it is
unchanged when a non-empty incomplete frame follows. -/
theorem C18_pending_cleared_when_accumulator_drained (now : Nat)
    (data serverResponseBuffer : Buffer) (cmd : ClientCommand) (lastStatementId : Option Nat)
    (store : Store) (seq : Byte) (payload rest : Buffer)
    (hpending : cmd.commandByte = COM_STMT_PREPARE)
    (hbuf : serverResponseBuffer ++ data = encodeFrame seq payload ++ rest)
    (hack : payload.head? = some 0x00) (hlen : 9 ≤ payload.length)
    (hfits : payload.length < 2 ^ 24) :
    ((handleStatementPrepareResponse now data serverResponseBuffer (some cmd) lastStatementId
        store).status = .returned →
      ((handleStatementPrepareResponse now data serverResponseBuffer (some cmd) lastStatementId
          store).serverResponseBuffer = [] →
        (handleStatementPrepareResponse now data serverResponseBuffer (some cmd) lastStatementId
          store).lastClientCommand = none) ∧
      ((handleStatementPrepareResponse now data serverResponseBuffer (some cmd) lastStatementId
          store).serverResponseBuffer ≠ [] →
        (handleStatementPrepareResponse now data serverResponseBuffer (some cmd) lastStatementId
          store).lastClientCommand = some cmd)) ∧
    (∀ fs : List Frame, rest = encodeFrames fs →
      (∀ f ∈ fs, f.valid ∧ f.payload.head? ≠ some 0x00) →
      (handleStatementPrepareResponse now data serverResponseBuffer (some cmd) lastStatementId
        store).status = .returned ∧
      (handleStatementPrepareResponse now data serverResponseBuffer (some cmd) lastStatementId
        store).serverResponseBuffer = [] ∧
      (handleStatementPrepareResponse now data serverResponseBuffer (some cmd) lastStatementId
        store).lastClientCommand = none) ∧
    (Incomplete rest → rest ≠ [] →
      (handleStatementPrepareResponse now data serverResponseBuffer (some cmd) lastStatementId
        store).status = .returned ∧
      (handleStatementPrepareResponse now data serverResponseBuffer (some cmd) lastStatementId
        store).serverResponseBuffer = rest ∧
      (handleStatementPrepareResponse now data serverResponseBuffer (some cmd) lastStatementId
        store).lastClientCommand = some cmd) := by
  have heq := handle_acknowledgement now data serverResponseBuffer cmd lastStatementId store seq
    payload rest hpending hbuf hack hlen hfits
  rw [heq]
  refine ⟨prepareLoop_returned now cmd _ _ _ _, ?_, ?_⟩
  · intro fs hrest hfs
    subst hrest
    have h := prepareLoop_frames now cmd fs []
      ((encodeFrame seq payload ++ encodeFrames fs).length / 4)
      (some (leValue ((payload.drop 1).take 4)))
      (addStatement store (leValue ((payload.drop 1).take 4))
        (newStatement now cmd (leValue ((payload.drop 1).take 4))
          (leValue ((payload.drop 7).take 2)))) hfs (Or.inl (by simp))
      (by
        have := encodeFrames_length fs
        simp only [List.length_append, encodeFrame_length]
        omega)
    simp only [List.append_nil, List.length_nil, if_true] at h
    rw [h]
    exact ⟨rfl, rfl, rfl⟩
  · intro hinc hne
    obtain ⟨k, hk⟩ : ∃ k, (encodeFrame seq payload ++ rest).length / 4 = k + 1 :=
      ⟨(encodeFrame seq payload ++ rest).length / 4 - 1, by
        simp only [List.length_append, encodeFrame_length]; omega⟩
    have hlen0 : ¬ rest.length = 0 := fun h => hne (List.length_eq_zero.mp h)
    rw [hk, prepareLoop_incomplete now cmd k rest _ _ hinc, if_neg hlen0]
    exact ⟨rfl, rfl, rfl⟩

theorem C18_pending_cleared_witness :
    ((handleStatementPrepareResponse 1000 (encodeFrame 1 (ackPayload 7 0 1 0) ++ [0x05]) [] (some samplePending) none
        []).status = .returned →
      ((handleStatementPrepareResponse 1000 (encodeFrame 1 (ackPayload 7 0 1 0) ++ [0x05]) [] (some samplePending) none
          []).serverResponseBuffer = [] →
        (handleStatementPrepareResponse 1000 (encodeFrame 1 (ackPayload 7 0 1 0) ++ [0x05]) [] (some samplePending) none
          []).lastClientCommand = none) ∧
      ((handleStatementPrepareResponse 1000 (encodeFrame 1 (ackPayload 7 0 1 0) ++ [0x05]) [] (some samplePending) none
          []).serverResponseBuffer ≠ [] →
        (handleStatementPrepareResponse 1000 (encodeFrame 1 (ackPayload 7 0 1 0) ++ [0x05]) [] (some samplePending) none
          []).lastClientCommand = some samplePending)) ∧
    (∀ fs : List Frame, ([0x05] : Buffer) = encodeFrames fs →
      (∀ f ∈ fs, f.valid ∧ f.payload.head? ≠ some 0x00) →
      (handleStatementPrepareResponse 1000 (encodeFrame 1 (ackPayload 7 0 1 0) ++ [0x05]) [] (some samplePending) none
        []).status = .returned ∧
      (handleStatementPrepareResponse 1000 (encodeFrame 1 (ackPayload 7 0 1 0) ++ [0x05]) [] (some samplePending) none
        []).serverResponseBuffer = [] ∧
      (handleStatementPrepareResponse 1000 (encodeFrame 1 (ackPayload 7 0 1 0) ++ [0x05]) [] (some samplePending) none
        []).lastClientCommand = none) ∧
    (Incomplete ([0x05] : Buffer) → ([0x05] : Buffer) ≠ [] →
      (handleStatementPrepareResponse 1000 (encodeFrame 1 (ackPayload 7 0 1 0) ++ [0x05]) [] (some samplePending) none
        []).status = .returned ∧
      (handleStatementPrepareResponse 1000 (encodeFrame 1 (ackPayload 7 0 1 0) ++ [0x05]) [] (some samplePending) none
        []).serverResponseBuffer = ([0x05] : Buffer) ∧
      (handleStatementPrepareResponse 1000 (encodeFrame 1 (ackPayload 7 0 1 0) ++ [0x05]) [] (some samplePending) none
        []).lastClientCommand = some samplePending) :=
  C18_pending_cleared_when_accumulator_drained 1000
    (encodeFrame 1 (ackPayload 7 0 1 0) ++ [0x05]) [] samplePending none [] 1
    (ackPayload 7 0 1 0) [0x05] rfl rfl rfl (by decide) (by decide)

/-! ## Plain queries (C20) -/

theorem classify_query (d : Deps) (s : Session) (pkt q : Buffer) (seq : Nat) (hq : q ≠ []) :
    classify d s pkt (0x03 :: q) seq =
      ({ s with logs := s.logs ++ [.queryLogMessage COM_QUERY (utf8Decode q)] }, none) := by
  have hv : (0x03 : Byte).val = 3 := rfl
  unfold classify
  simp only [detectAuthPacket_known d _ _ _ _ _ (show knownCommands.contains (0x03 : Byte).val
    = true from by decide)]
  simp [hv, COM_QUERY, subarrayFrom]
  intro h
  exact absurd h hq

/-- C20: for every client frame with command byte `COM_QUERY` (0x03) and a payload
longer than one byte, delivered whole on an empty accumulator, the dispatcher
raises nothing and emits exactly one log record, a `QueryLogMessage` whose
commandByte is 0x03 and whose query is the text decoding of the payload bytes
from offset 1 to the end, and changes neither the registry nor the pending
command; with the upstream socket writable the frame is written upstream. -/
theorem C20_plain_query_is_logged_verbatim (d : Deps) (s : Session) (seq : Byte) (q : Buffer)
    (hlonger : q ≠ []) (hfits : (0x03 :: q : Buffer).length < 2 ^ 24)
    (hempty : s.clientBuffer = []) :
    (processMySQLClientData d s (encodeFrame seq (0x03 :: q))).status = .returned ∧
    (processMySQLClientData d s (encodeFrame seq (0x03 :: q))).session.logs =
      s.logs ++ [.queryLogMessage 0x03 (utf8Decode q)] ∧
    (processMySQLClientData d s (encodeFrame seq (0x03 :: q))).session.store = s.store ∧
    (processMySQLClientData d s (encodeFrame seq (0x03 :: q))).session.lastClientCommand =
      s.lastClientCommand ∧
    (s.serverWritable = true →
      (processMySQLClientData d s (encodeFrame seq (0x03 :: q))).session.written =
        s.written ++ [encodeFrame seq (0x03 :: q)]) := by
  rw [process_single_frame d s seq _ hfits hempty, classify_query d _ _ q _ hlonger]
  by_cases hw : s.serverWritable = true
  · simp [hw, COM_QUERY]
  · simp [hw, COM_QUERY, notWritable]

theorem C20_plain_query_witness :
    (processMySQLClientData sampleDeps {} (encodeFrame 0 (0x03 :: asciiBytes "SELECT 1"))).status
      = .returned ∧
    (processMySQLClientData sampleDeps {}
      (encodeFrame 0 (0x03 :: asciiBytes "SELECT 1"))).session.logs =
      ({} : Session).logs ++ [.queryLogMessage 0x03 (utf8Decode (asciiBytes "SELECT 1"))] ∧
    (processMySQLClientData sampleDeps {}
      (encodeFrame 0 (0x03 :: asciiBytes "SELECT 1"))).session.store = ({} : Session).store ∧
    (processMySQLClientData sampleDeps {}
      (encodeFrame 0 (0x03 :: asciiBytes "SELECT 1"))).session.lastClientCommand =
      ({} : Session).lastClientCommand ∧
    (({} : Session).serverWritable = true →
      (processMySQLClientData sampleDeps {}
        (encodeFrame 0 (0x03 :: asciiBytes "SELECT 1"))).session.written =
        ({} : Session).written ++ [encodeFrame 0 (0x03 :: asciiBytes "SELECT 1")]) :=
  C20_plain_query_is_logged_verbatim sampleDeps {} 0 (asciiBytes "SELECT 1") (by decide)
    (by decide) rfl

/-! ## The placeholder-count mismatch in the dispatcher (C11) -/

/-- C11 fails on the code: statement 1 is registered with one parameter and the
template `SELECT 1`, and one chunk holds a well-formed execute of statement 1
followed by a `COM_QUERY` frame.  Reconstruction raises
`InvalidAmountOfPlaceholders`, which leaves `processMySQLClientData`: nothing is
written upstream, nothing is logged, both frames stay in the accumulator.  The
next chunk, a `COM_PING` frame, meets the same execute at the head of the
accumulator and raises again; again nothing is written or logged. -/
theorem C11_mismatch_stops_classification_and_forwarding :
    (processMySQLClientData sampleDeps mismatchSession mismatchChunk).status =
      .threw (.invalidAmountOfPlaceholders "SELECT 1".toList [.number 5]) ∧
    (processMySQLClientData sampleDeps mismatchSession mismatchChunk).session.written = [] ∧
    (processMySQLClientData sampleDeps mismatchSession mismatchChunk).session.logs = [] ∧
    (processMySQLClientData sampleDeps mismatchSession mismatchChunk).session.clientBuffer =
      mismatchChunk ∧
    (processMySQLClientData sampleDeps
      (processMySQLClientData sampleDeps mismatchSession mismatchChunk).session
      (encodeFrame 0 [0x0e])).status =
      .threw (.invalidAmountOfPlaceholders "SELECT 1".toList [.number 5]) ∧
    (processMySQLClientData sampleDeps
      (processMySQLClientData sampleDeps mismatchSession mismatchChunk).session
      (encodeFrame 0 [0x0e])).session.written = [] ∧
    (processMySQLClientData sampleDeps
      (processMySQLClientData sampleDeps mismatchSession mismatchChunk).session
      (encodeFrame 0 [0x0e])).session.logs = [] := by
  decide

/-! ## Prepare frames (C21) -/

theorem classify_prepare (d : Deps) (s : Session) (pkt q : Buffer) (seq : Nat) (hq : q ≠ []) :
    classify d s pkt (0x16 :: q) seq =
      ({ s with
         lastClientCommand := some
           { payload := 0x16 :: q
             clientId := d.clientId
             sequenceId := seq
             commandByte := COM_STMT_PREPARE
             query := utf8Decode q } }, none) := by
  have hv : (0x16 : Byte).val = 22 := rfl
  unfold classify
  simp only [detectAuthPacket_known d _ _ _ _ _ (show knownCommands.contains (0x16 : Byte).val
    = true from by decide)]
  simp [hv, COM_STMT_EXECUTE, COM_QUERY, COM_STMT_PREPARE, COM_LONG_DATA, subarrayFrom]
  intro h
  exact absurd h hq

/-- C21: for every client frame with command byte `COM_STMT_PREPARE` (0x16) and a
payload longer than one byte, delivered whole on an empty accumulator, the
dispatcher raises nothing, emits no log record, leaves the registry as it was
and sets the pending command to the frame's payload, the connection id, the
frame's sequence id, the command byte 0x16 and the text of the payload bytes from
offset 1 on, whatever the pending command was before.  With the upstream socket
writable, a second such frame processed next leaves the pending command holding
the second frame's data only. -/
theorem C21_prepare_frame_sets_the_pending_command (d : Deps) (s : Session) (seq : Byte)
    (q : Buffer) (hlonger : q ≠ []) (hfits : (0x16 :: q : Buffer).length < 2 ^ 24)
    (hempty : s.clientBuffer = []) :
    (processMySQLClientData d s (encodeFrame seq (0x16 :: q))).status = .returned ∧
    (processMySQLClientData d s (encodeFrame seq (0x16 :: q))).session.logs = s.logs ∧
    (processMySQLClientData d s (encodeFrame seq (0x16 :: q))).session.store = s.store ∧
    (processMySQLClientData d s (encodeFrame seq (0x16 :: q))).session.lastClientCommand =
      some { payload := 0x16 :: q
             clientId := d.clientId
             sequenceId := seq.val
             commandByte := 0x16
             query := utf8Decode q } ∧
    (s.serverWritable = true → ∀ (seq2 : Byte) (q2 : Buffer), q2 ≠ [] →
      (0x16 :: q2 : Buffer).length < 2 ^ 24 →
      (processMySQLClientData d (processMySQLClientData d s (encodeFrame seq (0x16 :: q))).session
        (encodeFrame seq2 (0x16 :: q2))).session.lastClientCommand =
        some { payload := 0x16 :: q2
               clientId := d.clientId
               sequenceId := seq2.val
               commandByte := 0x16
               query := utf8Decode q2 }) := by
  rw [process_single_frame d s seq _ hfits hempty, classify_prepare d _ _ q _ hlonger]
  by_cases hw : s.serverWritable = true
  · refine ⟨by simp [hw], by simp [hw], by simp [hw], by simp [hw, COM_STMT_PREPARE], ?_⟩
    intro _ seq2 q2 hq2 hfits2
    simp only [hw, if_true]
    rw [process_single_frame d _ seq2 _ hfits2 rfl, classify_prepare d _ _ q2 _ hq2]
    simp [hw, COM_STMT_PREPARE]
  · simp [hw, COM_STMT_PREPARE, notWritable]

theorem C21_prepare_frame_witness :
    (processMySQLClientData sampleDeps {} (encodeFrame 0 (0x16 :: asciiBytes "SELECT ?"))).status
      = .returned ∧
    (processMySQLClientData sampleDeps {}
      (encodeFrame 0 (0x16 :: asciiBytes "SELECT ?"))).session.logs = ({} : Session).logs ∧
    (processMySQLClientData sampleDeps {}
      (encodeFrame 0 (0x16 :: asciiBytes "SELECT ?"))).session.store = ({} : Session).store ∧
    (processMySQLClientData sampleDeps {}
      (encodeFrame 0 (0x16 :: asciiBytes "SELECT ?"))).session.lastClientCommand =
      some { payload := 0x16 :: asciiBytes "SELECT ?"
             clientId := sampleDeps.clientId
             sequenceId := (0 : Byte).val
             commandByte := 0x16
             query := utf8Decode (asciiBytes "SELECT ?") } ∧
    (({} : Session).serverWritable = true → ∀ (seq2 : Byte) (q2 : Buffer), q2 ≠ [] →
      (0x16 :: q2 : Buffer).length < 2 ^ 24 →
      (processMySQLClientData sampleDeps
        (processMySQLClientData sampleDeps {}
          (encodeFrame 0 (0x16 :: asciiBytes "SELECT ?"))).session
        (encodeFrame seq2 (0x16 :: q2))).session.lastClientCommand =
        some { payload := 0x16 :: q2
               clientId := sampleDeps.clientId
               sequenceId := seq2.val
               commandByte := 0x16
               query := utf8Decode q2 }) :=
  C21_prepare_frame_sets_the_pending_command sampleDeps {} 0 (asciiBytes "SELECT ?")
    (by decide) (by decide) rfl

/-! ## Commands other than queries and prepared statements (C25) -/

theorem detectAuthPacket_eq (d : Deps) (s : Session) (pkt p : Buffer) (seq c : Nat) :
    ∃ a, detectAuthPacket d s pkt p seq c = { s with authPackets := a } := by
  simp only [detectAuthPacket]
  split_ifs
  · exact ⟨_, rfl⟩
  · exact ⟨s.authPackets, rfl⟩
  · exact ⟨s.authPackets, rfl⟩

theorem command_shape_ite (p : Buffer) (cid : JsString) (seq c : Nat) (cond : Prop)
    [Decidable cond] (x y : LogRecord)
    (hx : ∃ message extra, x = .command p cid seq c message extra)
    (hy : ∃ message extra, y = .command p cid seq c message extra) :
    ∃ message extra, (if cond then x else y) = .command p cid seq c message extra := by
  split
  · exact hx
  · exact hy

theorem nonQueryRecord_command (d : Deps) (p : Buffer) (seq c : Nat) :
    ∃ message extra, nonQueryRecord d p seq c = .command p d.clientId seq c message extra := by
  unfold nonQueryRecord
  dsimp only
  repeat (first | exact ⟨_, _, rfl⟩ | apply command_shape_ite)

theorem nonQueryRecord_shape (d : Deps) (b : Byte) (rest : Buffer) (seq : Nat) :
    ∃ message extra,
      nonQueryRecord d (b :: rest) seq b.val =
        .command (b :: rest) d.clientId seq b.val message extra ∧
      (b.val = 0x02 ∨ b.val = 0x05 ∨ b.val = 0x06 →
        extra = .dbName (if rest = [] then none else some (utf8Decode rest))) := by
  have hrest : (if (b :: rest).length > 1 then some (utf8Decode (subarrayFrom (b :: rest) 1))
      else none) = (if rest = [] then none else some (utf8Decode rest)) := by
    cases rest with
    | nil => rfl
    | cons x xs => simp [subarrayFrom]
  by_cases h : b.val = 0x02 ∨ b.val = 0x05 ∨ b.val = 0x06
  · rcases h with h | h | h
    · rw [h]
      exact ⟨_, _, rfl, fun _ => congrArg LogExtra.dbName hrest⟩
    · rw [h]
      exact ⟨_, _, rfl, fun _ => congrArg LogExtra.dbName hrest⟩
    · rw [h]
      exact ⟨_, _, rfl, fun _ => congrArg LogExtra.dbName hrest⟩
  · obtain ⟨message, extra, hr⟩ := nonQueryRecord_command d (b :: rest) seq b.val
    exact ⟨message, extra, hr, fun h2 => absurd h2 h⟩

theorem classify_nonQuery (d : Deps) (s : Session) (pkt : Buffer) (b : Byte) (rest : Buffer)
    (seq : Nat)
    (hcmd : b.val ≠ 0x03 ∧ b.val ≠ 0x16 ∧ b.val ≠ 0x17 ∧ b.val ≠ 0x18) :
    ∃ a, classify d s pkt (b :: rest) seq =
      ({ s with
         authPackets := a
         logs := s.logs ++
           (if d.logNonQueries then [nonQueryRecord d (b :: rest) seq b.val] else []) },
       none) := by
  obtain ⟨a, ha⟩ := detectAuthPacket_eq d s pkt (b :: rest) seq b.val
  refine ⟨a, ?_⟩
  unfold classify
  simp only [ha, COM_QUERY, COM_STMT_PREPARE, COM_STMT_EXECUTE, COM_LONG_DATA, hcmd.1, hcmd.2.1,
    hcmd.2.2.1, hcmd.2.2.2, or_self, if_false]
  by_cases hl : d.logNonQueries = true
  · simp [hl]
  · simp [hl]

/-- C25: for every client frame with a non-empty payload whose command byte is
none of `COM_QUERY`, `COM_STMT_PREPARE`, `COM_STMT_EXECUTE` and `COM_LONG_DATA`,
delivered whole on an empty accumulator, the dispatcher raises nothing and
changes neither the registry nor the pending command.  With non-query logging
disabled it emits no log record; with it enabled it emits exactly one structured
record, carrying the payload, the connection id, the frame's sequence id and
command byte, and for `COM_INIT_DB`, `COM_CREATE_DB` and `COM_DROP_DB` the
record's dbName is the text of the payload bytes after the command byte, null
when the payload is the command byte alone.  With the upstream socket writable
the frame is written upstream unchanged in both cases. -/
theorem C25_other_commands_are_logged_on_request (d : Deps) (s : Session) (seq b : Byte)
    (rest : Buffer)
    (hcmd : b.val ≠ 0x03 ∧ b.val ≠ 0x16 ∧ b.val ≠ 0x17 ∧ b.val ≠ 0x18)
    (hfits : (b :: rest).length < 2 ^ 24) (hempty : s.clientBuffer = []) :
    (processMySQLClientData d s (encodeFrame seq (b :: rest))).status = .returned ∧
    (processMySQLClientData d s (encodeFrame seq (b :: rest))).session.store = s.store ∧
    (processMySQLClientData d s (encodeFrame seq (b :: rest))).session.lastClientCommand =
      s.lastClientCommand ∧
    (d.logNonQueries = false →
      (processMySQLClientData d s (encodeFrame seq (b :: rest))).session.logs = s.logs) ∧
    (d.logNonQueries = true → ∃ message extra,
      (processMySQLClientData d s (encodeFrame seq (b :: rest))).session.logs =
        s.logs ++ [.command (b :: rest) d.clientId seq.val b.val message extra] ∧
      (b.val = 0x02 ∨ b.val = 0x05 ∨ b.val = 0x06 →
        extra = .dbName (if rest = [] then none else some (utf8Decode rest)))) ∧
    (s.serverWritable = true →
      (processMySQLClientData d s (encodeFrame seq (b :: rest))).session.written =
        s.written ++ [encodeFrame seq (b :: rest)]) := by
  obtain ⟨a, ha⟩ := classify_nonQuery d { s with clientBuffer := encodeFrame seq (b :: rest) }
    (encodeFrame seq (b :: rest)) b rest seq.val hcmd
  obtain ⟨message, extra, hrec, hdb⟩ := nonQueryRecord_shape d b rest seq.val
  rw [process_single_frame d s seq _ hfits hempty, ha]
  by_cases hw : s.serverWritable = true
  · refine ⟨by simp [hw], by simp [hw], by simp [hw], ?_, ?_, by simp [hw]⟩
    · intro hl
      simp [hw, hl]
    · intro hl
      exact ⟨message, extra, by simp [hw, hl, hrec], hdb⟩
  · refine ⟨by simp [hw], by simp [hw, notWritable], by simp [hw, notWritable], ?_, ?_,
      fun h => absurd h hw⟩
    · intro hl
      simp [hw, hl, notWritable]
    · intro hl
      exact ⟨message, extra, by simp [hw, hl, hrec, notWritable], hdb⟩

theorem C25_other_commands_witness :
    (processMySQLClientData sampleDeps {} (encodeFrame 0 (0x02 :: asciiBytes "shop"))).status
      = .returned ∧
    (processMySQLClientData sampleDeps {}
      (encodeFrame 0 (0x02 :: asciiBytes "shop"))).session.store = ({} : Session).store ∧
    (processMySQLClientData sampleDeps {}
      (encodeFrame 0 (0x02 :: asciiBytes "shop"))).session.lastClientCommand =
      ({} : Session).lastClientCommand ∧
    (sampleDeps.logNonQueries = false →
      (processMySQLClientData sampleDeps {}
        (encodeFrame 0 (0x02 :: asciiBytes "shop"))).session.logs = ({} : Session).logs) ∧
    (sampleDeps.logNonQueries = true → ∃ message extra,
      (processMySQLClientData sampleDeps {}
        (encodeFrame 0 (0x02 :: asciiBytes "shop"))).session.logs =
        ({} : Session).logs ++
          [.command (0x02 :: asciiBytes "shop") sampleDeps.clientId (0 : Byte).val
            (0x02 : Byte).val message extra] ∧
      ((0x02 : Byte).val = 0x02 ∨ (0x02 : Byte).val = 0x05 ∨ (0x02 : Byte).val = 0x06 →
        extra = .dbName (if asciiBytes "shop" = [] then none
          else some (utf8Decode (asciiBytes "shop"))))) ∧
    (({} : Session).serverWritable = true →
      (processMySQLClientData sampleDeps {}
        (encodeFrame 0 (0x02 :: asciiBytes "shop"))).session.written =
        ({} : Session).written ++ [encodeFrame 0 (0x02 :: asciiBytes "shop")]) :=
  C25_other_commands_are_logged_on_request sampleDeps {} 0 0x02 (asciiBytes "shop")
    (by decide) (by decide) rfl

/-! ## The warning for an unknown statement (C27) -/

/-- C27 fails on the code: an execute frame naming statement 99, met with an empty
registry, is processed without any record reaching the log callback. -/
theorem C27_counterexample :
    (processMySQLClientData sampleDeps {}
      (encodeFrame 1 [0x17, 99, 0, 0, 0, 0, 1, 0, 0, 0])).session.logs = [] := by
  decide

/-- C27 (amended): when an execute frame, delivered whole on an empty accumulator,
names a statement id that is not in the registry, the dispatcher raises nothing,
pushes no record to the log callback and writes one warning line naming the
statement id on the console (followed, when the upstream socket is not
writable, by the line of that fault). -/
theorem C27_unknown_statement_warns_on_the_console (d : Deps) (s : Session) (seq : Byte)
    (payload : Buffer) (statementId : Nat)
    (hcmd : payload.head? = some 0x17)
    (hfits : payload.length < 2 ^ 24)
    (hid : readUInt32LE payload 1 = .ok statementId)
    (hmiss : getStatement s.store statementId = none)
    (hempty : s.clientBuffer = []) :
    (processMySQLClientData d s (encodeFrame seq payload)).status = .returned ∧
    (processMySQLClientData d s (encodeFrame seq payload)).session.logs = s.logs ∧
    (processMySQLClientData d s (encodeFrame seq payload)).session.console =
      s.console ++ [.statementDoesNotExist statementId] ++
        (if s.serverWritable then [] else [.serverSocketNotWritable]) := by
  have hlen5 : 5 ≤ payload.length := by
    unfold readUInt32LE readUIntLE at hid
    split at hid
    · omega
    · cases hid
  rw [process_single_frame d s seq _ hfits hempty,
    classify_execute_miss d { s with clientBuffer := encodeFrame seq payload } _ payload _
      statementId hcmd (by omega) hid hmiss]
  by_cases hw : s.serverWritable = true
  · simp [hw]
  · simp [hw, notWritable]

theorem C27_unknown_statement_witness :
    (processMySQLClientData sampleDeps {}
      (encodeFrame 2 [0x17, 7, 0, 0, 0, 0, 1, 0, 0, 0])).status = .returned ∧
    (processMySQLClientData sampleDeps {}
      (encodeFrame 2 [0x17, 7, 0, 0, 0, 0, 1, 0, 0, 0])).session.logs = ({} : Session).logs ∧
    (processMySQLClientData sampleDeps {}
      (encodeFrame 2 [0x17, 7, 0, 0, 0, 0, 1, 0, 0, 0])).session.console =
      ({} : Session).console ++ [.statementDoesNotExist 7] ++
        (if ({} : Session).serverWritable then [] else [.serverSocketNotWritable]) :=
  C27_unknown_statement_warns_on_the_console sampleDeps {} 2
    [0x17, 7, 0, 0, 0, 0, 1, 0, 0, 0] 7 rfl (by decide) rfl rfl rfl

/-! ## Reconstruction against the reference substitution (C28) -/

theorem natToString_toList (n : Nat) : (toString n).toList = Nat.toDigits 10 n := by
  rfl

theorem decorate_eq_render (fmt : Buffer → JsString) (v : ParamValue) :
    decorateParamValue fmt v = renderReference fmt v := by
  cases v with
  | null => rfl
  | number n =>
    cases n with
    | ofNat m => exact (natToString_toList m).symm
    | negSucc m =>
      show '-' :: Nat.toDigits 10 (m + 1) = ("-" ++ toString (m + 1)).data
      rw [String.data_append]
      rfl
  | bigint n => exact (natToString_toList n).symm
  | float raw => rfl
  | string s => rfl
  | boolean b => cases b <;> rfl

/-- C28: for every template and every list of N decoded values, with N at most the
number of `?` characters in the template and no value whose rendered text
contains `?`, `getQueryWithParameters` returns the reference substitution: the
template with its first N `?` characters, left to right, replaced by the
rendered values in order (a string between two `"` characters with no escaping,
null as NULL, true and false as TRUE and FALSE, a number as its decimal text)
and every other character unchanged. -/
theorem C28_reconstruction_equals_reference_substitution (fmt : Buffer → JsString)
    (st : MysqlPreparedStatement) (values : List ParamValue)
    (hvalues : st.paramValues = some values)
    (hcount : values.length ≤ st.query.count '?')
    (hfree : ∀ v ∈ values, '?' ∉ renderReference fmt v) :
    getQueryWithParameters fmt st =
      .ok (substituteReference st.query (values.map (renderReference fmt))) := by
  have hmap : values.map (decorateParamValue fmt) = values.map (renderReference fmt) :=
    List.map_congr_left (fun v _ => decorate_eq_render fmt v)
  simp only [getQueryWithParameters, hvalues, hmap]
  apply substituteParams_ok
  · intro w hw
    obtain ⟨v, hv, rfl⟩ := List.mem_map.mp hw
    exact hfree v hv
  · simpa using hcount

theorem C28_reconstruction_witness :
    getQueryWithParameters noFloat
        (statementWith "a=? b=? c=? d=?" [.string ['x'], .number (-5), .null]) =
      .ok (substituteReference
        (statementWith "a=? b=? c=? d=?" [.string ['x'], .number (-5), .null]).query
        ([.string ['x'], .number (-5), .null].map (renderReference noFloat))) :=
  C28_reconstruction_equals_reference_substitution noFloat
    (statementWith "a=? b=? c=? d=?" [.string ['x'], .number (-5), .null])
    [.string ['x'], .number (-5), .null] rfl (by decide) (by decide)

/-! ## The sweep of outdated statements (C22) -/

theorem sweep_fold (now : Nat) :
    ∀ (l : Store) (acc : Store) (n : Nat),
      (l.foldl
        (fun (acc : Store × Nat) entry =>
          if isOutdated now entry.2 then (deleteStatement acc.1 entry.1, acc.2 + 1) else acc)
        (acc, n)).1 =
      acc.filter fun e => !(l.any fun x => isOutdated now x.2 && x.1 == e.1) := by
  intro l
  induction l with
  | nil => intro acc n; simp
  | cons x xs ih =>
    intro acc n
    simp only [List.foldl_cons]
    by_cases h : isOutdated now x.2 = true
    · simp only [h, if_true]
      rw [ih]
      simp only [deleteStatement, List.filter_filter]
      apply List.filter_congr
      intro e _
      by_cases hk : x.1 = e.1
      · simp [hk, h]
      · have hk2 : ¬ e.1 = x.1 := fun h => hk h.symm
        simp [hk, hk2, h]
    · simp only [h, if_false]
      rw [ih]
      apply List.filter_congr
      intro e _
      simp [h]

theorem deleteOutdatedStatements_eq_filter (now : Nat) (store : Store)
    (hunique : store.keysUnique) :
    (deleteOutdatedStatements now store).1 = store.filter fun e => !isOutdated now e.2 := by
  unfold deleteOutdatedStatements
  rw [sweep_fold]
  apply List.filter_congr
  intro e he
  congr 1
  obtain ⟨k, v⟩ := e
  by_cases ho : isOutdated now v = true
  · simp only [ho, List.any_eq_true]
    exact ⟨(k, v), he, by simp [ho]⟩
  · have ho2 : isOutdated now v = false := by simpa using ho
    rw [ho2]
    apply Bool.eq_false_iff.mpr
    intro hany
    obtain ⟨x, hx, hcond⟩ := List.any_eq_true.mp hany
    simp only [Bool.and_eq_true, beq_iff_eq] at hcond
    obtain ⟨k2, v2⟩ := x
    have hkk : k2 = k := hcond.2
    subst hkk
    have hv : v2 = v := by
      unfold Store.keysUnique at hunique
      clear hany ho ho2 hcond
      induction store with
      | nil => simp at hx
      | cons y ys ih =>
        simp only [List.map_cons, List.nodup_cons, List.mem_map, not_exists, not_and] at hunique
        rcases List.mem_cons.mp hx with h1 | h1 <;> rcases List.mem_cons.mp he with h2 | h2
        · rw [← h1] at h2
          exact (Prod.mk.inj h2).2.symm
        · exact absurd (by rw [← h1]) (hunique.1 (k2, v) h2)
        · exact absurd (by rw [← h2]) (hunique.1 (k2, v2) h1)
        · exact ih hunique.2 h1 h2
    rw [hv] at hcond
    exact ho hcond.1

theorem getStatement_filter (p : Nat × MysqlPreparedStatement → Bool) :
    ∀ (store : Store) (k : Nat) (v : MysqlPreparedStatement), store.keysUnique →
      getStatement store k = some v →
      getStatement (store.filter p) k = if p (k, v) then some v else none := by
  intro store
  induction store with
  | nil => intro k v _ h; simp [getStatement, List.lookup] at h
  | cons e es ih =>
    intro k v hu h
    obtain ⟨k0, v0⟩ := e
    have hu2 : Store.keysUnique es := by
      unfold Store.keysUnique at hu ⊢
      exact (List.nodup_cons.mp hu).2
    by_cases hk : k = k0
    · subst hk
      have hv : v0 = v := by simpa [getStatement, List.lookup] using h
      subst hv
      by_cases hp : p (k, v0) = true
      · simp [List.filter, hp, getStatement, List.lookup]
      · have hnot : ∀ w, (k, w) ∉ es := by
          intro w hw
          unfold Store.keysUnique at hu
          have := (List.nodup_cons.mp hu).1
          exact this (List.mem_map.mpr ⟨(k, w), hw, rfl⟩)
        have hnone : ∀ (l : Store), (∀ w, (k, w) ∉ l) → List.lookup k l = none := by
          intro l
          induction l with
          | nil => intro _; rfl
          | cons y ys ihy =>
            intro hy
            obtain ⟨a, b⟩ := y
            have hne : ¬ k = a := by
              intro e
              exact hy b (by simp [e])
            have hbeq : (k == a) = false := by simpa using hne
            simp only [List.lookup, hbeq]
            exact ihy (fun w hw => hy w (List.mem_cons_of_mem _ hw))
        simp only [List.filter, hp, getStatement, if_false]
        have : (false = true) = False := by simp
        simp only [Bool.false_eq_true, if_false]
        exact hnone _ (fun w hw => hnot w (List.mem_of_mem_filter hw))
    · have hbeq : (k == k0) = false := by simpa using hk
      have h2 : getStatement es k = some v := by
        simpa [getStatement, List.lookup, hbeq] using h
      have := ih k v hu2 h2
      by_cases hp : p (k0, v0) = true
      · simp only [List.filter, hp, getStatement, List.lookup, hbeq]
        exact this
      · have hp2 : p (k0, v0) = false := by simpa using hp
        simp only [List.filter, hp2]
        exact this

/-- C22 fails on the code at the boundary: a statement created at time 1000 is
still in the registry after a sweep run at time 61000, that is at T + 60000. -/
theorem C22_counterexample :
    getStatement (deleteOutdatedStatements 61000 [(1, statementAt 1000)]).1 1 =
      some (statementAt 1000) := by
  decide

/-- C22 (amended): a statement in the registry, created at time T, is absent after
a `deleteOutdatedStatements` sweep run at a time later than T + 60000 ms, and
is still present, unchanged, after a sweep run at a time up to and including
T + 60000 ms. -/
theorem C22_sweep_removes_statements_older_than_a_minute (now : Nat) (store : Store)
    (statementId : Nat) (statement : MysqlPreparedStatement)
    (hunique : store.keysUnique)
    (hpresent : getStatement store statementId = some statement) :
    (statement.date + 60000 < now →
      getStatement (deleteOutdatedStatements now store).1 statementId = none) ∧
    (now ≤ statement.date + 60000 →
      getStatement (deleteOutdatedStatements now store).1 statementId = some statement) := by
  rw [deleteOutdatedStatements_eq_filter now store hunique,
    getStatement_filter _ store statementId statement hunique hpresent]
  constructor
  · intro h
    have : isOutdated now statement = true := by
      unfold isOutdated
      simp only [decide_eq_true_eq]
      omega
    simp [this]
  · intro h
    have : isOutdated now statement = false := by
      unfold isOutdated
      simp only [decide_eq_false_iff_not]
      omega
    simp [this]

theorem C22_sweep_witness :
    ((statementAt 1000).date + 60000 < 61001 →
      getStatement (deleteOutdatedStatements 61001 [(1, statementAt 1000)]).1 1 = none) ∧
    (61001 ≤ (statementAt 1000).date + 60000 →
      getStatement (deleteOutdatedStatements 61001 [(1, statementAt 1000)]).1 1 =
        some (statementAt 1000)) :=
  C22_sweep_removes_statements_older_than_a_minute 61001 [(1, statementAt 1000)] 1
    (statementAt 1000) (by decide) rfl

/-! ## Truncated length-prefixed values (C29) -/

/-- C29 fails on the code: for a statement with one parameter and the template
`SELECT ?`, an execute payload whose VAR_STRING value announces five bytes where
two remain is decoded without any error: `paramValues` is set to the text of the
two bytes, `error` stays unset and the shortened value is substituted into the
query.  The same happens with a DATE value announcing four bytes where two
remain.  A payload that ends inside the type tag, or inside a four-byte integer,
does record an error and leaves `paramValues` unset. -/
theorem C29_truncated_length_prefixed_value_is_decoded :
    (setExecuteStatementQuery (statementOf "SELECT ?" 1 1) truncatedTextExecute).map
        (fun st => (st.paramValues, st.error)) = .ok (some [.string "ab".toList], none) ∧
    ((setExecuteStatementQuery (statementOf "SELECT ?" 1 1) truncatedTextExecute).bind
        (getQueryWithParameters noFloat)) = .ok ("SELECT ".toList ++ dquote :: "ab".toList ++ [dquote]) ∧
    (setExecuteStatementQuery (statementOf "SELECT ?" 1 1) truncatedDateExecute).map
        (fun st => (st.paramValues, st.error)) = .ok (some [.string "0xe807".toList], none) ∧
    ((setExecuteStatementQuery (statementOf "SELECT ?" 1 1) truncatedDateExecute).bind
        (getQueryWithParameters noFloat)) = .ok ("SELECT ".toList ++ dquote :: "0xe807".toList ++ [dquote]) ∧
    (setExecuteStatementQuery (statementOf "SELECT ?" 1 1)
        [0x17, 1, 0, 0, 0, 0x00, 1, 0, 0, 0, 0x00, 0x01, 0xFD]).map
        (fun st => (st.paramValues, st.error)) = .ok (none, some .rangeError) ∧
    (setExecuteStatementQuery (statementOf "SELECT ?" 1 1)
        [0x17, 1, 0, 0, 0, 0x00, 1, 0, 0, 0, 0x00, 0x01, 0x03, 0x00, 1, 2]).map
        (fun st => (st.paramValues, st.error)) = .ok (none, some .rangeError) := by
  decide

/-! ## The accumulator of the correlator (C30) -/

theorem complete_head (b : Buffer) (h : ¬ Incomplete b) :
    ∃ seq p rest, b = encodeFrame seq p ++ rest ∧ p.length < 2 ^ 24 := by
  unfold Incomplete at h
  simp only [not_or, not_lt] at h
  obtain ⟨h4, hl⟩ := h
  match b, h4, hl with
  | b0 :: b1 :: b2 :: sq :: tail, _, hl =>
    have e3 : List.take 3 (b0 :: b1 :: b2 :: sq :: tail) = [b0, b1, b2] := rfl
    rw [e3] at hl
    have hL : leValue [b0, b1, b2] = b0.val + 256 * (b1.val + 256 * b2.val) := by
      simp [leValue]
    have h0 := b0.isLt
    have h1 := b1.isLt
    have h2 := b2.isLt
    simp only [List.length_cons] at hl
    have hlen : (tail.take (leValue [b0, b1, b2])).length = leValue [b0, b1, b2] := by
      rw [List.length_take]
      omega
    refine ⟨sq, tail.take (leValue [b0, b1, b2]), tail.drop (leValue [b0, b1, b2]), ?_, ?_⟩
    · have e0 : byteOf (leValue [b0, b1, b2]) = b0 := by
        apply Fin.ext
        simp only [byteOf, hL]
        omega
      have e1 : byteOf (leValue [b0, b1, b2] / 256) = b1 := by
        apply Fin.ext
        simp only [byteOf, hL]
        omega
      have e2 : byteOf (leValue [b0, b1, b2] / 65536) = b2 := by
        apply Fin.ext
        simp only [byteOf, hL]
        omega
      simp only [encodeFrame, hlen, e0, e1, e2, List.cons_append, List.take_append_drop]
    · rw [hlen, hL]
      omega

theorem prepareLoop_decompose (now : Nat) (cmd : ClientCommand) :
    ∀ (fuel : Nat) (buffer : Buffer) (lastStatementId : Option Nat) (store : Store),
      ((prepareLoop now cmd fuel buffer lastStatementId store).status = .returned →
        ∃ fs : List Frame, (∀ f ∈ fs, f.valid) ∧
          buffer = encodeFrames fs ++
            (prepareLoop now cmd fuel buffer lastStatementId store).serverResponseBuffer ∧
          Incomplete (prepareLoop now cmd fuel buffer lastStatementId store).serverResponseBuffer) ∧
      (∀ e, (prepareLoop now cmd fuel buffer lastStatementId store).status = .threw e →
        ∃ (fs : List Frame) (f : Frame) (rest : Buffer), (∀ g ∈ fs, g.valid) ∧ f.valid ∧
          buffer = encodeFrames fs ++ (f.encode ++ rest)) := by
  intro fuel
  induction fuel with
  | zero =>
    intro b l store
    simp [prepareLoop]
  | succ k ih =>
    intro b l store
    by_cases hinc : Incomplete b
    · rw [prepareLoop_incomplete now cmd k b l store hinc]
      constructor
      · intro _
        refine ⟨[], by simp, ?_, ?_⟩
        · split <;> simp [encodeFrames]
        · split <;> exact hinc
      · intro e he
        split at he <;> simp at he
    · obtain ⟨seq, p, rest, hb, hp⟩ := complete_head b hinc
      subst hb
      have step : ∀ (l1 : Option Nat) (store1 : Store),
          ((prepareLoop now cmd k rest l1 store1).status = .returned →
            ∃ fs : List Frame, (∀ f ∈ fs, f.valid) ∧
              encodeFrame seq p ++ rest = encodeFrames fs ++
                (prepareLoop now cmd k rest l1 store1).serverResponseBuffer ∧
              Incomplete (prepareLoop now cmd k rest l1 store1).serverResponseBuffer) ∧
          (∀ e, (prepareLoop now cmd k rest l1 store1).status = .threw e →
            ∃ (fs : List Frame) (f : Frame) (rest1 : Buffer), (∀ g ∈ fs, g.valid) ∧ f.valid ∧
              encodeFrame seq p ++ rest = encodeFrames fs ++ (f.encode ++ rest1)) := by
        intro l1 store1
        obtain ⟨ih1, ih2⟩ := ih rest l1 store1
        constructor
        · intro hr
          obtain ⟨fs, hv, hbuf, hi⟩ := ih1 hr
          refine ⟨⟨seq, p⟩ :: fs, ?_, ?_, hi⟩
          · intro f hf
            rcases List.mem_cons.mp hf with h | h
            · rw [h]; exact hp
            · exact hv f h
          · simp only [encodeFrames, Frame.encode, List.append_assoc]
            rw [← hbuf]
        · intro e he
          obtain ⟨fs, f, rest1, hv, hfv, hbuf⟩ := ih2 e he
          refine ⟨⟨seq, p⟩ :: fs, f, rest1, ?_, hfv, ?_⟩
          · intro g hg
            rcases List.mem_cons.mp hg with h | h
            · rw [h]; exact hp
            · exact hv g h
          · rw [hbuf]
            simp only [encodeFrames, Frame.encode, List.append_assoc]
      have here : ∃ (fs : List Frame) (f : Frame) (rest1 : Buffer), (∀ g ∈ fs, g.valid) ∧
          f.valid ∧ encodeFrame seq p ++ rest = encodeFrames fs ++ (f.encode ++ rest1) :=
        ⟨[], ⟨seq, p⟩, rest, by simp, hp, by simp [encodeFrames, Frame.encode]⟩
      rw [prepareLoop_frame now cmd k seq p rest l store hp]
      split
      · split
        · exact ⟨fun h => by simp at h, fun _ _ => here⟩
        · split
          · exact ⟨fun h => by simp at h, fun _ _ => here⟩
          · exact step _ _
      · exact step _ _

/-- C30: for every accumulator and every incoming server chunk while a prepare is
pending, `handleStatementPrepareResponse` ends, and when it returns, the
accumulator it returns is what is left of the old accumulator followed by the
chunk once every leading complete frame is removed: it is shorter than 4 bytes or
shorter than 4 plus the payload length declared in its first 3 bytes.  When the
call raises instead, it does so on a frame all of whose bytes are present. -/
theorem C30_returned_accumulator_is_the_incomplete_rest (now : Nat)
    (data serverResponseBuffer : Buffer) (cmd : ClientCommand) (lastStatementId : Option Nat)
    (store : Store) (hpending : cmd.commandByte = COM_STMT_PREPARE) :
    (handleStatementPrepareResponse now data serverResponseBuffer (some cmd) lastStatementId
      store).status ≠ .outOfFuel ∧
    ((handleStatementPrepareResponse now data serverResponseBuffer (some cmd) lastStatementId
      store).status = .returned →
      ∃ fs : List Frame, (∀ f ∈ fs, f.valid) ∧
        serverResponseBuffer ++ data = encodeFrames fs ++
          (handleStatementPrepareResponse now data serverResponseBuffer (some cmd)
            lastStatementId store).serverResponseBuffer ∧
        Incomplete (handleStatementPrepareResponse now data serverResponseBuffer (some cmd)
          lastStatementId store).serverResponseBuffer) ∧
    (∀ e, (handleStatementPrepareResponse now data serverResponseBuffer (some cmd)
      lastStatementId store).status = .threw e →
      ∃ (fs : List Frame) (f : Frame) (rest : Buffer), (∀ g ∈ fs, g.valid) ∧ f.valid ∧
        serverResponseBuffer ++ data = encodeFrames fs ++ (f.encode ++ rest)) := by
  refine ⟨handleStatementPrepareResponse_fuel _ _ _ _ _ _, ?_⟩
  simp only [handleStatementPrepareResponse, hpending, if_true]
  exact prepareLoop_decompose now cmd _ _ _ _

theorem C30_returned_accumulator_witness :
    (handleStatementPrepareResponse 0 [0x05, 0, 0, 0, 0x05] [0x01, 0, 0, 1] (some samplePending)
      none []).status ≠ .outOfFuel ∧
    ((handleStatementPrepareResponse 0 [0x05, 0, 0, 0, 0x05] [0x01, 0, 0, 1]
      (some samplePending) none []).status = .returned →
      ∃ fs : List Frame, (∀ f ∈ fs, f.valid) ∧
        [0x01, 0, 0, 1] ++ [0x05, 0, 0, 0, 0x05] = encodeFrames fs ++
          (handleStatementPrepareResponse 0 [0x05, 0, 0, 0, 0x05] [0x01, 0, 0, 1]
            (some samplePending) none []).serverResponseBuffer ∧
        Incomplete (handleStatementPrepareResponse 0 [0x05, 0, 0, 0, 0x05] [0x01, 0, 0, 1]
          (some samplePending) none []).serverResponseBuffer) ∧
    (∀ e, (handleStatementPrepareResponse 0 [0x05, 0, 0, 0, 0x05] [0x01, 0, 0, 1]
      (some samplePending) none []).status = .threw e →
      ∃ (fs : List Frame) (f : Frame) (rest : Buffer), (∀ g ∈ fs, g.valid) ∧ f.valid ∧
        [0x01, 0, 0, 1] ++ [0x05, 0, 0, 0, 0x05] = encodeFrames fs ++ (f.encode ++ rest)) :=
  C30_returned_accumulator_is_the_incomplete_rest 0 [0x05, 0, 0, 0, 0x05] [0x01, 0, 0, 1]
    samplePending none [] rfl

/-! ## Bytes buffered before the upstream is connected (C23) -/

/-- C23 fails on the code.  One complete query frame that arrived before the
upstream was connected is written upstream twice when the connect completes, and
logged twice: the connect callback hands the variable `clientBuffer` to
`processMySQLClientData`, which appends the chunk to that same variable.  When
the buffered bytes are that frame followed by the first two bytes of a second
frame, the frame is written once, and the accumulator is emptied after the call,
so the two bytes are lost: the rest of the second frame, arriving in the next
client chunk, is taken for the start of a frame and nothing more is written. -/
theorem C23_buffered_bytes_are_processed_twice :
    (bufferedBeforeConnect queryFrameA).session.clientBuffer = queryFrameA ∧
    (bufferedBeforeConnect queryFrameA).session.written = [] ∧
    (onServerConnected sampleDeps sampleHostPort
      (bufferedBeforeConnect queryFrameA)).1.session.written = [queryFrameA, queryFrameA] ∧
    ((onServerConnected sampleDeps sampleHostPort
      (bufferedBeforeConnect queryFrameA)).1.session.logs.filter
        fun r => r = .queryLogMessage COM_QUERY "A".toList).length = 2 ∧
    (onServerConnected sampleDeps sampleHostPort
      (bufferedBeforeConnect (queryFrameA ++ queryFrameB.take 2))).1.session.written =
      [queryFrameA] ∧
    (onServerConnected sampleDeps sampleHostPort
      (bufferedBeforeConnect (queryFrameA ++ queryFrameB.take 2))).1.session.clientBuffer = [] ∧
    (onClientSocketData sampleDeps
      (onServerConnected sampleDeps sampleHostPort
        (bufferedBeforeConnect (queryFrameA ++ queryFrameB.take 2))).1
      (queryFrameB.drop 2)).1.session.written = [queryFrameA] ∧
    (onClientSocketData sampleDeps
      (onServerConnected sampleDeps sampleHostPort
        (bufferedBeforeConnect (queryFrameA ++ queryFrameB.take 2))).1
      (queryFrameB.drop 2)).1.session.clientBuffer = queryFrameB.drop 2 := by
  decide

/-! ## A destination socket that is not writable (C26) -/

/-- C26 fails on the code in the upstream-to-client direction.  With the upstream
socket not writable, a client frame is not written, one error record with the
code `DB_SOCKET_NOT_WRITABLE` is emitted and both sockets are ended.  With the
client socket not writable, a server chunk is not written, one error record with
the code `CLIENT_SOCKET_NOT_WRITABLE` is emitted and the upstream socket is
ended, but the client socket is not. -/
theorem C26_client_socket_is_not_ended_by_the_response_handler :
    (processMySQLClientData sampleDeps { serverWritable := false } queryFrameA).session.written
      = [] ∧
    (processMySQLClientData sampleDeps { serverWritable := false } queryFrameA).session.errors =
      [.packet DB_SOCKET_NOT_WRITABLE (0x03 :: asciiBytes "A") sampleDeps.clientId 0
        "MySQL socket not writable. Cannot forward packet.".toList] ∧
    (processMySQLClientData sampleDeps { serverWritable := false }
      queryFrameA).session.clientSocketEnded = true ∧
    (processMySQLClientData sampleDeps { serverWritable := false }
      queryFrameA).session.serverSocketEnded = true ∧
    (onServerData sampleDeps 0 { clientWritable := false } [1, 2, 3]).1.toClient = [] ∧
    (onServerData sampleDeps 0 { clientWritable := false } [1, 2, 3]).1.session.errors =
      [.response CLIENT_SOCKET_NOT_WRITABLE sampleDeps.clientId [1, 2, 3]
        "Client socket not writable for MySQL response.".toList] ∧
    (onServerData sampleDeps 0 { clientWritable := false } [1, 2, 3]).1.session.serverSocketEnded
      = true ∧
    (onServerData sampleDeps 0 { clientWritable := false } [1, 2, 3]).1.session.clientSocketEnded
      = false := by
  decide

/-! ## Two sessions and the shared registry (C24) -/

theorem classify_plain (d : Deps) (s : Session) (pkt p : Buffer) (seq : Nat)
    (h16 : p.head? ≠ some 0x16) (h17 : p.head? ≠ some 0x17) :
    ∃ s1, classify d s pkt p seq = (s1, none) ∧ s1.serverWritable = s.serverWritable ∧
      s1.store = s.store ∧ s1.lastClientCommand = s.lastClientCommand := by
  cases p with
  | nil => exact ⟨s, rfl, rfl, rfl, rfl⟩
  | cons b bs =>
    have hb16 : ¬ b.val = COM_STMT_PREPARE := by
      intro e
      apply h16
      have : b = 0x16 := Fin.ext e
      simp [this]
    have hb17 : ¬ b.val = COM_STMT_EXECUTE := by
      intro e
      apply h17
      have : b = 0x17 := Fin.ext e
      simp [this]
    obtain ⟨a, ha⟩ := detectAuthPacket_eq d s pkt (b :: bs) seq b.val
    unfold classify
    simp only [ha, hb16, hb17, false_or, or_false, if_false]
    split_ifs <;> exact ⟨_, rfl, rfl, rfl, rfl⟩

/-- The loop on complete frames, none a prepare or an execute, followed by an
incomplete rest: it returns on the rest and leaves the registry and the pending
command as they were. -/
theorem clientLoop_plain_frames (d : Deps) :
    ∀ (fs : List Frame) (rest : Buffer) (fuel : Nat) (s : Session),
      (∀ f ∈ fs, f.valid ∧ f.payload.head? ≠ some 0x16 ∧ f.payload.head? ≠ some 0x17) →
      Incomplete rest →
      s.clientBuffer = encodeFrames fs ++ rest → s.serverWritable = true → fs.length < fuel →
      ∃ s1, clientLoop d fuel s = ⟨s1, .returned⟩ ∧ s1.clientBuffer = rest ∧
        s1.serverWritable = true ∧ s1.store = s.store ∧
        s1.lastClientCommand = s.lastClientCommand := by
  intro fs
  induction fs with
  | nil =>
    intro rest fuel s _ hrest hbuf hw hfuel
    obtain ⟨k, rfl⟩ : ∃ k, fuel = k + 1 := ⟨fuel - 1, by simp at hfuel; omega⟩
    have hbuf' : s.clientBuffer = rest := by simpa [encodeFrames] using hbuf
    exact ⟨s, clientLoop_incomplete d k s (by rw [hbuf']; exact hrest), hbuf', hw, rfl, rfl⟩
  | cons f fs ih =>
    intro rest fuel s hfs hrest hbuf hw hfuel
    obtain ⟨k, rfl⟩ : ∃ k, fuel = k + 1 := ⟨fuel - 1, by simp at hfuel; omega⟩
    have hf := hfs f (by simp)
    have hbuf' : s.clientBuffer =
        encodeFrame f.sequenceId f.payload ++ (encodeFrames fs ++ rest) := by
      simpa [encodeFrames, Frame.encode] using hbuf
    obtain ⟨s1, hc, hw1, hst1, hp1⟩ :=
      classify_plain d s (encodeFrame f.sequenceId f.payload) f.payload f.sequenceId.val
        hf.2.1 hf.2.2
    rw [clientLoop_frame d k s f.sequenceId f.payload _ hf.1 hbuf', hc]
    have hw1' : s1.serverWritable = true := by rw [hw1, hw]
    simp only [if_pos hw1']
    obtain ⟨s2, h2, hb2, hw2, hst2, hp2⟩ := ih rest k
      { s1 with
        written := s1.written ++ [encodeFrame f.sequenceId f.payload]
        clientBuffer := encodeFrames fs ++ rest }
      (fun g hg => hfs g (by simp [hg])) hrest rfl hw1'
      (by simp at hfuel; omega)
    exact ⟨s2, h2, hb2, hw2, by rw [hst2, ← hst1], by rw [hp2, ← hp1]⟩

theorem step_of_first (d1 d2 : Deps) (p q : Proxy) (e : SocketEvent)
    (he : e.ofFirst = true) (hfirst : p.first = q.first)
    (hreg : p.preparedStatements = q.preparedStatements) :
    (Proxy.step d1 d2 p e).1.first = (Proxy.step d1 d2 q e).1.first ∧
    (Proxy.step d1 d2 p e).1.preparedStatements = (Proxy.step d1 d2 q e).1.preparedStatements ∧
    (Proxy.step d1 d2 p e).2 = (Proxy.step d1 d2 q e).2 ∧
    (Proxy.step d1 d2 p e).1.second = p.second := by
  cases e with
  | firstClient data => simp [Proxy.step, hfirst, hreg]
  | firstServer now data => simp [Proxy.step, hfirst, hreg]
  | secondClient data => simp [SocketEvent.ofFirst] at he
  | secondServer now data => simp [SocketEvent.ofFirst] at he

theorem step_of_second_client (d1 d2 : Deps) (p : Proxy) (data tail : Buffer) (fs : List Frame)
    (hfs : ∀ f ∈ fs, f.valid ∧ f.payload.head? ≠ some 0x16 ∧ f.payload.head? ≠ some 0x17)
    (hbuf : p.second.session.clientBuffer ++ (data ++ tail) = encodeFrames fs)
    (hpend : p.second.session.lastClientCommand = none)
    (hw : p.second.session.serverWritable = true) :
    ∃ p1 gs, Proxy.step d1 d2 p (.secondClient data) = (p1, .returned) ∧
      p1.first = p.first ∧ p1.preparedStatements = p.preparedStatements ∧
      (∀ f ∈ gs, f.valid ∧ f.payload.head? ≠ some 0x16 ∧ f.payload.head? ≠ some 0x17) ∧
      p1.second.session.clientBuffer ++ tail = encodeFrames gs ∧
      Incomplete p1.second.session.clientBuffer ∧
      p1.second.session.lastClientCommand = none ∧
      p1.second.session.serverWritable = true ∧
      p1.second.clientWritable = p.second.clientWritable := by
  have hbuf' : (p.second.session.clientBuffer ++ data) ++ tail = encodeFrames fs := by
    simpa [List.append_assoc] using hbuf
  obtain ⟨g1, g2, rest, hg, hp, hr, hrq⟩ :=
    encodeFrames_cut fs _ _ (fun f hf => (hfs f hf).1) hbuf'
  subst hg
  obtain ⟨s1, h1, hb1, hw1, hst1, hp1⟩ := clientLoop_plain_frames d2 g1 rest
    ((p.second.session.clientBuffer ++ data).length / 4 + 1)
    { p.second.session with
      store := p.preparedStatements
      clientBuffer := p.second.session.clientBuffer ++ data }
    (fun f hf => hfs f (by simp [hf])) hr hp hw
    (by
      have := encodeFrames_length g1
      have hl := congrArg List.length hp
      simp only [List.length_append] at hl this ⊢
      omega)
  have hproc : processMySQLClientData d2 (withRegistry p.second p.preparedStatements).session
      data = ⟨s1, .returned⟩ := h1
  refine ⟨{ p with
            second := { withRegistry p.second p.preparedStatements with session := s1 }
            preparedStatements := s1.store }, g2, ?_, rfl, hst1, ?_, ?_, ?_, ?_, hw1, rfl⟩
  · simp only [Proxy.step, onClientData, hproc]
  · intro f hf
    exact hfs f (by simp [hf])
  · show s1.clientBuffer ++ tail = encodeFrames g2
    rw [hb1]
    exact hrq
  · show Incomplete s1.clientBuffer
    rw [hb1]
    exact hr
  · show s1.lastClientCommand = none
    rw [hp1]
    exact hpend

theorem step_of_second_server (d1 d2 : Deps) (p : Proxy) (now : Nat) (data : Buffer)
    (hpend : p.second.session.lastClientCommand = none)
    (hcw : p.second.clientWritable = true) :
    (Proxy.step d1 d2 p (.secondServer now data)).2 = .returned ∧
    (Proxy.step d1 d2 p (.secondServer now data)).1.first = p.first ∧
    (Proxy.step d1 d2 p (.secondServer now data)).1.preparedStatements =
      p.preparedStatements ∧
    (Proxy.step d1 d2 p (.secondServer now data)).1.second.session.clientBuffer =
      p.second.session.clientBuffer ∧
    (Proxy.step d1 d2 p (.secondServer now data)).1.second.session.lastClientCommand = none ∧
    (Proxy.step d1 d2 p (.secondServer now data)).1.second.session.serverWritable =
      p.second.session.serverWritable ∧
    (Proxy.step d1 d2 p (.secondServer now data)).1.second.clientWritable = true := by
  simp [Proxy.step, onServerData, withRegistry, hcw, hpend, handleStatementPrepareResponse]

theorem run_without_second (d1 d2 : Deps) :
    ∀ (events : List SocketEvent) (p q : Proxy) (fs : List Frame),
      p.first = q.first → p.preparedStatements = q.preparedStatements →
      (∀ f ∈ fs, f.valid ∧ f.payload.head? ≠ some 0x16 ∧ f.payload.head? ≠ some 0x17) →
      p.second.session.clientBuffer ++ secondClientBytes events = encodeFrames fs →
      p.second.session.lastClientCommand = none →
      p.second.session.serverWritable = true →
      p.second.clientWritable = true →
      (Proxy.run d1 d2 p events).1.first =
        (Proxy.run d1 d2 q (events.filter SocketEvent.ofFirst)).1.first ∧
      (Proxy.run d1 d2 p events).1.preparedStatements =
        (Proxy.run d1 d2 q (events.filter SocketEvent.ofFirst)).1.preparedStatements ∧
      (Proxy.run d1 d2 p events).2 =
        (Proxy.run d1 d2 q (events.filter SocketEvent.ofFirst)).2 := by
  intro events
  induction events with
  | nil =>
    intro p q fs hfirst hreg _ _ _ _ _
    exact ⟨hfirst, hreg, rfl⟩
  | cons e es ih =>
    intro p q fs hfirst hreg hfs hbuf hpend hw hcw
    by_cases he : e.ofFirst = true
    · obtain ⟨h1, h2, h3, h4⟩ := step_of_first d1 d2 p q e he hfirst hreg
      have hbytes : secondClientBytes (e :: es) = secondClientBytes es := by
        cases e with
        | firstClient data => rfl
        | firstServer now data => rfl
        | secondClient data => simp [SocketEvent.ofFirst] at he
        | secondServer now data => simp [SocketEvent.ofFirst] at he
      rw [List.filter_cons_of_pos he]
      simp only [Proxy.run]
      rcases hp : Proxy.step d1 d2 p e with ⟨p1, st1⟩
      rcases hq : Proxy.step d1 d2 q e with ⟨q1, st2⟩
      rw [hp, hq] at h1 h2 h3
      rw [hp] at h4
      simp only at h1 h2 h3 h4
      subst h3
      cases st1 with
      | returned =>
        simp only
        exact ih p1 q1 fs h1 h2 hfs (by rw [h4, ← hbytes]; exact hbuf) (by rw [h4]; exact hpend)
          (by rw [h4]; exact hw) (by rw [h4]; exact hcw)
      | threw err => exact ⟨h1, h2, rfl⟩
      | outOfFuel => exact ⟨h1, h2, rfl⟩
    · rw [List.filter_cons_of_neg he]
      cases e with
      | firstClient data => simp [SocketEvent.ofFirst] at he
      | firstServer now data => simp [SocketEvent.ofFirst] at he
      | secondClient data =>
        obtain ⟨p1, gs, hstep, hf1, hr1, hgs, hb1, _, hp1, hw1, hc1⟩ :=
          step_of_second_client d1 d2 p data (secondClientBytes es) fs hfs hbuf hpend hw
        simp only [Proxy.run, hstep]
        exact ih p1 q gs (by rw [hf1, hfirst]) (by rw [hr1, hreg]) hgs hb1 hp1 hw1
          (by rw [hc1]; exact hcw)
      | secondServer now data =>
        obtain ⟨hst, hf1, hr1, hb1, hp1, hw1, hc1⟩ :=
          step_of_second_server d1 d2 p now data hpend hcw
        simp only [Proxy.run]
        rcases hstep : Proxy.step d1 d2 p (.secondServer now data) with ⟨p1, st⟩
        rw [hstep] at hst hf1 hr1 hb1 hp1 hw1 hc1
        simp only at hst hf1 hr1 hb1 hp1 hw1 hc1
        subst hst
        simp only
        have hbytes : secondClientBytes (SocketEvent.secondServer now data :: es) =
            secondClientBytes es := rfl
        rw [hbytes] at hbuf
        exact ih p1 q fs (by rw [hf1, hfirst]) (by rw [hr1, hreg]) hfs
          (by rw [hb1]; exact hbuf) hp1 (by rw [hw1]; exact hw) hc1

/-- C24 fails on the code: the first connection prepares `SELECT 1`, acknowledged
as statement 1, and later executes statement 1.  When in between a second
connection prepares `SELECT 2`, acknowledged as statement 1 by its own upstream,
the record logged for the first connection's execute carries `SELECT 2`; without
the second connection's traffic it carries `SELECT 1`. -/
theorem C24_counterexample :
    (Proxy.run sampleDeps otherDeps {} collidingEvents).1.first.session.logs =
      [.queryLogMessage COM_STMT_EXECUTE "SELECT 2".toList] ∧
    (Proxy.run sampleDeps otherDeps {}
      (collidingEvents.filter SocketEvent.ofFirst)).1.first.session.logs =
      [.queryLogMessage COM_STMT_EXECUTE "SELECT 1".toList] := by
  decide

/-- A second connection that uses no prepared statement leaves everything of the
first connection and the registry itself as they are.  For two connections of
one proxy and every interleaving of their socket events: if the bytes the second
connection's client sends are a sequence of frames none of which is a
`COM_STMT_PREPARE` or a `COM_STMT_EXECUTE`, cut into chunks in any way, and the
second connection starts with an empty accumulator, no pending command and both
sockets writable, then the run ends the same way, with the same log records and
state of the first connection and the same registry, as the run of the first
connection's events alone. -/
theorem second_connection_without_prepared_statements_changes_nothing (d1 d2 : Deps) (p : Proxy)
    (events : List SocketEvent) (fs : List Frame)
    (hvalid : ∀ f ∈ fs, f.valid)
    (hplain : ∀ f ∈ fs, f.payload.head? ≠ some 0x16 ∧ f.payload.head? ≠ some 0x17)
    (hstream : secondClientBytes events = encodeFrames fs)
    (hempty : p.second.session.clientBuffer = [])
    (hpending : p.second.session.lastClientCommand = none)
    (hwritable : p.second.session.serverWritable = true)
    (hclient : p.second.clientWritable = true) :
    (Proxy.run d1 d2 p events).1.first.session.logs =
      (Proxy.run d1 d2 p (events.filter SocketEvent.ofFirst)).1.first.session.logs ∧
    (Proxy.run d1 d2 p events).1.first =
      (Proxy.run d1 d2 p (events.filter SocketEvent.ofFirst)).1.first ∧
    (Proxy.run d1 d2 p events).1.preparedStatements =
      (Proxy.run d1 d2 p (events.filter SocketEvent.ofFirst)).1.preparedStatements ∧
    (Proxy.run d1 d2 p events).2 =
      (Proxy.run d1 d2 p (events.filter SocketEvent.ofFirst)).2 := by
  obtain ⟨h1, h2, h3⟩ := run_without_second d1 d2 events p p fs rfl rfl
    (fun f hf => ⟨hvalid f hf, hplain f hf⟩) (by rw [hempty]; simpa using hstream)
    hpending hwritable hclient
  exact ⟨by rw [h1], h1, h2, h3⟩

theorem second_connection_without_prepared_statements_sample :
    (Proxy.run sampleDeps otherDeps {} quietEvents).1.first.session.logs =
      (Proxy.run sampleDeps otherDeps {}
        (quietEvents.filter SocketEvent.ofFirst)).1.first.session.logs ∧
    (Proxy.run sampleDeps otherDeps {} quietEvents).1.first =
      (Proxy.run sampleDeps otherDeps {} (quietEvents.filter SocketEvent.ofFirst)).1.first ∧
    (Proxy.run sampleDeps otherDeps {} quietEvents).1.preparedStatements =
      (Proxy.run sampleDeps otherDeps {}
        (quietEvents.filter SocketEvent.ofFirst)).1.preparedStatements ∧
    (Proxy.run sampleDeps otherDeps {} quietEvents).2 =
      (Proxy.run sampleDeps otherDeps {} (quietEvents.filter SocketEvent.ofFirst)).2 :=
  second_connection_without_prepared_statements_changes_nothing sampleDeps otherDeps {} quietEvents
    [⟨0, [0x0e]⟩] (by decide) (by decide) (by decide) rfl rfl rfl rfl

/-! ## Executes that decode no value (C31, C36) -/

theorem setExecuteStatementQueryTry_query (st : MysqlPreparedStatement) (payload : Buffer)
    (flags iterationCount : Nat) :
    (setExecuteStatementQueryTry st payload flags iterationCount).query = st.query := by
  unfold setExecuteStatementQueryTry
  dsimp only
  repeat' split
  all_goals rfl

theorem setExecuteStatementQueryTry_error (st : MysqlPreparedStatement) (payload : Buffer)
    (flags iterationCount : Nat) (hfresh : st.error = none)
    (herr : (setExecuteStatementQueryTry st payload flags iterationCount).error ≠ none) :
    (setExecuteStatementQueryTry st payload flags iterationCount).paramValues =
      st.paramValues := by
  revert herr
  unfold setExecuteStatementQueryTry
  dsimp only
  repeat' split
  all_goals first
    | (intro _; rfl)
    | (intro h; exact absurd hfresh h)

theorem setExecuteStatementQuery_query (st st1 : MysqlPreparedStatement) (payload : Buffer)
    (h : setExecuteStatementQuery st payload = .ok st1) : st1.query = st.query := by
  unfold setExecuteStatementQuery at h
  split at h
  · cases h
  · split at h
    · cases h
    · cases h
      exact setExecuteStatementQueryTry_query _ _ _ _

theorem setExecuteStatementQuery_error (st st1 : MysqlPreparedStatement) (payload : Buffer)
    (h : setExecuteStatementQuery st payload = .ok st1) (hfresh : st.error = none)
    (herr : st1.error ≠ none) : st1.paramValues = st.paramValues := by
  unfold setExecuteStatementQuery at h
  split at h
  · cases h
  · split at h
    · cases h
    · cases h
      exact setExecuteStatementQueryTry_error _ _ _ _ hfresh herr

/-- An execute frame of a registered statement whose decoded values are unset after
the call of `setExecuteStatementQuery`: the record logged carries the template,
the statement is deleted and, with the upstream writable, the frame is written. -/
theorem execute_logs_template (d : Deps) (s : Session) (seq : Byte) (payload : Buffer)
    (statementId : Nat) (st st1 : MysqlPreparedStatement)
    (hcmd : payload.head? = some 0x17) (hlen : 1 < payload.length)
    (hfits : payload.length < 2 ^ 24)
    (hid : readUInt32LE payload 1 = .ok statementId)
    (hhit : getStatement s.store statementId = some st)
    (hset : setExecuteStatementQuery st payload = .ok st1)
    (hunset : st1.paramValues = none)
    (hempty : s.clientBuffer = []) :
    (processMySQLClientData d s (encodeFrame seq payload)).status = .returned ∧
    (processMySQLClientData d s (encodeFrame seq payload)).session.logs =
      s.logs ++ [.queryLogMessage 0x17 st.query] ∧
    getStatement (processMySQLClientData d s (encodeFrame seq payload)).session.store
      statementId = none ∧
    (s.serverWritable = true →
      (processMySQLClientData d s (encodeFrame seq payload)).session.written =
        s.written ++ [encodeFrame seq payload]) := by
  have htext : getQueryWithParameters d.fmt st1 = .ok st.query := by
    simp only [getQueryWithParameters, hunset]
    rw [setExecuteStatementQuery_query st st1 payload hset]
  rw [process_single_frame d s seq _ hfits hempty,
    classify_execute_hit d { s with clientBuffer := encodeFrame seq payload } _ payload _
      statementId st st1 st.query hcmd hlen hid hhit hset htext]
  have hdel := getStatement_delete (s.store.set statementId st1) statementId
  by_cases hw : s.serverWritable = true
  · simp [hw, COM_STMT_EXECUTE, hdel]
  · simp [hw, COM_STMT_EXECUTE, hdel, notWritable]

theorem readUInt32LE_length (payload : Buffer) (offset v : Nat)
    (h : readUInt32LE payload offset = .ok v) : offset + 4 ≤ payload.length := by
  unfold readUInt32LE readUIntLE at h
  split at h
  · assumption
  · cases h

theorem setExecuteStatementQuery_unbound (st : MysqlPreparedStatement) (payload : Buffer)
    (flag : Nat) (hcount : st.paramCount > 0)
    (hflag : readUInt8 payload (10 + (st.paramCount + 7) / 8) = .ok flag) (hne : flag ≠ 1) :
    setExecuteStatementQuery st payload =
      .ok { st with
            flags := some (leValue ((payload.drop 5).take 1))
            iterationCount := some (leValue ((payload.drop 6).take 4))
            newParamsBoundFlag := some flag
            nullBitmap := some (toHex (subarray payload 10 (10 + (st.paramCount + 7) / 8))) } := by
  have hlen : 10 + (st.paramCount + 7) / 8 + 1 ≤ payload.length := by
    unfold readUInt8 readUIntLE at hflag
    split at hflag
    · assumption
    · cases hflag
  have h5 : 5 + 1 ≤ payload.length := by omega
  have h6 : 6 + 4 ≤ payload.length := by omega
  simp only [setExecuteStatementQuery, readUInt8, readUInt32LE, readUIntLE, h5, h6, if_true]
  simp only [setExecuteStatementQueryTry, hcount, if_true]
  rw [hflag]
  simp only [hne, if_false]

/-- C31: for a statement with paramCount > 0 and an execute payload whose
new-params-bound flag byte, at offset 10 + ceil(paramCount / 8), is present and
is not 1, `setExecuteStatementQuery` returns without decoding a type tag or a
value: `paramTypes` and `paramValues` are as before the call (unset for a
statement not executed before), the null bitmap is recorded as hex and no error
is recorded; and when the execute frame of such a registered statement is
processed, delivered whole on an empty accumulator, the one record logged
carries the stored template unchanged. -/
theorem C31_flag_other_than_one_decodes_nothing (d : Deps) (s : Session) (seq : Byte)
    (payload : Buffer) (statementId flag : Nat) (st : MysqlPreparedStatement)
    (hcmd : payload.head? = some 0x17)
    (hfits : payload.length < 2 ^ 24)
    (hid : readUInt32LE payload 1 = .ok statementId)
    (hhit : getStatement s.store statementId = some st)
    (hcount : st.paramCount > 0)
    (hflag : readUInt8 payload (10 + (st.paramCount + 7) / 8) = .ok flag)
    (hne : flag ≠ 1)
    (hunset : st.paramValues = none)
    (hempty : s.clientBuffer = []) :
    (∃ st1, setExecuteStatementQuery st payload = .ok st1 ∧
      st1.paramTypes = st.paramTypes ∧ st1.paramValues = none ∧
      st1.nullBitmap = some (toHex (subarray payload 10 (10 + (st.paramCount + 7) / 8))) ∧
      st1.error = st.error ∧
      getQueryWithParameters d.fmt st1 = .ok st.query) ∧
    (processMySQLClientData d s (encodeFrame seq payload)).status = .returned ∧
    (processMySQLClientData d s (encodeFrame seq payload)).session.logs =
      s.logs ++ [.queryLogMessage 0x17 st.query] := by
  have hset := setExecuteStatementQuery_unbound st payload flag hcount hflag hne
  have hlen := readUInt32LE_length payload 1 statementId hid
  obtain ⟨h1, h2, _, _⟩ := execute_logs_template d s seq payload statementId st _ hcmd
    (by omega) hfits hid hhit hset hunset hempty
  refine ⟨⟨_, hset, rfl, hunset, rfl, rfl, ?_⟩, h1, h2⟩
  simp only [getQueryWithParameters, hunset]

theorem C31_flag_other_than_one_witness :
    (∃ st1, setExecuteStatementQuery (statementOf "SELECT ?" 1 1)
        [0x17, 1, 0, 0, 0, 0x00, 1, 0, 0, 0, 0x00, 0x00] = .ok st1 ∧
      st1.paramTypes = (statementOf "SELECT ?" 1 1).paramTypes ∧ st1.paramValues = none ∧
      st1.nullBitmap = some (toHex (subarray
        [0x17, 1, 0, 0, 0, 0x00, 1, 0, 0, 0, 0x00, 0x00] 10
        (10 + ((statementOf "SELECT ?" 1 1).paramCount + 7) / 8))) ∧
      st1.error = (statementOf "SELECT ?" 1 1).error ∧
      getQueryWithParameters sampleDeps.fmt st1 = .ok (statementOf "SELECT ?" 1 1).query) ∧
    (processMySQLClientData sampleDeps { store := [(1, statementOf "SELECT ?" 1 1)] }
      (encodeFrame 0 [0x17, 1, 0, 0, 0, 0x00, 1, 0, 0, 0, 0x00, 0x00])).status = .returned ∧
    (processMySQLClientData sampleDeps { store := [(1, statementOf "SELECT ?" 1 1)] }
      (encodeFrame 0 [0x17, 1, 0, 0, 0, 0x00, 1, 0, 0, 0, 0x00, 0x00])).session.logs =
      ({ store := [(1, statementOf "SELECT ?" 1 1)] } : Session).logs ++
        [.queryLogMessage 0x17 (statementOf "SELECT ?" 1 1).query] :=
  C31_flag_other_than_one_decodes_nothing sampleDeps { store := [(1, statementOf "SELECT ?" 1 1)] }
    0 [0x17, 1, 0, 0, 0, 0x00, 1, 0, 0, 0, 0x00, 0x00] 1 0 (statementOf "SELECT ?" 1 1)
    rfl (by decide) rfl rfl (by decide) rfl (by decide) rfl rfl

/-- C36: when the execute frame of a registered statement that was not executed
before (no values decoded, no error recorded) is delivered whole on an empty
accumulator and decoding its payload fails inside `setExecuteStatementQuery`,
which records an error on the statement, the dispatcher raises nothing, emits
exactly one query log record, whose text is the stored template unchanged,
deletes the statement from the registry and, with the upstream socket writable,
writes the frame upstream unchanged. -/
theorem C36_failed_decoding_logs_the_template (d : Deps) (s : Session) (seq : Byte)
    (payload : Buffer) (statementId : Nat) (st st1 : MysqlPreparedStatement)
    (hcmd : payload.head? = some 0x17)
    (hfits : payload.length < 2 ^ 24)
    (hid : readUInt32LE payload 1 = .ok statementId)
    (hhit : getStatement s.store statementId = some st)
    (hfresh : st.paramValues = none ∧ st.error = none)
    (hset : setExecuteStatementQuery st payload = .ok st1)
    (herr : st1.error ≠ none)
    (hempty : s.clientBuffer = []) :
    (processMySQLClientData d s (encodeFrame seq payload)).status = .returned ∧
    (processMySQLClientData d s (encodeFrame seq payload)).session.logs =
      s.logs ++ [.queryLogMessage 0x17 st.query] ∧
    getStatement (processMySQLClientData d s (encodeFrame seq payload)).session.store
      statementId = none ∧
    (s.serverWritable = true →
      (processMySQLClientData d s (encodeFrame seq payload)).session.written =
        s.written ++ [encodeFrame seq payload]) := by
  have hlen := readUInt32LE_length payload 1 statementId hid
  have hunset : st1.paramValues = none := by
    rw [setExecuteStatementQuery_error st st1 payload hset hfresh.2 herr]
    exact hfresh.1
  exact execute_logs_template d s seq payload statementId st st1 hcmd (by omega) hfits hid hhit
    hset hunset hempty

theorem C36_failed_decoding_witness :
    (processMySQLClientData sampleDeps { store := [(1, statementOf "SELECT ?" 1 1)] }
      (encodeFrame 0 [0x17, 1, 0, 0, 0, 0x00, 1, 0, 0, 0, 0x00, 0x01, 0xFD])).status
      = .returned ∧
    (processMySQLClientData sampleDeps { store := [(1, statementOf "SELECT ?" 1 1)] }
      (encodeFrame 0 [0x17, 1, 0, 0, 0, 0x00, 1, 0, 0, 0, 0x00, 0x01, 0xFD])).session.logs =
      ({ store := [(1, statementOf "SELECT ?" 1 1)] } : Session).logs ++
        [.queryLogMessage 0x17 (statementOf "SELECT ?" 1 1).query] ∧
    getStatement (processMySQLClientData sampleDeps { store := [(1, statementOf "SELECT ?" 1 1)] }
      (encodeFrame 0 [0x17, 1, 0, 0, 0, 0x00, 1, 0, 0, 0, 0x00, 0x01, 0xFD])).session.store
      1 = none ∧
    (({ store := [(1, statementOf "SELECT ?" 1 1)] } : Session).serverWritable = true →
      (processMySQLClientData sampleDeps { store := [(1, statementOf "SELECT ?" 1 1)] }
        (encodeFrame 0 [0x17, 1, 0, 0, 0, 0x00, 1, 0, 0, 0, 0x00, 0x01, 0xFD])).session.written =
        ({ store := [(1, statementOf "SELECT ?" 1 1)] } : Session).written ++
          [encodeFrame 0 [0x17, 1, 0, 0, 0, 0x00, 1, 0, 0, 0, 0x00, 0x01, 0xFD]]) :=
  C36_failed_decoding_logs_the_template sampleDeps { store := [(1, statementOf "SELECT ?" 1 1)] }
    0 [0x17, 1, 0, 0, 0, 0x00, 1, 0, 0, 0, 0x00, 0x01, 0xFD] 1 (statementOf "SELECT ?" 1 1)
    { statementOf "SELECT ?" 1 1 with
      flags := some 0
      iterationCount := some 1
      newParamsBoundFlag := some 1
      error := some .rangeError }
    rfl (by decide) rfl rfl ⟨rfl, rfl⟩ (by decide) (by decide) rfl

/-! ## What the sweep removes (C32) -/

theorem sweep_count (now : Nat) :
    ∀ (l : Store) (acc : Store) (n : Nat),
      (l.foldl
        (fun (acc : Store × Nat) entry =>
          if isOutdated now entry.2 then (deleteStatement acc.1 entry.1, acc.2 + 1) else acc)
        (acc, n)).2 = n + l.countP fun e => isOutdated now e.2 := by
  intro l
  induction l with
  | nil => intro acc n; simp
  | cons x xs ih =>
    intro acc n
    simp only [List.foldl_cons]
    by_cases h : isOutdated now x.2 = true
    · simp only [h, if_true]
      rw [ih]
      simp only [List.countP_cons, h, if_true]
      omega
    · have hf : isOutdated now x.2 = false := by simpa using h
      simp only [hf, Bool.false_eq_true, if_false]
      rw [ih]
      simp only [List.countP_cons, hf, Bool.false_eq_true, if_false, Nat.add_zero]

theorem isOutdated_iff (now : Nat) (st : MysqlPreparedStatement) :
    isOutdated now st = true ↔ (now : Int) - (st.date : Int) > 60000 := by
  simp [isOutdated]

/-- C32: a `deleteOutdatedStatements` sweep run at time `now` on a registry with
unique keys leaves, in their order, exactly the entries whose age
now − createdAt is at most 60000 ms, each with its key and its statement
unchanged: an entry is removed exactly when its age is strictly greater than
60000 ms, and the count it reports is the number of entries removed. -/
theorem C32_sweep_removes_exactly_the_outdated (now : Nat) (store : Store)
    (hunique : store.keysUnique) :
    (deleteOutdatedStatements now store).1 =
      store.filter (fun e => decide ((now : Int) - (e.2.date : Int) ≤ 60000)) ∧
    (∀ (k : Nat) (st : MysqlPreparedStatement),
      (k, st) ∈ (deleteOutdatedStatements now store).1 ↔
        (k, st) ∈ store ∧ ¬ ((now : Int) - (st.date : Int) > 60000)) ∧
    (deleteOutdatedStatements now store).2 =
      store.countP (fun e => decide ((now : Int) - (e.2.date : Int) > 60000)) := by
  have hfilter : (deleteOutdatedStatements now store).1 =
      store.filter (fun e => decide ((now : Int) - (e.2.date : Int) ≤ 60000)) := by
    rw [deleteOutdatedStatements_eq_filter now store hunique]
    apply List.filter_congr
    intro e _
    unfold isOutdated
    by_cases hc : (now : Int) - (e.2.date : Int) > 60000
    · have hn : ¬ ((now : Int) - (e.2.date : Int) ≤ 60000) := by omega
      rw [decide_eq_true hc, decide_eq_false hn]
      rfl
    · have hn : (now : Int) - (e.2.date : Int) ≤ 60000 := by omega
      rw [decide_eq_false hc, decide_eq_true hn]
      rfl
  refine ⟨hfilter, ?_, ?_⟩
  · intro k st
    rw [hfilter, List.mem_filter]
    simp only [decide_eq_true_eq]
    constructor
    · rintro ⟨h1, h2⟩
      exact ⟨h1, by omega⟩
    · rintro ⟨h1, h2⟩
      exact ⟨h1, by omega⟩
  · unfold deleteOutdatedStatements
    rw [sweep_count, Nat.zero_add]
    rfl

theorem C32_sweep_witness :
    (deleteOutdatedStatements 70000 [(1, statementAt 1000), (2, statementAt 10000)]).1 =
      [(1, statementAt 1000), (2, statementAt 10000)].filter
        (fun e => decide (((70000 : Nat) : Int) - (e.2.date : Int) ≤ 60000)) ∧
    (∀ (k : Nat) (st : MysqlPreparedStatement),
      (k, st) ∈ (deleteOutdatedStatements 70000
          [(1, statementAt 1000), (2, statementAt 10000)]).1 ↔
        (k, st) ∈ [(1, statementAt 1000), (2, statementAt 10000)] ∧
          ¬ (((70000 : Nat) : Int) - (st.date : Int) > 60000)) ∧
    (deleteOutdatedStatements 70000 [(1, statementAt 1000), (2, statementAt 10000)]).2 =
      [(1, statementAt 1000), (2, statementAt 10000)].countP
        (fun e => decide (((70000 : Nat) : Int) - (e.2.date : Int) > 60000)) :=
  C32_sweep_removes_exactly_the_outdated 70000 [(1, statementAt 1000), (2, statementAt 10000)]
    (by decide)

/-! ## No prepare pending (C35) -/

/-- C35: when no prepare command is pending, the pending command being null or its
command byte not 0x16, `handleStatementPrepareResponse` returns the
accumulator, the pending command and the last statement id exactly as given and
leaves the registry as it was, whatever the server chunk holds. -/
theorem C35_without_pending_prepare_nothing_changes (now : Nat)
    (data serverResponseBuffer : Buffer) (lastClientCommand : Option ClientCommand)
    (lastStatementId : Option Nat) (store : Store)
    (hpending : ∀ cmd, lastClientCommand = some cmd → cmd.commandByte ≠ 0x16) :
    handleStatementPrepareResponse now data serverResponseBuffer lastClientCommand
      lastStatementId store =
      ⟨serverResponseBuffer, lastClientCommand, lastStatementId, store, .returned⟩ := by
  unfold handleStatementPrepareResponse
  cases lastClientCommand with
  | none => rfl
  | some cmd =>
    have h : ¬ cmd.commandByte = COM_STMT_PREPARE := hpending cmd rfl
    simp only [h, if_false]

theorem C35_without_pending_prepare_witness :
    handleStatementPrepareResponse 0 (encodeFrame 1 (ackPayload 1 0 0 0)) [7]
      (some ⟨[0x03, 0x41], [], 0, 0x03, ['A']⟩) (some 4) [(1, statementAt 0)] =
      ⟨[7], some ⟨[0x03, 0x41], [], 0, 0x03, ['A']⟩, some 4, [(1, statementAt 0)], .returned⟩ :=
  C35_without_pending_prepare_nothing_changes 0 (encodeFrame 1 (ackPayload 1 0 0 0)) [7]
    (some ⟨[0x03, 0x41], [], 0, 0x03, ['A']⟩) (some 4) [(1, statementAt 0)]
    (by
      intro cmd h
      cases h
      decide)

/-! ## Frames without content (C37) -/

theorem classify_bare (d : Deps) (s : Session) (pkt payload : Buffer) (seq : Nat)
    (hp : payload = [] ∨ payload = [0x03] ∨ payload = [0x16] ∨ payload = [0x17] ∨
      payload = [0x18]) :
    classify d s pkt payload seq = (s, none) := by
  rcases hp with h | h | h | h | h <;> subst h
  · rfl
  · have hv : (0x03 : Byte).val = 3 := rfl
    unfold classify
    simp only [detectAuthPacket_known d _ _ _ _ _ (show knownCommands.contains (0x03 : Byte).val
      = true from by decide)]
    simp [hv, COM_STMT_EXECUTE, COM_QUERY, COM_STMT_PREPARE, COM_LONG_DATA]
  · have hv : (0x16 : Byte).val = 22 := rfl
    unfold classify
    simp only [detectAuthPacket_known d _ _ _ _ _ (show knownCommands.contains (0x16 : Byte).val
      = true from by decide)]
    simp [hv, COM_STMT_EXECUTE, COM_QUERY, COM_STMT_PREPARE, COM_LONG_DATA]
  · have hv : (0x17 : Byte).val = 23 := rfl
    unfold classify
    simp only [detectAuthPacket_known d _ _ _ _ _ (show knownCommands.contains (0x17 : Byte).val
      = true from by decide)]
    simp [hv, COM_STMT_EXECUTE, COM_QUERY, COM_STMT_PREPARE, COM_LONG_DATA]
  · have hv : (0x18 : Byte).val = 24 := rfl
    unfold classify
    simp only [detectAuthPacket_known d _ _ _ _ _ (show knownCommands.contains (0x18 : Byte).val
      = true from by decide)]
    simp [hv, COM_STMT_EXECUTE, COM_QUERY, COM_STMT_PREPARE, COM_LONG_DATA]

/-- C37: a client frame with an empty payload, and a `COM_QUERY`,
`COM_STMT_PREPARE`, `COM_STMT_EXECUTE` or `COM_LONG_DATA` frame whose payload is
the command byte alone, delivered whole on an empty accumulator, raises nothing,
emits no log record, leaves the pending command and the registry unchanged and,
with the upstream socket writable, is written upstream unchanged. -/
theorem C37_frames_without_content_are_only_forwarded (d : Deps) (s : Session) (seq : Byte)
    (payload : Buffer)
    (hbare : payload = [] ∨ payload = [0x03] ∨ payload = [0x16] ∨ payload = [0x17] ∨
      payload = [0x18])
    (hempty : s.clientBuffer = []) :
    (processMySQLClientData d s (encodeFrame seq payload)).status = .returned ∧
    (processMySQLClientData d s (encodeFrame seq payload)).session.logs = s.logs ∧
    (processMySQLClientData d s (encodeFrame seq payload)).session.lastClientCommand =
      s.lastClientCommand ∧
    (processMySQLClientData d s (encodeFrame seq payload)).session.store = s.store ∧
    (s.serverWritable = true →
      (processMySQLClientData d s (encodeFrame seq payload)).session.written =
        s.written ++ [encodeFrame seq payload]) := by
  have hfits : payload.length < 2 ^ 24 := by
    rcases hbare with h | h | h | h | h <;> subst h <;> simp
  rw [process_single_frame d s seq _ hfits hempty, classify_bare d _ _ payload _ hbare]
  by_cases hw : s.serverWritable = true
  · simp [hw]
  · simp [hw, notWritable]

theorem C37_frames_without_content_witness :
    (processMySQLClientData sampleDeps {} (encodeFrame 0 [0x16])).status = .returned ∧
    (processMySQLClientData sampleDeps {} (encodeFrame 0 [0x16])).session.logs =
      ({} : Session).logs ∧
    (processMySQLClientData sampleDeps {} (encodeFrame 0 [0x16])).session.lastClientCommand =
      ({} : Session).lastClientCommand ∧
    (processMySQLClientData sampleDeps {} (encodeFrame 0 [0x16])).session.store =
      ({} : Session).store ∧
    (({} : Session).serverWritable = true →
      (processMySQLClientData sampleDeps {} (encodeFrame 0 [0x16])).session.written =
        ({} : Session).written ++ [encodeFrame 0 [0x16]]) :=
  C37_frames_without_content_are_only_forwarded sampleDeps {} 0 [0x16]
    (Or.inr (Or.inr (Or.inl rfl))) rfl

/-! ## Termination of the framing loops (C40) -/

/-- One iteration of the client loop: it stops, with a result that does not depend
on the iterations left, or it goes on after dropping the frame at the head. -/
theorem clientLoop_step (d : Deps) (s : Session) :
    (∃ out : Outcome, out.status ≠ .outOfFuel ∧ ∀ fuel, clientLoop d (fuel + 1) s = out) ∨
    (∃ s1 : Session, (∀ fuel, clientLoop d (fuel + 1) s = clientLoop d fuel s1) ∧
      s1.clientBuffer = s.clientBuffer.drop (4 + leValue (s.clientBuffer.take 3)) ∧
      4 + leValue (s.clientBuffer.take 3) ≤ s.clientBuffer.length) := by
  by_cases h4 : s.clientBuffer.length ≥ 4
  · by_cases hlt : s.clientBuffer.length < 4 + leValue (s.clientBuffer.take 3)
    · left
      refine ⟨⟨s, .returned⟩, by simp, fun fuel => ?_⟩
      unfold clientLoop
      simp only [h4, hlt, if_true]
    · rcases hc : classify d s (subarray s.clientBuffer 0 (4 + leValue (s.clientBuffer.take 3)))
        (subarrayFrom (subarray s.clientBuffer 0 (4 + leValue (s.clientBuffer.take 3))) 4)
        (leValue ((s.clientBuffer.drop 3).take 1)) with ⟨s1, _ | e⟩
      · by_cases hw : s1.serverWritable = true
        · right
          refine ⟨{ s1 with
                    written := s1.written ++
                      [subarray s.clientBuffer 0 (4 + leValue (s.clientBuffer.take 3))]
                    clientBuffer :=
                      subarrayFrom s.clientBuffer (4 + leValue (s.clientBuffer.take 3)) },
            fun fuel => ?_, rfl, by omega⟩
          conv_lhs => unfold clientLoop
          simp only [h4, hlt, if_true, if_false, hc, hw]
        · left
          refine ⟨⟨notWritable d s1
              (subarrayFrom (subarray s.clientBuffer 0 (4 + leValue (s.clientBuffer.take 3))) 4)
              (leValue ((s.clientBuffer.drop 3).take 1)), .returned⟩, by simp, fun fuel => ?_⟩
          unfold clientLoop
          simp only [h4, hlt, if_true, if_false, hc, hw, Bool.false_eq_true]
      · left
        refine ⟨⟨s1, .threw e⟩, by simp, fun fuel => ?_⟩
        unfold clientLoop
        simp only [h4, hlt, if_true, if_false, hc]
  · left
    refine ⟨⟨s, .returned⟩, by simp, fun fuel => ?_⟩
    unfold clientLoop
    simp only [h4, if_false]

/-- One iteration of the correlator loop: it stops, with a result that does not
depend on the iterations left, or it goes on after dropping the frame at the
head. -/
theorem prepareLoop_step (now : Nat) (cmd : ClientCommand) (buffer : Buffer)
    (lastStatementId : Option Nat) (store : Store) :
    (∃ out : PrepareOutcome, out.status ≠ .outOfFuel ∧
      ∀ fuel, prepareLoop now cmd (fuel + 1) buffer lastStatementId store = out) ∨
    (∃ (l1 : Option Nat) (store1 : Store),
      (∀ fuel, prepareLoop now cmd (fuel + 1) buffer lastStatementId store =
        prepareLoop now cmd fuel (buffer.drop (4 + leValue (buffer.take 3))) l1 store1) ∧
      4 + leValue (buffer.take 3) ≤ buffer.length) := by
  by_cases hinc : Incomplete buffer
  · left
    exact ⟨_, by split <;> simp,
      fun fuel => prepareLoop_incomplete now cmd fuel buffer lastStatementId store hinc⟩
  · obtain ⟨seq, p, rest, hb, hp⟩ := complete_head buffer hinc
    have hdrop : buffer.drop (4 + leValue (buffer.take 3)) = rest := by
      have h3 : leValue (buffer.take 3) = p.length := by
        rw [hb]
        simpa [encodeFrame] using leValue_header p.length hp
      rw [h3, hb]
      have : (encodeFrame seq p).length = 4 + p.length := encodeFrame_length seq p
      rw [← this, List.drop_left]
    have hle : 4 + leValue (buffer.take 3) ≤ buffer.length := by
      unfold Incomplete at hinc
      omega
    rw [hdrop]
    by_cases h0 : p.head? = some 0x00
    · cases h1 : readUInt32LE p 1 with
      | error e =>
        left
        refine ⟨⟨buffer, some cmd, lastStatementId, store, .threw e⟩, by simp, fun fuel => ?_⟩
        rw [hb, prepareLoop_frame now cmd fuel seq p rest lastStatementId store hp]
        simp only [h0, if_true, h1]
      | ok statementId =>
        cases h2 : readUInt16LE p 7 with
        | error e =>
          left
          refine ⟨⟨buffer, some cmd, lastStatementId, store, .threw e⟩, by simp, fun fuel => ?_⟩
          rw [hb, prepareLoop_frame now cmd fuel seq p rest lastStatementId store hp]
          simp only [h0, if_true, h1, h2]
        | ok paramCount =>
          right
          refine ⟨some statementId,
            addStatement store statementId (newStatement now cmd statementId paramCount),
            fun fuel => ?_, hle⟩
          rw [hb, prepareLoop_frame now cmd fuel seq p rest lastStatementId store hp]
          simp only [h0, if_true, h1, h2]
    · right
      refine ⟨lastStatementId, store, fun fuel => ?_, hle⟩
      rw [hb, prepareLoop_frame now cmd fuel seq p rest lastStatementId store hp]
      simp only [h0, if_false]

/-- C40: the framing loops of `processMySQLClientData` and
`handleStatementPrepareResponse` end for every accumulator content.  One
iteration either stops or goes on with the accumulator shortened by
4 + (declared payload length) bytes, all present; and a number of tests of the
loop condition equal to a quarter of the accumulated byte count plus one (the
last test, which stops) is never used up. -/
theorem C40_framing_loops_terminate (d : Deps) (s : Session) (dataChunk : Buffer) (now : Nat)
    (data serverResponseBuffer : Buffer) (lastClientCommand : Option ClientCommand)
    (cmd : ClientCommand) (lastStatementId : Option Nat) (store : Store) :
    (processMySQLClientData d s dataChunk).status ≠ .outOfFuel ∧
    (clientLoop d (s.clientBuffer.length / 4 + 1) s).status ≠ .outOfFuel ∧
    ((∃ out : Outcome, out.status ≠ .outOfFuel ∧ ∀ fuel, clientLoop d (fuel + 1) s = out) ∨
     (∃ s1 : Session, (∀ fuel, clientLoop d (fuel + 1) s = clientLoop d fuel s1) ∧
       s1.clientBuffer = s.clientBuffer.drop (4 + leValue (s.clientBuffer.take 3)) ∧
       4 + leValue (s.clientBuffer.take 3) ≤ s.clientBuffer.length)) ∧
    (handleStatementPrepareResponse now data serverResponseBuffer lastClientCommand
      lastStatementId store).status ≠ .outOfFuel ∧
    (prepareLoop now cmd (serverResponseBuffer.length / 4 + 1) serverResponseBuffer
      lastStatementId store).status ≠ .outOfFuel ∧
    ((∃ out : PrepareOutcome, out.status ≠ .outOfFuel ∧
       ∀ fuel, prepareLoop now cmd (fuel + 1) serverResponseBuffer lastStatementId store = out) ∨
     (∃ (l1 : Option Nat) (store1 : Store),
       (∀ fuel, prepareLoop now cmd (fuel + 1) serverResponseBuffer lastStatementId store =
         prepareLoop now cmd fuel
           (serverResponseBuffer.drop (4 + leValue (serverResponseBuffer.take 3))) l1 store1) ∧
       4 + leValue (serverResponseBuffer.take 3) ≤ serverResponseBuffer.length)) :=
  ⟨processMySQLClientData_fuel d s dataChunk,
   clientLoop_fuel d _ s (by omega),
   clientLoop_step d s,
   handleStatementPrepareResponse_fuel now data serverResponseBuffer lastClientCommand
     lastStatementId store,
   prepareLoop_fuel now cmd _ serverResponseBuffer lastStatementId store (by omega),
   prepareLoop_step now cmd serverResponseBuffer lastStatementId store⟩

/-! ## A short frame that begins with 0x00 (C38) -/

/-- C38 fails on the code: while a prepare is pending, a complete server frame
whose payload is the single byte `00` makes `handleStatementPrepareResponse`
raise a `RangeError` at the read of the statement id, and the seven-byte payload
`00 00 00 02 00 00 00` of an OK packet makes it raise at the read of the
parameter count.  Nothing catches the exception in the server `data` handler,
which it leaves after the chunk was written to the client. -/
theorem C38_short_acknowledgement_raises :
    (handleStatementPrepareResponse 0 (encodeFrame 1 [0x00]) [] (some samplePending) none
      []).status = .threw .rangeError ∧
    (handleStatementPrepareResponse 0 (encodeFrame 1 [0x00, 0, 0, 2, 0, 0, 0]) []
      (some samplePending) none []).status = .threw .rangeError ∧
    (onServerData sampleDeps 0 { session := { lastClientCommand := some samplePending } }
      (encodeFrame 1 [0x00, 0, 0, 2, 0, 0, 0])).2 = .threw .rangeError ∧
    (onServerData sampleDeps 0 { session := { lastClientCommand := some samplePending } }
      (encodeFrame 1 [0x00, 0, 0, 2, 0, 0, 0])).1.toClient =
      [encodeFrame 1 [0x00, 0, 0, 2, 0, 0, 0]] := by
  decide

/-! ## The authentication packet (C34) -/

/-- The detection hands the packet over exactly under the three conditions of the
heuristic, when an archiver is injected, and changes nothing else. -/
theorem detectAuthPacket_exact (d : Deps) (s : Session) (pkt payload : Buffer)
    (seq commandByte : Nat) :
    detectAuthPacket d s pkt payload seq commandByte =
      { s with
        authPackets := s.authPackets ++
          (if d.hasStoreAuthPacket = true ∧ knownCommands.contains commandByte = false ∧ seq = 1 ∧
              32 ≤ payload.length then [pkt] else []) } := by
  unfold detectAuthPacket
  cases hs : d.hasStoreAuthPacket <;> cases hk : knownCommands.contains commandByte <;>
    by_cases h3 : seq = 1 <;> by_cases h4 : 32 ≤ payload.length <;> simp [h3, h4]

/-- C34 fails on the code.  A frame with sequence id 1 and a payload of 32 bytes
that begins with `85`, which is no known command byte, is handed to
`storeAuthPacket` byte for byte and is classified and written upstream like any
other frame; but the archiver of `mysqlProxyServer.js` stores it in
`lastAuthPacketByHostPort`, an identifier that no module declares, so its body
raises a `ReferenceError`, which it catches itself, and nothing is archived. -/
theorem C34_authentication_packet_is_never_archived :
    (processMySQLClientData sampleDeps {} authFrame).status = .returned ∧
    (processMySQLClientData sampleDeps {} authFrame).session.authPackets = [authFrame] ∧
    (processMySQLClientData sampleDeps {} authFrame).session.written = [authFrame] ∧
    archiveAfter sampleHostPort (processMySQLClientData sampleDeps {} authFrame).session =
      none := by
  decide

/-! ## The sweep timer at shutdown (C33) -/

/-- C33 fails on the code: after `createMySQLProxyServer` was called twice,
`shutdownProxyServers` clears the interval of the second call only, the handle
of the first having been overwritten: the first timer is still active (and the
first server still listening).  After three calls two timers stay active; after
one call none does. -/
theorem C33_earlier_sweep_timers_survive_the_shutdown :
    (shutdownProxyServers (createMySQLProxyServer (createMySQLProxyServer {}))).activeTimers =
      [1] ∧
    (shutdownProxyServers (createMySQLProxyServer (createMySQLProxyServer {}))).listening =
      [1] ∧
    (shutdownProxyServers (createMySQLProxyServer (createMySQLProxyServer
      (createMySQLProxyServer {})))).activeTimers = [1, 2] ∧
    (shutdownProxyServers (createMySQLProxyServer {})).activeTimers = [] := by
  decide

/-! ## The framing loop of the PostgreSQL relay (C39) -/

theorem pgLoop_negative_length (clientId : JsString) :
    ∀ (fuel : Nat) (s : PgSession), s.clientBuffer = negativeLengthMessage →
      s.pgWritable = true →
      (pgLoop clientId fuel s).2 = .outOfFuel ∧
      (pgLoop clientId fuel s).1.clientBuffer = negativeLengthMessage := by
  intro fuel
  induction fuel with
  | zero =>
    intro s hb _
    exact ⟨rfl, hb⟩
  | succ k ih =>
    intro s hb hw
    have h8 : readUInt8 negativeLengthMessage 0 = .ok 81 := by decide
    have h32 : readInt32BE negativeLengthMessage 1 = .ok (-1) := by decide
    have hsub : subarrayFromInt negativeLengthMessage (1 + -1) = negativeLengthMessage := by
      decide
    have hlen : negativeLengthMessage.length = 5 := rfl
    unfold pgLoop
    simp only [hb, hlen, h8, h32, hw, hsub]
    simp only [show (5 : Nat) > 0 from by decide, show ¬ ((5 : Nat) < 5) from by decide,
      show ¬ (((5 : Nat) : Int) < 1 + -1) from by decide, if_true, if_false]
    exact ih _ rfl rfl

/-- C39 fails on the function: on the five bytes `51 ff ff ff ff`, a message of
type `Q` whose length field reads -1, the message is computed to occupy 0 bytes,
an empty message is written upstream, `subarray(0)` removes nothing and the loop
goes on with the same buffer: whatever the number of iterations allowed, the
loop of `processPostgreSQLClientData` has not ended and the buffer is as it
was. -/
theorem C39_counterexample :
    (∀ fuel : Nat,
      (processPostgreSQLClientData "[PgSQL][client]".toList fuel {}
        negativeLengthMessage).2 = .outOfFuel ∧
      (processPostgreSQLClientData "[PgSQL][client]".toList fuel {}
        negativeLengthMessage).1.clientBuffer = negativeLengthMessage) ∧
    readInt32BE negativeLengthMessage 1 = .ok (-1) ∧
    (processPostgreSQLClientData "[PgSQL][client]".toList 3 {} negativeLengthMessage).1.written =
      [[], [], []] :=
  ⟨fun fuel => pgLoop_negative_length "[PgSQL][client]".toList fuel _ rfl rfl,
   by decide, by decide⟩

/-- What `subarray` with the start `1 + v` keeps of a buffer that holds the whole
message: a byte is removed exactly when the length field lets the iteration
advance. -/
theorem clampIndex_advances (length : Nat) (v : Int) (h : ¬ (length : Int) < 1 + v) :
    clampIndex length (1 + v) ≤ length ∧
    (1 ≤ clampIndex length (1 + v) ↔ pgAdvances length v) := by
  unfold clampIndex pgAdvances
  split
  · rename_i hneg
    constructor
    · omega
    · constructor
      · intro h1
        right
        omega
      · rintro (h1 | h1)
        · omega
        · omega
  · rename_i hpos
    have hmin : min (1 + v).toNat length = (1 + v).toNat := by
      apply Nat.min_eq_left
      omega
    rw [hmin]
    constructor
    · omega
    · constructor
      · intro h1
        left
        omega
      · rintro (h1 | h1)
        · omega
        · omega

/-- One iteration of the PostgreSQL loop: it stops, with a result that does not
depend on the iterations left, or it goes on with what `subarray` keeps. -/
theorem pgLoop_step (clientId : JsString) (s : PgSession) :
    (∃ out : PgSession × Status, out.2 ≠ .outOfFuel ∧
      ∀ fuel, pgLoop clientId (fuel + 1) s = out) ∨
    (∃ (s1 : PgSession) (v : Int), 5 ≤ s.clientBuffer.length ∧
      readInt32BE s.clientBuffer 1 = .ok v ∧ ¬ (s.clientBuffer.length : Int) < 1 + v ∧
      (∀ fuel, pgLoop clientId (fuel + 1) s = pgLoop clientId fuel s1) ∧
      s1.clientBuffer = s.clientBuffer.drop (clampIndex s.clientBuffer.length (1 + v))) := by
  by_cases h0 : s.clientBuffer.length > 0
  · have h8 : readUInt8 s.clientBuffer 0 = .ok (leValue ((s.clientBuffer.drop 0).take 1)) := by
      simp only [readUInt8, readUIntLE]
      rw [if_pos (by omega)]
    by_cases h5 : s.clientBuffer.length < 5
    · left
      refine ⟨(s, .returned), by simp, fun fuel => ?_⟩
      unfold pgLoop
      simp only [h0, if_true, h8, h5]
    · have h32 : readInt32BE s.clientBuffer 1 =
          .ok (toSigned 32 (leValue ((s.clientBuffer.drop 1).take 4).reverse)) := by
        simp only [readInt32BE]
        rw [if_pos (by omega)]
      by_cases hlt : (s.clientBuffer.length : Int) <
          1 + toSigned 32 (leValue ((s.clientBuffer.drop 1).take 4).reverse)
      · left
        refine ⟨(s, .returned), by simp, fun fuel => ?_⟩
        unfold pgLoop
        simp only [h0, if_true, h8, h5, if_false, h32, hlt]
      · by_cases hw : s.pgWritable = true
        · right
          refine ⟨{ s with
                    logs := s.logs ++ pgLogLines clientId (leValue ((s.clientBuffer.drop 0).take 1))
                      (subarrayFrom (subarrayInt s.clientBuffer 0
                        (1 + toSigned 32 (leValue ((s.clientBuffer.drop 1).take 4).reverse))) 5)
                    written := s.written ++ [subarrayInt s.clientBuffer 0
                      (1 + toSigned 32 (leValue ((s.clientBuffer.drop 1).take 4).reverse))]
                    clientBuffer := subarrayFromInt s.clientBuffer
                      (1 + toSigned 32 (leValue ((s.clientBuffer.drop 1).take 4).reverse)) },
            _, by omega, h32, hlt, fun fuel => ?_, rfl⟩
          conv_lhs => unfold pgLoop
          simp only [h0, if_true, h8, h5, if_false, h32, hlt, hw]
        · left
          refine ⟨({ s with
                     logs := s.logs ++
                       pgLogLines clientId (leValue ((s.clientBuffer.drop 0).take 1))
                         (subarrayFrom (subarrayInt s.clientBuffer 0
                           (1 + toSigned 32 (leValue ((s.clientBuffer.drop 1).take 4).reverse))) 5)
                     errors := s.errors ++
                       [clientId ++
                         " ERROR: PostgreSQL socket not writable. Cannot forward message.".toList]
                     clientSocketEnded := true
                     pgSocketEnded := true }, .returned), by simp, fun fuel => ?_⟩
          unfold pgLoop
          simp only [h0, if_true, h8, h5, if_false, h32, hlt, hw, Bool.false_eq_true]
  · left
    refine ⟨(s, .returned), by simp, fun fuel => ?_⟩
    unfold pgLoop
    simp only [h0, if_false]

theorem pgLoop_ends (clientId : JsString) :
    ∀ (fuel : Nat) (s : PgSession), s.clientBuffer.length < fuel →
      pgHeadersAdvance fuel s.clientBuffer = true →
      (pgLoop clientId fuel s).2 ≠ .outOfFuel := by
  intro fuel
  induction fuel with
  | zero => intro s h; omega
  | succ k ih =>
    intro s hlen hadv
    rcases pgLoop_step clientId s with ⟨out, hout, hall⟩ | ⟨s1, v, h5, h32, hlt, hall, hbuf⟩
    · rw [hall k]
      exact hout
    · rw [hall k]
      have h5' : ¬ s.clientBuffer.length < 5 := by omega
      simp only [pgHeadersAdvance, h5', if_false, h32, hlt, Bool.and_eq_true,
        decide_eq_true_eq] at hadv
      obtain ⟨hclamp, hiff⟩ := clampIndex_advances s.clientBuffer.length v hlt
      have h1 : 1 ≤ clampIndex s.clientBuffer.length (1 + v) := hiff.mpr hadv.1
      apply ih
      · rw [hbuf, List.length_drop]
        omega
      · rw [hbuf]
        exact hadv.2

/-- On a socket that is not writable the loop ends with its first message at the
latest, whatever the length field holds. -/
theorem pgLoop_not_writable (clientId : JsString) (fuel : Nat) (s : PgSession)
    (hw : s.pgWritable = false) : (pgLoop clientId (fuel + 1) s).2 ≠ .outOfFuel := by
  rcases pgLoop_step clientId s with ⟨out, hout, hall⟩ | ⟨s1, v, h5, h32, hlt, hall, _⟩
  · rw [hall fuel]
    exact hout
  · have h0 : s.clientBuffer.length > 0 := by omega
    have h8 : readUInt8 s.clientBuffer 0 = .ok (leValue ((s.clientBuffer.drop 0).take 1)) := by
      simp only [readUInt8, readUIntLE]
      rw [if_pos (by omega)]
    have h5n : ¬ s.clientBuffer.length < 5 := by omega
    unfold pgLoop
    simp only [h0, if_true, h8, h5n, if_false, h32, hlt, hw, Bool.false_eq_true]
    simp

/-- C39 (amended): the framing loop of `processPostgreSQLClientData` ends, within
as many iterations as the buffer has bytes, when the PostgreSQL socket is not
writable, and on a writable socket for every client byte buffer on which no
iteration meets a length field v with 1 + v = 0, or with 1 + v negative and at
least as large in magnitude as the buffer.  For every state, one iteration
either stops (to wait for more data, or on a socket that is not writable) or
goes on with the buffer shortened at the front by k bytes, where k is at least 1
exactly when the length field v, read as a signed 32-bit integer, has
1 + v ≥ 1, or 1 + v negative and smaller in magnitude than the buffer; for the
other values it removes nothing. -/
theorem C39_loop_ends_unless_a_header_stands_still (clientId : JsString) (s : PgSession)
    (dataChunk : Buffer)
    (hadvance : s.pgWritable = false ∨
      pgHeadersAdvance ((s.clientBuffer ++ dataChunk).length + 1)
        (s.clientBuffer ++ dataChunk) = true) :
    (processPostgreSQLClientData clientId ((s.clientBuffer ++ dataChunk).length + 1) s
      dataChunk).2 ≠ .outOfFuel ∧
    (∀ t : PgSession,
      (∃ out : PgSession × Status, out.2 ≠ .outOfFuel ∧
        ∀ fuel, pgLoop clientId (fuel + 1) t = out) ∨
      (∃ (t1 : PgSession) (v : Int) (k : Nat), readInt32BE t.clientBuffer 1 = .ok v ∧
        (∀ fuel, pgLoop clientId (fuel + 1) t = pgLoop clientId fuel t1) ∧
        t1.clientBuffer = t.clientBuffer.drop k ∧ k ≤ t.clientBuffer.length ∧
        (1 ≤ k ↔ pgAdvances t.clientBuffer.length v))) := by
  constructor
  · rcases hadvance with hw | hadv
    · exact pgLoop_not_writable clientId _
        { s with clientBuffer := s.clientBuffer ++ dataChunk } hw
    · exact pgLoop_ends clientId _ { s with clientBuffer := s.clientBuffer ++ dataChunk }
        (Nat.lt_succ_self _) hadv
  · intro t
    rcases pgLoop_step clientId t with h | ⟨t1, v, _, h32, hlt, hall, hbuf⟩
    · exact Or.inl h
    · obtain ⟨hle, hiff⟩ := clampIndex_advances t.clientBuffer.length v hlt
      exact Or.inr ⟨t1, v, _, h32, hall, hbuf, hle, hiff⟩

theorem C39_loop_ends_witness :
    (processPostgreSQLClientData "[PgSQL][client]".toList
      ((({} : PgSession).clientBuffer ++ pgSampleBytes).length + 1) {} pgSampleBytes).2 ≠
      .outOfFuel :=
  (C39_loop_ends_unless_a_header_stands_still "[PgSQL][client]".toList {} pgSampleBytes
    (Or.inr (by decide))).1

/-! ## Sessions that keep to their own statements (C24) -/

theorem getStatement_delete_ne (store : Store) (k id : Nat) (h : k ≠ id) :
    getStatement (deleteStatement store id) k = getStatement store k := by
  induction store with
  | nil => rfl
  | cons e es ih =>
    obtain ⟨k0, v0⟩ := e
    by_cases h0 : k0 = id
    · have e1 : deleteStatement ((k0, v0) :: es) id = deleteStatement es id := by
        simp [deleteStatement, List.filter, h0]
      have hk : (k == k0) = false := by
        rw [h0]
        simpa using h
      have e2 : getStatement ((k0, v0) :: es) k = getStatement es k := by
        simp only [getStatement, List.lookup, hk]
      rw [e1, e2]
      exact ih
    · have e1 : deleteStatement ((k0, v0) :: es) id = (k0, v0) :: deleteStatement es id := by
        simp [deleteStatement, List.filter, h0]
      rw [e1]
      by_cases hk : k = k0
      · have hk' : (k == k0) = true := by simpa using hk
        simp only [getStatement, List.lookup, hk']
      · have hk' : (k == k0) = false := by simpa using hk
        have e2 : getStatement ((k0, v0) :: es) k = getStatement es k := by
          simp only [getStatement, List.lookup, hk']
        have e3 : getStatement ((k0, v0) :: deleteStatement es id) k =
            getStatement (deleteStatement es id) k := by
          simp only [getStatement, List.lookup, hk']
        rw [e2, e3]
        exact ih

theorem setExecuteStatementQueryTry_clientId (st : MysqlPreparedStatement) (payload : Buffer)
    (flags iterationCount : Nat) :
    (setExecuteStatementQueryTry st payload flags iterationCount).clientId = st.clientId := by
  unfold setExecuteStatementQueryTry
  dsimp only
  repeat' split
  all_goals rfl

theorem setExecuteStatementQuery_clientId (st st1 : MysqlPreparedStatement) (payload : Buffer)
    (h : setExecuteStatementQuery st payload = .ok st1) : st1.clientId = st.clientId := by
  unfold setExecuteStatementQuery at h
  split at h
  · cases h
  · split at h
    · cases h
    · cases h
      exact setExecuteStatementQueryTry_clientId _ _ _ _

theorem namedIdsLoop_incomplete (lead : Byte) (fuel : Nat) (b : Buffer) (h : Incomplete b) :
    namedIdsLoop lead fuel b = [] := by
  cases fuel with
  | zero => rfl
  | succ k =>
    unfold namedIdsLoop
    by_cases h4 : b.length ≥ 4
    · have h' : b.length < 4 + leValue (b.take 3) := by
        rcases h with h | h <;> omega
      simp [h4, h']
    · simp [h4]

theorem namedIdsLoop_frame (lead : Byte) (fuel : Nat) (seq : Byte) (p rest : Buffer)
    (hp : p.length < 2 ^ 24) :
    namedIdsLoop lead (fuel + 1) (encodeFrame seq p ++ rest) =
      namedId lead p ++ namedIdsLoop lead fuel rest := by
  have hlen : (encodeFrame seq p ++ rest).length = 4 + p.length + rest.length := by
    simp [encodeFrame]; omega
  have h3 : leValue ((encodeFrame seq p ++ rest).take 3) = p.length := by
    simpa [encodeFrame] using leValue_header p.length hp
  have hpkt : subarray (encodeFrame seq p ++ rest) 0 (4 + p.length) = encodeFrame seq p := by
    simp [subarray, ← encodeFrame_length seq p]
  have hpay : subarrayFrom (encodeFrame seq p) 4 = p := by
    simp [subarrayFrom, encodeFrame]
  have hrest : subarrayFrom (encodeFrame seq p ++ rest) (4 + p.length) = rest := by
    simp [subarrayFrom, ← encodeFrame_length seq p]
  have h4 : (encodeFrame seq p ++ rest).length ≥ 4 := by omega
  have hnl : ¬ (encodeFrame seq p ++ rest).length < 4 + p.length := by omega
  conv_lhs => unfold namedIdsLoop
  simp only [h4, if_true, h3, hnl, if_false, hpkt, hpay, hrest]

theorem visibleEntry_of_clientId (other : JsString) (st : MysqlPreparedStatement)
    (h : st.clientId ≠ other) : visibleEntry other (some st) = some st := by
  simp [visibleEntry, h]

theorem visibleEntry_own (other : JsString) (st : MysqlPreparedStatement)
    (h : st.clientId = other) : visibleEntry other (some st) = none := by
  simp [visibleEntry, h]

theorem visibleEntry_eq_self (other : JsString) (st : MysqlPreparedStatement)
    (h : visibleEntry other (some st) = some st) : st.clientId ≠ other := by
  intro e
  simp [visibleEntry, e] at h

theorem visibleEntry_eq_none (other : JsString) (st : MysqlPreparedStatement)
    (h : visibleEntry other (some st) = none) : st.clientId = other := by
  by_contra e
  simp [visibleEntry, e] at h

theorem classify_execute (d : Deps) (s : Session) (pkt payload : Buffer) (seq : Nat)
    (hcmd : payload.head? = some 0x17) (hlen : 1 < payload.length) :
    classify d s pkt payload seq = executeCase d s payload := by
  cases payload with
  | nil => simp at hcmd
  | cons b bs =>
    have hb : b = 0x17 := by simpa using hcmd
    subst hb
    have hlen' : (0x17 :: bs : Buffer).length > 1 := hlen
    have hv : (0x17 : Byte).val = 23 := rfl
    unfold classify
    simp only [detectAuthPacket_known d _ _ _ _ _ (show knownCommands.contains (0x17 : Byte).val
      = true from by decide), hlen', if_true]
    simp [hv, COM_STMT_EXECUTE, COM_QUERY, COM_STMT_PREPARE, COM_LONG_DATA]

/-- A frame that is no execute with a statement id is classified without a look
at the registry. -/
theorem classify_store_irrelevant (d : Deps) (s : Session) (pkt payload : Buffer) (seq : Nat)
    (X : Store) (h : ¬ (payload.head? = some 0x17 ∧ 1 < payload.length)) :
    classify d { s with store := X } pkt payload seq =
      ({ (classify d s pkt payload seq).1 with store := X },
        (classify d s pkt payload seq).2) := by
  cases payload with
  | nil => rfl
  | cons b bs =>
    have hb : ¬ (b.val = COM_STMT_EXECUTE ∧ (b :: bs).length > 1) := by
      rintro ⟨e, hl⟩
      apply h
      have : b = 0x17 := Fin.ext e
      exact ⟨by simp [this], hl⟩
    unfold classify
    simp only [detectAuthPacket_exact]
    by_cases h1 : b.val = COM_QUERY ∨ b.val = COM_STMT_PREPARE ∨ b.val = COM_STMT_EXECUTE ∨
        b.val = COM_LONG_DATA
    · simp only [h1, if_true]
      by_cases h2 : (b :: bs).length > 1
      · simp only [h2, if_true]
        by_cases h3 : b.val = COM_QUERY
        · simp only [h3, if_true]
        · simp only [h3, if_false]
          by_cases h4 : b.val = COM_STMT_PREPARE
          · simp only [h4, if_true]
          · simp only [h4, if_false]
            by_cases h5 : b.val = COM_STMT_EXECUTE
            · exact absurd ⟨h5, h2⟩ hb
            · simp only [h5, if_false]
      · simp only [h2, if_false]
    · simp only [h1, if_false]
      cases h6 : d.logNonQueries
      · simp only [Bool.false_eq_true, if_false]
      · simp only [if_true]

theorem executeCase_pending (d : Deps) (s : Session) (payload : Buffer) :
    (executeCase d s payload).1.lastClientCommand = s.lastClientCommand := by
  unfold executeCase
  repeat' split
  all_goals rfl

theorem classify_pending (d : Deps) (s : Session) (pkt payload : Buffer) (seq : Nat)
    (cmd : ClientCommand)
    (h : (classify d s pkt payload seq).1.lastClientCommand = some cmd) :
    cmd.clientId = d.clientId ∨ s.lastClientCommand = some cmd := by
  by_cases hexec : payload.head? = some 0x17 ∧ 1 < payload.length
  · rw [classify_execute d s pkt payload seq hexec.1 hexec.2, executeCase_pending] at h
    exact Or.inr h
  · cases payload with
    | nil => exact Or.inr h
    | cons b bs =>
      have hb : ¬ (b.val = COM_STMT_EXECUTE ∧ (b :: bs).length > 1) := by
        rintro ⟨e, hl⟩
        apply hexec
        have : b = 0x17 := Fin.ext e
        exact ⟨by simp [this], hl⟩
      unfold classify at h
      simp only [detectAuthPacket_exact] at h
      by_cases h1 : b.val = COM_QUERY ∨ b.val = COM_STMT_PREPARE ∨ b.val = COM_STMT_EXECUTE ∨
          b.val = COM_LONG_DATA
      · simp only [h1, if_true] at h
        by_cases h2 : (b :: bs).length > 1
        · simp only [h2, if_true] at h
          by_cases h3 : b.val = COM_QUERY
          · simp only [h3, if_true] at h
            exact Or.inr h
          · simp only [h3, if_false] at h
            by_cases h4 : b.val = COM_STMT_PREPARE
            · simp only [h4, if_true, Option.some.injEq] at h
              left
              rw [← h]
            · simp only [h4, if_false] at h
              by_cases h5 : b.val = COM_STMT_EXECUTE
              · exact absurd ⟨h5, h2⟩ hb
              · simp only [h5, if_false] at h
                exact Or.inr h
        · simp only [h2, if_false] at h
          exact Or.inr h
      · simp only [h1, if_false] at h
        cases h6 : d.logNonQueries
        · simp only [h6, Bool.false_eq_true, if_false] at h
          exact Or.inr h
        · simp only [h6, if_true] at h
          exact Or.inr h

theorem visible_set (other : JsString) (R S : Store) (id : Nat) (st1 : MysqlPreparedStatement)
    (hInv : ∀ k, getStatement S k = visibleEntry other (getStatement R k))
    (hown : st1.clientId ≠ other) :
    ∀ k, getStatement (S.set id st1) k = visibleEntry other (getStatement (R.set id st1) k) := by
  intro k
  by_cases hk : k = id
  · subst hk
    rw [getStatement_set, getStatement_set, visibleEntry_of_clientId other st1 hown]
  · rw [getStatement_set_ne _ _ _ _ hk, getStatement_set_ne _ _ _ _ hk]
    exact hInv k

theorem visible_delete (other : JsString) (R S : Store) (id : Nat)
    (hInv : ∀ k, getStatement S k = visibleEntry other (getStatement R k)) :
    ∀ k, getStatement (deleteStatement S id) k =
      visibleEntry other (getStatement (deleteStatement R id) k) := by
  intro k
  by_cases hk : k = id
  · subst hk
    rw [getStatement_delete, getStatement_delete]
    rfl
  · rw [getStatement_delete_ne _ _ _ hk, getStatement_delete_ne _ _ _ hk]
    exact hInv k

/-- The execute case on the shared registry and on the registry without the
entries of the connection `other`, when the statement named is not one of
them: the same session but for the registry, the same exception, and the two
registries stay in that relation. -/
theorem executeCase_pair (other : JsString) (d : Deps) (s : Session) (R S : Store)
    (payload : Buffer)
    (hInv : ∀ k, getStatement S k = visibleEntry other (getStatement R k))
    (hnamed : ∀ id ∈ namedId 0x17 payload,
      visibleEntry other (getStatement R id) = getStatement R id)
    (hhead : payload.head? = some 0x17) :
    ∃ (t : Session) (R1 S1 : Store) (e : Option JsError),
      executeCase d { s with store := R } payload = ({ t with store := R1 }, e) ∧
      executeCase d { s with store := S } payload = ({ t with store := S1 }, e) ∧
      (∀ k, getStatement S1 k = visibleEntry other (getStatement R1 k)) ∧
      (∀ k, visibleEntry other (getStatement R k) = getStatement R k →
        visibleEntry other (getStatement R1 k) = getStatement R1 k) := by
  cases hid : readUInt32LE payload 1 with
  | error e =>
    refine ⟨s, R, S, some e, ?_, ?_, hInv, fun _ h => h⟩
    · simp only [executeCase, hid]
    · simp only [executeCase, hid]
  | ok id =>
    have hv : visibleEntry other (getStatement R id) = getStatement R id :=
      hnamed id (by simp [namedId, hhead, hid])
    have hS : getStatement S id = getStatement R id := (hInv id).trans hv
    cases hget : getStatement R id with
    | none =>
      refine ⟨{ s with console := s.console ++ [.statementDoesNotExist id] }, R, S, none,
        ?_, ?_, hInv, fun _ h => h⟩
      · simp only [executeCase, hid, hget]
      · simp only [executeCase, hid, hS, hget]
    | some st =>
      have hown : st.clientId ≠ other := by
        rw [hget] at hv
        exact visibleEntry_eq_self other st hv
      cases hset : setExecuteStatementQuery st payload with
      | error e =>
        refine ⟨s, R, S, some e, ?_, ?_, hInv, fun _ h => h⟩
        · simp only [executeCase, hid, hget, hset]
        · simp only [executeCase, hid, hS, hget, hset]
      | ok st1 =>
        have hown1 : st1.clientId ≠ other := by
          rw [setExecuteStatementQuery_clientId st st1 payload hset]
          exact hown
        have hkeep : ∀ k, visibleEntry other (getStatement R k) = getStatement R k →
            visibleEntry other (getStatement (R.set id st1) k) =
              getStatement (R.set id st1) k := by
          intro k hk
          by_cases hkid : k = id
          · subst hkid
            rw [getStatement_set, visibleEntry_of_clientId other st1 hown1]
          · rw [getStatement_set_ne _ _ _ _ hkid]
            exact hk
        cases hq : getQueryWithParameters d.fmt st1 with
        | error e =>
          refine ⟨s, R.set id st1, S.set id st1, some e, ?_, ?_,
            visible_set other R S id st1 hInv hown1, hkeep⟩
          · simp only [executeCase, hid, hget, hset, hq]
          · simp only [executeCase, hid, hS, hget, hset, hq]
        | ok q =>
          refine ⟨{ s with logs := s.logs ++ [.queryLogMessage COM_STMT_EXECUTE q] },
            deleteStatement (R.set id st1) id, deleteStatement (S.set id st1) id, none, ?_, ?_,
            visible_delete other _ _ id (visible_set other R S id st1 hInv hown1), ?_⟩
          · simp only [executeCase, hid, hget, hset, hq]
          · simp only [executeCase, hid, hS, hget, hset, hq]
          · intro k hk
            by_cases hkid : k = id
            · subst hkid
              rw [getStatement_delete]
              rfl
            · rw [getStatement_delete_ne _ _ _ hkid]
              exact hkeep k hk

/-- The execute case of a connection on a statement that is absent or its own:
what the other run sees of the registry does not change. -/
theorem executeCase_view (other : JsString) (d : Deps) (s : Session) (payload : Buffer)
    (hnamed : ∀ id ∈ namedId 0x17 payload,
      visibleEntry other (getStatement s.store id) = none)
    (hhead : payload.head? = some 0x17) :
    ∀ k, visibleEntry other (getStatement (executeCase d s payload).1.store k) =
      visibleEntry other (getStatement s.store k) := by
  intro k
  cases hid : readUInt32LE payload 1 with
  | error e => simp only [executeCase, hid]
  | ok id =>
    have hv : visibleEntry other (getStatement s.store id) = none :=
      hnamed id (by simp [namedId, hhead, hid])
    cases hget : getStatement s.store id with
    | none => simp only [executeCase, hid, hget]
    | some st =>
      have hown : st.clientId = other := by
        rw [hget] at hv
        exact visibleEntry_eq_none other st hv
      cases hset : setExecuteStatementQuery st payload with
      | error e => simp only [executeCase, hid, hget, hset]
      | ok st1 =>
        have hown1 : st1.clientId = other := by
          rw [setExecuteStatementQuery_clientId st st1 payload hset]
          exact hown
        have hsetk : visibleEntry other (getStatement (s.store.set id st1) k) =
            visibleEntry other (getStatement s.store k) := by
          by_cases hkid : k = id
          · subst hkid
            rw [getStatement_set, visibleEntry_own other st1 hown1, hv]
          · rw [getStatement_set_ne _ _ _ _ hkid]
        cases hq : getQueryWithParameters d.fmt st1 with
        | error e =>
          simp only [executeCase, hid, hget, hset, hq]
          exact hsetk
        | ok q =>
          simp only [executeCase, hid, hget, hset, hq]
          by_cases hkid : k = id
          · subst hkid
            rw [getStatement_delete, hv]
            rfl
          · rw [getStatement_delete_ne _ _ _ hkid]
            exact hsetk

theorem classify_pair (other : JsString) (d : Deps) (s : Session) (R S : Store)
    (pkt payload : Buffer) (seq : Nat)
    (hInv : ∀ k, getStatement S k = visibleEntry other (getStatement R k))
    (hnamed : ∀ id ∈ namedId 0x17 payload,
      visibleEntry other (getStatement R id) = getStatement R id) :
    ∃ (t : Session) (R1 S1 : Store) (e : Option JsError),
      classify d { s with store := R } pkt payload seq = ({ t with store := R1 }, e) ∧
      classify d { s with store := S } pkt payload seq = ({ t with store := S1 }, e) ∧
      (∀ k, getStatement S1 k = visibleEntry other (getStatement R1 k)) ∧
      (∀ k, visibleEntry other (getStatement R k) = getStatement R k →
        visibleEntry other (getStatement R1 k) = getStatement R1 k) := by
  by_cases hexec : payload.head? = some 0x17 ∧ 1 < payload.length
  · rw [classify_execute d _ pkt payload seq hexec.1 hexec.2,
      classify_execute d _ pkt payload seq hexec.1 hexec.2]
    exact executeCase_pair other d s R S payload hInv hnamed hexec.1
  · exact ⟨(classify d s pkt payload seq).1, R, S, (classify d s pkt payload seq).2,
      classify_store_irrelevant d s pkt payload seq R hexec,
      classify_store_irrelevant d s pkt payload seq S hexec, hInv, fun _ h => h⟩

theorem classify_view (other : JsString) (d : Deps) (s : Session) (pkt payload : Buffer)
    (seq : Nat)
    (hnamed : ∀ id ∈ namedId 0x17 payload,
      visibleEntry other (getStatement s.store id) = none) :
    ∀ k, visibleEntry other (getStatement (classify d s pkt payload seq).1.store k) =
      visibleEntry other (getStatement s.store k) := by
  by_cases hexec : payload.head? = some 0x17 ∧ 1 < payload.length
  · rw [classify_execute d _ pkt payload seq hexec.1 hexec.2]
    exact executeCase_view other d s payload hnamed hexec.1
  · intro k
    have h := classify_store_irrelevant d s pkt payload seq s.store hexec
    have hs : ({ s with store := s.store } : Session) = s := rfl
    rw [hs] at h
    have hstore : (classify d s pkt payload seq).1.store = s.store := by
      have := congrArg (fun r => r.1.store) h
      simpa using this
    rw [hstore]

theorem clientLoop_frame_threw (d : Deps) (fuel : Nat) (s s1 : Session) (seq : Byte)
    (p rest : Buffer) (e : JsError) (hp : p.length < 2 ^ 24)
    (hbuf : s.clientBuffer = encodeFrame seq p ++ rest)
    (hc : classify d s (encodeFrame seq p) p seq.val = (s1, some e)) :
    clientLoop d (fuel + 1) s = ⟨s1, .threw e⟩ := by
  rw [clientLoop_frame d fuel s seq p rest hp hbuf, hc]

theorem clientLoop_frame_writable (d : Deps) (fuel : Nat) (s s1 : Session) (seq : Byte)
    (p rest : Buffer) (hp : p.length < 2 ^ 24)
    (hbuf : s.clientBuffer = encodeFrame seq p ++ rest)
    (hc : classify d s (encodeFrame seq p) p seq.val = (s1, none))
    (hw : s1.serverWritable = true) :
    clientLoop d (fuel + 1) s = clientLoop d fuel
      { s1 with written := s1.written ++ [encodeFrame seq p], clientBuffer := rest } := by
  rw [clientLoop_frame d fuel s seq p rest hp hbuf, hc]
  show (if s1.serverWritable = true then _ else _) = _
  rw [if_pos hw]

theorem clientLoop_frame_blocked (d : Deps) (fuel : Nat) (s s1 : Session) (seq : Byte)
    (p rest : Buffer) (hp : p.length < 2 ^ 24)
    (hbuf : s.clientBuffer = encodeFrame seq p ++ rest)
    (hc : classify d s (encodeFrame seq p) p seq.val = (s1, none))
    (hw : ¬ s1.serverWritable = true) :
    clientLoop d (fuel + 1) s = ⟨notWritable d s1 p seq.val, .returned⟩ := by
  rw [clientLoop_frame d fuel s seq p rest hp hbuf, hc]
  show (if s1.serverWritable = true then _ else _) = _
  rw [if_neg hw]

theorem clientLoop_pair (other : JsString) (d : Deps) :
    ∀ (fuel : Nat) (s : Session) (R S : Store),
      (∀ k, getStatement S k = visibleEntry other (getStatement R k)) →
      (∀ id ∈ namedIdsLoop 0x17 fuel s.clientBuffer,
        visibleEntry other (getStatement R id) = getStatement R id) →
      ∃ (t : Session) (R1 S1 : Store) (status : Status),
        clientLoop d fuel { s with store := R } = ⟨{ t with store := R1 }, status⟩ ∧
        clientLoop d fuel { s with store := S } = ⟨{ t with store := S1 }, status⟩ ∧
        (∀ k, getStatement S1 k = visibleEntry other (getStatement R1 k)) := by
  intro fuel
  induction fuel with
  | zero =>
    intro s R S hInv _
    exact ⟨s, R, S, .outOfFuel, rfl, rfl, hInv⟩
  | succ n ih =>
    intro s R S hInv hnamed
    by_cases hinc : Incomplete s.clientBuffer
    · exact ⟨s, R, S, .returned, clientLoop_incomplete d n { s with store := R } hinc,
        clientLoop_incomplete d n { s with store := S } hinc, hInv⟩
    · obtain ⟨seq, p, rest, hb, hp⟩ := complete_head s.clientBuffer hinc
      rw [hb, namedIdsLoop_frame 0x17 n seq p rest hp] at hnamed
      obtain ⟨t, R1, S1, e, hcR, hcS, hInv1, hkeep⟩ := classify_pair other d s R S
        (encodeFrame seq p) p seq.val hInv
        (fun id hid => hnamed id (List.mem_append_left _ hid))
      cases e with
      | some err =>
        exact ⟨t, R1, S1, .threw err,
          clientLoop_frame_threw d n { s with store := R } _ seq p rest err hp hb hcR,
          clientLoop_frame_threw d n { s with store := S } _ seq p rest err hp hb hcS, hInv1⟩
      | none =>
        by_cases hw : t.serverWritable = true
        · obtain ⟨t2, R2, S2, status, h1, h2, hInv2⟩ := ih
            { t with written := t.written ++ [encodeFrame seq p], clientBuffer := rest } R1 S1
            hInv1
            (fun id hid => hkeep id (hnamed id (List.mem_append_right _ hid)))
          exact ⟨t2, R2, S2, status,
            (clientLoop_frame_writable d n { s with store := R } _ seq p rest hp hb hcR hw).trans h1,
            (clientLoop_frame_writable d n { s with store := S } _ seq p rest hp hb hcS hw).trans h2,
            hInv2⟩
        · exact ⟨notWritable d t p seq.val, R1, S1, .returned,
            clientLoop_frame_blocked d n { s with store := R } _ seq p rest hp hb hcR hw,
            clientLoop_frame_blocked d n { s with store := S } _ seq p rest hp hb hcS hw, hInv1⟩

theorem clientLoop_view (other : JsString) (d : Deps) :
    ∀ (fuel : Nat) (s : Session),
      (∀ id ∈ namedIdsLoop 0x17 fuel s.clientBuffer,
        visibleEntry other (getStatement s.store id) = none) →
      ∀ k, visibleEntry other (getStatement (clientLoop d fuel s).session.store k) =
        visibleEntry other (getStatement s.store k) := by
  intro fuel
  induction fuel with
  | zero =>
    intro s _ k
    rfl
  | succ n ih =>
    intro s hnamed k
    by_cases hinc : Incomplete s.clientBuffer
    · rw [clientLoop_incomplete d n s hinc]
    · obtain ⟨seq, p, rest, hb, hp⟩ := complete_head s.clientBuffer hinc
      rw [hb, namedIdsLoop_frame 0x17 n seq p rest hp] at hnamed
      have hview := classify_view other d s (encodeFrame seq p) p seq.val
        (fun id hid => hnamed id (List.mem_append_left _ hid))
      rcases hc : classify d s (encodeFrame seq p) p seq.val with ⟨s1, e⟩
      rw [hc] at hview
      cases e with
      | some err =>
        rw [clientLoop_frame_threw d n s s1 seq p rest err hp hb hc]
        exact hview k
      | none =>
        by_cases hw : s1.serverWritable = true
        · rw [clientLoop_frame_writable d n s s1 seq p rest hp hb hc hw]
          have hrest : ∀ id ∈ namedIdsLoop 0x17 n rest,
              visibleEntry other (getStatement s1.store id) = none := by
            intro id hid
            rw [hview id]
            exact hnamed id (List.mem_append_right _ hid)
          exact (ih _ hrest k).trans (hview k)
        · rw [clientLoop_frame_blocked d n s s1 seq p rest hp hb hc hw]
          exact hview k

theorem clientLoop_pending (d : Deps) :
    ∀ (fuel : Nat) (s : Session) (cmd : ClientCommand),
      (clientLoop d fuel s).session.lastClientCommand = some cmd →
      cmd.clientId = d.clientId ∨ s.lastClientCommand = some cmd := by
  intro fuel
  induction fuel with
  | zero =>
    intro s cmd h
    exact Or.inr h
  | succ n ih =>
    intro s cmd h
    by_cases hinc : Incomplete s.clientBuffer
    · rw [clientLoop_incomplete d n s hinc] at h
      exact Or.inr h
    · obtain ⟨seq, p, rest, hb, hp⟩ := complete_head s.clientBuffer hinc
      have hcl := classify_pending d s (encodeFrame seq p) p seq.val cmd
      rcases hc : classify d s (encodeFrame seq p) p seq.val with ⟨s1, e⟩
      rw [hc] at hcl
      cases e with
      | some err =>
        rw [clientLoop_frame_threw d n s s1 seq p rest err hp hb hc] at h
        exact hcl h
      | none =>
        by_cases hw : s1.serverWritable = true
        · rw [clientLoop_frame_writable d n s s1 seq p rest hp hb hc hw] at h
          rcases ih _ cmd h with h1 | h1
          · exact Or.inl h1
          · exact hcl h1
        · rw [clientLoop_frame_blocked d n s s1 seq p rest hp hb hc hw] at h
          exact hcl h

/-- An entry that the connection `other` registers under an id that is absent or
its own is hidden as the entry before it was. -/
theorem visible_set_own (other : JsString) (R : Store) (id : Nat) (st1 : MysqlPreparedStatement)
    (hown : st1.clientId = other)
    (hid : visibleEntry other (getStatement R id) = none) :
    ∀ k, visibleEntry other (getStatement (R.set id st1) k) =
      visibleEntry other (getStatement R k) := by
  intro k
  by_cases hk : k = id
  · subst hk
    rw [getStatement_set, visibleEntry_own other st1 hown, hid]
  · rw [getStatement_set_ne _ _ _ _ hk]

/-- The acknowledgement loop on the shared registry and on the registry without
the entries of the connection `other`, for a pending command of another
connection: the same outcome but for the registry, and the two registries stay in
that relation. -/
theorem prepareLoop_pair (other : JsString) (now : Nat) (cmd : ClientCommand)
    (hown : cmd.clientId ≠ other) :
    ∀ (fuel : Nat) (buffer : Buffer) (l : Option Nat) (R S : Store),
      (∀ k, getStatement S k = visibleEntry other (getStatement R k)) →
      ∃ (out : PrepareOutcome) (R1 S1 : Store),
        prepareLoop now cmd fuel buffer l R = { out with store := R1 } ∧
        prepareLoop now cmd fuel buffer l S = { out with store := S1 } ∧
        (∀ k, getStatement S1 k = visibleEntry other (getStatement R1 k)) := by
  intro fuel
  induction fuel with
  | zero =>
    intro buffer l R S hInv
    exact ⟨⟨buffer, some cmd, l, R, .outOfFuel⟩, R, S, rfl, rfl, hInv⟩
  | succ n ih =>
    intro buffer l R S hInv
    by_cases hinc : Incomplete buffer
    · rw [prepareLoop_incomplete now cmd n buffer l R hinc,
        prepareLoop_incomplete now cmd n buffer l S hinc]
      by_cases h0 : buffer.length = 0
      · rw [if_pos h0, if_pos h0]
        exact ⟨⟨buffer, none, none, R, .returned⟩, R, S, rfl, rfl, hInv⟩
      · rw [if_neg h0, if_neg h0]
        exact ⟨⟨buffer, some cmd, l, R, .returned⟩, R, S, rfl, rfl, hInv⟩
    · obtain ⟨seq, p, rest, hb, hp⟩ := complete_head buffer hinc
      subst hb
      rw [prepareLoop_frame now cmd n seq p rest l R hp,
        prepareLoop_frame now cmd n seq p rest l S hp]
      by_cases h0 : p.head? = some 0x00
      · rw [if_pos h0, if_pos h0]
        cases h1 : readUInt32LE p 1 with
        | error e =>
          exact ⟨⟨encodeFrame seq p ++ rest, some cmd, l, R, .threw e⟩, R, S, rfl, rfl, hInv⟩
        | ok id =>
          cases h2 : readUInt16LE p 7 with
          | error e =>
            exact ⟨⟨encodeFrame seq p ++ rest, some cmd, l, R, .threw e⟩, R, S, rfl, rfl, hInv⟩
          | ok pc =>
            exact ih rest (some id) _ _
              (visible_set other R S id (newStatement now cmd id pc) hInv hown)
      · rw [if_neg h0, if_neg h0]
        exact ih rest l R S hInv

/-- The acknowledgement loop of the connection `other` on ids that are absent or
its own: what the registry shows without the entries of `other` is unchanged. -/
theorem prepareLoop_view (other : JsString) (now : Nat) (cmd : ClientCommand)
    (hown : cmd.clientId = other) :
    ∀ (fuel : Nat) (buffer : Buffer) (l : Option Nat) (R : Store),
      (∀ id ∈ namedIdsLoop 0x00 fuel buffer, visibleEntry other (getStatement R id) = none) →
      ∀ k, visibleEntry other (getStatement (prepareLoop now cmd fuel buffer l R).store k) =
        visibleEntry other (getStatement R k) := by
  intro fuel
  induction fuel with
  | zero =>
    intro buffer l R _ k
    rfl
  | succ n ih =>
    intro buffer l R hnamed k
    by_cases hinc : Incomplete buffer
    · rw [prepareLoop_incomplete now cmd n buffer l R hinc]
      by_cases h0 : buffer.length = 0
      · rw [if_pos h0]
      · rw [if_neg h0]
    · obtain ⟨seq, p, rest, hb, hp⟩ := complete_head buffer hinc
      subst hb
      rw [namedIdsLoop_frame 0x00 n seq p rest hp] at hnamed
      rw [prepareLoop_frame now cmd n seq p rest l R hp]
      by_cases h0 : p.head? = some 0x00
      · rw [if_pos h0]
        cases h1 : readUInt32LE p 1 with
        | error e => rfl
        | ok id =>
          have hid : visibleEntry other (getStatement R id) = none :=
            hnamed id (List.mem_append_left _ (by simp [namedId, h0, h1]))
          cases h2 : readUInt16LE p 7 with
          | error e => rfl
          | ok pc =>
            have hset := visible_set_own other R id (newStatement now cmd id pc) hown hid
            have hrest : ∀ j ∈ namedIdsLoop 0x00 n rest,
                visibleEntry other (getStatement
                  (addStatement R id (newStatement now cmd id pc)) j) = none := by
              intro j hj
              rw [show addStatement R id (newStatement now cmd id pc) =
                R.set id (newStatement now cmd id pc) from rfl, hset j]
              exact hnamed j (List.mem_append_right _ hj)
            exact (ih rest (some id) _ hrest k).trans (hset k)
      · rw [if_neg h0]
        exact ih rest l R (fun j hj => hnamed j (List.mem_append_right _ hj)) k

theorem prepareLoop_pending (now : Nat) (cmd : ClientCommand) :
    ∀ (fuel : Nat) (buffer : Buffer) (l : Option Nat) (R : Store),
      (prepareLoop now cmd fuel buffer l R).lastClientCommand = none ∨
      (prepareLoop now cmd fuel buffer l R).lastClientCommand = some cmd := by
  intro fuel
  induction fuel with
  | zero =>
    intro buffer l R
    exact Or.inr rfl
  | succ n ih =>
    intro buffer l R
    by_cases hinc : Incomplete buffer
    · rw [prepareLoop_incomplete now cmd n buffer l R hinc]
      by_cases h0 : buffer.length = 0
      · rw [if_pos h0]
        exact Or.inl rfl
      · rw [if_neg h0]
        exact Or.inr rfl
    · obtain ⟨seq, p, rest, hb, hp⟩ := complete_head buffer hinc
      subst hb
      rw [prepareLoop_frame now cmd n seq p rest l R hp]
      by_cases h0 : p.head? = some 0x00
      · rw [if_pos h0]
        cases h1 : readUInt32LE p 1 with
        | error e => exact Or.inr rfl
        | ok id =>
          cases h2 : readUInt16LE p 7 with
          | error e => exact Or.inr rfl
          | ok pc => exact ih rest (some id) _
      · rw [if_neg h0]
        exact ih rest l R

theorem withRegistry_congr (a b : Connection) (X : Store)
    (h : withRegistry a [] = withRegistry b []) : withRegistry a X = withRegistry b X := by
  have h1 : withRegistry (withRegistry a []) X = withRegistry (withRegistry b []) X := by
    rw [h]
  exact h1

theorem withRegistry_pending (a b : Connection)
    (h : withRegistry a [] = withRegistry b []) :
    a.session.lastClientCommand = b.session.lastClientCommand := by
  have h1 : (withRegistry a []).session.lastClientCommand =
      (withRegistry b []).session.lastClientCommand := by
    rw [h]
  exact h1

/-- The client handler of a connection on the shared registry and on the registry
without the entries of the connection `other`, when no execute names one of
them: the same connection state but for the registry, the same end, and the
two registries stay in that relation. -/
theorem onClientData_pair (other : JsString) (d : Deps) (c : Connection) (data : Buffer)
    (R S : Store)
    (hInv : ∀ k, getStatement S k = visibleEntry other (getStatement R k))
    (hnamed : ∀ id ∈ namedIds 0x17 (c.session.clientBuffer ++ data),
      visibleEntry other (getStatement R id) = getStatement R id) :
    withRegistry (onClientData d (withRegistry c R) data).1 [] =
      withRegistry (onClientData d (withRegistry c S) data).1 [] ∧
    (onClientData d (withRegistry c R) data).2 = (onClientData d (withRegistry c S) data).2 ∧
    (∀ k, getStatement (onClientData d (withRegistry c S) data).1.session.store k =
      visibleEntry other (getStatement (onClientData d (withRegistry c R) data).1.session.store k))
    := by
  obtain ⟨t, R1, S1, status, h1, h2, hInv1⟩ := clientLoop_pair other d
    ((c.session.clientBuffer ++ data).length / 4 + 1)
    { c.session with clientBuffer := c.session.clientBuffer ++ data } R S hInv hnamed
  have e1 : onClientData d (withRegistry c R) data =
      ({ c with session := { t with store := R1 } }, status) :=
    congrArg (fun o : Outcome => (({ c with session := o.session } : Connection), o.status)) h1
  have e2 : onClientData d (withRegistry c S) data =
      ({ c with session := { t with store := S1 } }, status) :=
    congrArg (fun o : Outcome => (({ c with session := o.session } : Connection), o.status)) h2
  rw [e1, e2]
  exact ⟨rfl, rfl, hInv1⟩

theorem onClientData_view (other : JsString) (d : Deps) (c : Connection) (data : Buffer)
    (hnamed : ∀ id ∈ namedIds 0x17 (c.session.clientBuffer ++ data),
      visibleEntry other (getStatement c.session.store id) = none) :
    ∀ k, visibleEntry other (getStatement (onClientData d c data).1.session.store k) =
      visibleEntry other (getStatement c.session.store k) :=
  clientLoop_view other d ((c.session.clientBuffer ++ data).length / 4 + 1)
    { c.session with clientBuffer := c.session.clientBuffer ++ data } hnamed

theorem onClientData_pending (d : Deps) (c : Connection) (data : Buffer) (cmd : ClientCommand)
    (h : (onClientData d c data).1.session.lastClientCommand = some cmd) :
    cmd.clientId = d.clientId ∨ c.session.lastClientCommand = some cmd :=
  clientLoop_pending d ((c.session.clientBuffer ++ data).length / 4 + 1)
    { c.session with clientBuffer := c.session.clientBuffer ++ data } cmd h

theorem handleStatementPrepareResponse_pair (other : JsString) (now : Nat)
    (data serverResponseBuffer : Buffer) (lastClientCommand : Option ClientCommand)
    (lastStatementId : Option Nat) (R S : Store)
    (hInv : ∀ k, getStatement S k = visibleEntry other (getStatement R k))
    (hpend : ∀ cmd, lastClientCommand = some cmd → cmd.clientId ≠ other) :
    ∃ (out : PrepareOutcome) (R1 S1 : Store),
      handleStatementPrepareResponse now data serverResponseBuffer lastClientCommand
        lastStatementId R = { out with store := R1 } ∧
      handleStatementPrepareResponse now data serverResponseBuffer lastClientCommand
        lastStatementId S = { out with store := S1 } ∧
      (∀ k, getStatement S1 k = visibleEntry other (getStatement R1 k)) ∧
      (∀ cmd, out.lastClientCommand = some cmd → cmd.clientId ≠ other) := by
  cases lastClientCommand with
  | none =>
    exact ⟨⟨serverResponseBuffer, none, lastStatementId, R, .returned⟩, R, S, rfl, rfl, hInv,
      fun cmd h => by cases h⟩
  | some cmd =>
    have hown : cmd.clientId ≠ other := hpend cmd rfl
    by_cases hb : cmd.commandByte = COM_STMT_PREPARE
    · obtain ⟨out, R1, S1, h1, h2, hInv1⟩ := prepareLoop_pair other now cmd hown
        ((serverResponseBuffer ++ data).length / 4 + 1) (serverResponseBuffer ++ data)
        lastStatementId R S hInv
      refine ⟨out, R1, S1, ?_, ?_, hInv1, ?_⟩
      · unfold handleStatementPrepareResponse
        simp only [hb, if_true]
        exact h1
      · unfold handleStatementPrepareResponse
        simp only [hb, if_true]
        exact h2
      · intro cmd1 hc
        have hp := prepareLoop_pending now cmd
          ((serverResponseBuffer ++ data).length / 4 + 1) (serverResponseBuffer ++ data)
          lastStatementId R
        rw [h1] at hp
        rcases hp with hp | hp
        · rw [show out.lastClientCommand = none from hp] at hc
          cases hc
        · rw [show out.lastClientCommand = some cmd from hp] at hc
          cases hc
          exact hown
    · refine ⟨⟨serverResponseBuffer, some cmd, lastStatementId, R, .returned⟩, R, S, ?_, ?_,
        hInv, ?_⟩
      · unfold handleStatementPrepareResponse
        simp only [hb, if_false]
      · unfold handleStatementPrepareResponse
        simp only [hb, if_false]
      · intro cmd1 hc
        cases hc
        exact hown

theorem handleStatementPrepareResponse_view (other : JsString) (now : Nat)
    (data serverResponseBuffer : Buffer) (lastClientCommand : Option ClientCommand)
    (lastStatementId : Option Nat) (R : Store)
    (hpend : ∀ cmd, lastClientCommand = some cmd → cmd.clientId = other)
    (hnamed : ∀ cmd, lastClientCommand = some cmd → cmd.commandByte = COM_STMT_PREPARE →
      ∀ id ∈ namedIds 0x00 (serverResponseBuffer ++ data),
        visibleEntry other (getStatement R id) = none) :
    (∀ k, visibleEntry other (getStatement (handleStatementPrepareResponse now data
        serverResponseBuffer lastClientCommand lastStatementId R).store k) =
      visibleEntry other (getStatement R k)) ∧
    (∀ cmd, (handleStatementPrepareResponse now data serverResponseBuffer lastClientCommand
        lastStatementId R).lastClientCommand = some cmd → cmd.clientId = other) := by
  cases lastClientCommand with
  | none => exact ⟨fun k => rfl, fun cmd h => by cases h⟩
  | some cmd =>
    have hown : cmd.clientId = other := hpend cmd rfl
    by_cases hb : cmd.commandByte = COM_STMT_PREPARE
    · unfold handleStatementPrepareResponse
      simp only [hb, if_true]
      refine ⟨prepareLoop_view other now cmd hown _ _ lastStatementId R (hnamed cmd rfl hb), ?_⟩
      intro cmd1 hc
      rcases prepareLoop_pending now cmd
        ((serverResponseBuffer ++ data).length / 4 + 1) (serverResponseBuffer ++ data)
        lastStatementId R with hp | hp
      · rw [hp] at hc
        cases hc
      · rw [hp] at hc
        cases hc
        exact hown
    · unfold handleStatementPrepareResponse
      simp only [hb, if_false]
      refine ⟨fun _ => trivial, ?_⟩
      intro cmd1 hc
      cases hc
      exact hown

/-- The server handler of a connection on the shared registry and on the registry
without the entries of the connection `other`, when the pending command is not
one of `other`: the same connection state but for the registry, the same end,
and the two registries stay in that relation. -/
theorem onServerData_pair (other : JsString) (d : Deps) (now : Nat) (c : Connection)
    (data : Buffer) (R S : Store)
    (hInv : ∀ k, getStatement S k = visibleEntry other (getStatement R k))
    (hpend : ∀ cmd, c.session.lastClientCommand = some cmd → cmd.clientId ≠ other) :
    withRegistry (onServerData d now (withRegistry c R) data).1 [] =
      withRegistry (onServerData d now (withRegistry c S) data).1 [] ∧
    (onServerData d now (withRegistry c R) data).2 =
      (onServerData d now (withRegistry c S) data).2 ∧
    (∀ k, getStatement (onServerData d now (withRegistry c S) data).1.session.store k =
      visibleEntry other
        (getStatement (onServerData d now (withRegistry c R) data).1.session.store k)) ∧
    (∀ cmd, (onServerData d now (withRegistry c R) data).1.session.lastClientCommand = some cmd →
      cmd.clientId ≠ other) := by
  cases hcw : c.clientWritable with
  | false =>
    have e : ∀ X : Store, onServerData d now (withRegistry c X) data =
        (withRegistry { c with
          session := { c.session with
            console := c.session.console ++ [.clientSocketNotWritable]
            errors := c.session.errors ++
              [.response CLIENT_SOCKET_NOT_WRITABLE d.clientId data
                "Client socket not writable for MySQL response.".toList]
            serverSocketEnded := true
            serverWritable := false } } X, .returned) := by
      intro X
      unfold onServerData
      rw [if_neg (show ¬ (withRegistry c X).clientWritable = true from by
        rw [show (withRegistry c X).clientWritable = c.clientWritable from rfl, hcw]
        exact Bool.false_ne_true)]
      rfl
    rw [e R, e S]
    exact ⟨rfl, rfl, hInv, hpend⟩
  | true =>
    obtain ⟨out, R1, S1, h1, h2, hInv1, hp1⟩ := handleStatementPrepareResponse_pair other now
      data c.serverResponseBuffer c.session.lastClientCommand c.lastStatementId R S hInv hpend
    have e : ∀ X X1 : Store,
        handleStatementPrepareResponse now data c.serverResponseBuffer
          c.session.lastClientCommand c.lastStatementId X = { out with store := X1 } →
        onServerData d now (withRegistry c X) data =
          (match out.status with
            | .returned =>
              (withRegistry { c with
                toClient := c.toClient ++ [data]
                serverResponseBuffer := out.serverResponseBuffer
                lastStatementId := out.lastStatementId
                session := { c.session with lastClientCommand := out.lastClientCommand } } X1,
                Status.returned)
            | status => (withRegistry { c with toClient := c.toClient ++ [data] } X1, status)) := by
      intro X X1 hX
      unfold onServerData
      rw [if_pos (show (withRegistry c X).clientWritable = true from hcw)]
      have hX1 : handleStatementPrepareResponse now data
          (withRegistry c X).serverResponseBuffer (withRegistry c X).session.lastClientCommand
          (withRegistry c X).lastStatementId (withRegistry c X).session.store =
          { out with store := X1 } := hX
      dsimp only
      rw [hX1]
      cases out.status <;> rfl
    rw [e R R1 h1, e S S1 h2]
    cases hst : out.status with
    | returned => exact ⟨rfl, rfl, hInv1, hp1⟩
    | threw err => exact ⟨rfl, rfl, hInv1, hpend⟩
    | outOfFuel => exact ⟨rfl, rfl, hInv1, hpend⟩

/-- The server handler of the connection `other` when its acknowledgements name
ids that are absent or its own: what the registry shows without the entries of
`other` is unchanged, and the pending command stays one of `other`. -/
theorem onServerData_view (other : JsString) (d : Deps) (now : Nat) (c : Connection)
    (data : Buffer)
    (hpend : ∀ cmd, c.session.lastClientCommand = some cmd → cmd.clientId = other)
    (hnamed : ∀ id ∈ acknowledgedIds c data,
      visibleEntry other (getStatement c.session.store id) = none) :
    (∀ k, visibleEntry other (getStatement (onServerData d now c data).1.session.store k) =
      visibleEntry other (getStatement c.session.store k)) ∧
    (∀ cmd, (onServerData d now c data).1.session.lastClientCommand = some cmd →
      cmd.clientId = other) := by
  cases hcw : c.clientWritable with
  | false =>
    unfold onServerData
    rw [if_neg (show ¬ c.clientWritable = true from by rw [hcw]; exact Bool.false_ne_true)]
    exact ⟨fun k => rfl, hpend⟩
  | true =>
    have hview := handleStatementPrepareResponse_view other now data c.serverResponseBuffer
      c.session.lastClientCommand c.lastStatementId c.session.store hpend
      (fun cmd hc hb id hid => hnamed id (by
        unfold acknowledgedIds
        rw [if_pos hcw, hc]
        simp only [hb, if_true]
        exact hid))
    unfold onServerData
    rw [if_pos hcw]
    dsimp only
    cases hst : (handleStatementPrepareResponse now data c.serverResponseBuffer
      c.session.lastClientCommand c.lastStatementId c.session.store).status with
    | returned => exact hview
    | threw err => exact ⟨hview.1, hpend⟩
    | outOfFuel => exact ⟨hview.1, hpend⟩

theorem separate_step (d1 d2 : Deps) (p p1 : Proxy) (e : SocketEvent) (es : List SocketEvent)
    (h : Proxy.separate d1 d2 p (e :: es) = true)
    (hstep : Proxy.step d1 d2 p e = (p1, .returned)) : Proxy.separate d1 d2 p1 es = true := by
  rw [Proxy.separate, Bool.and_eq_true] at h
  have h2 := h.2
  rw [hstep] at h2
  exact h2

theorem separate_firstClient (d1 d2 : Deps) (p : Proxy) (data : Buffer) (es : List SocketEvent)
    (h : Proxy.separate d1 d2 p (.firstClient data :: es) = true) :
    ∀ id ∈ namedIds 0x17 (p.first.session.clientBuffer ++ data),
      visibleEntry d2.clientId (getStatement p.preparedStatements id) =
        getStatement p.preparedStatements id := by
  rw [Proxy.separate, Bool.and_eq_true] at h
  have h1 := h.1
  simp only [SocketEvent.apart, SocketEvent.names, List.all_eq_true, decide_eq_true_eq] at h1
  exact h1

theorem separate_secondClient (d1 d2 : Deps) (p : Proxy) (data : Buffer) (es : List SocketEvent)
    (h : Proxy.separate d1 d2 p (.secondClient data :: es) = true) :
    ∀ id ∈ namedIds 0x17 (p.second.session.clientBuffer ++ data),
      visibleEntry d2.clientId (getStatement p.preparedStatements id) = none := by
  rw [Proxy.separate, Bool.and_eq_true] at h
  have h1 := h.1
  simp only [SocketEvent.apart, SocketEvent.names, List.all_eq_true, decide_eq_true_eq] at h1
  exact h1

theorem separate_secondServer (d1 d2 : Deps) (p : Proxy) (now : Nat) (data : Buffer)
    (es : List SocketEvent)
    (h : Proxy.separate d1 d2 p (.secondServer now data :: es) = true) :
    ∀ id ∈ acknowledgedIds p.second data,
      visibleEntry d2.clientId (getStatement p.preparedStatements id) = none := by
  rw [Proxy.separate, Bool.and_eq_true] at h
  have h1 := h.1
  simp only [SocketEvent.apart, SocketEvent.names, List.all_eq_true, decide_eq_true_eq] at h1
  exact h1

/-- An event of the first connection, handled on the shared registry and on the
registry without the entries of the second connection. -/
theorem step_first_pair (d1 d2 : Deps) (p q : Proxy) (e : SocketEvent)
    (hne : d1.clientId ≠ d2.clientId) (he : e.ofFirst = true)
    (hfirst : withRegistry p.first [] = withRegistry q.first [])
    (hInv : ∀ k, getStatement q.preparedStatements k =
      visibleEntry d2.clientId (getStatement p.preparedStatements k))
    (hpend : ∀ cmd, p.first.session.lastClientCommand = some cmd → cmd.clientId ≠ d2.clientId)
    (hnamed : ∀ data, e = .firstClient data →
      ∀ id ∈ namedIds 0x17 (p.first.session.clientBuffer ++ data),
        visibleEntry d2.clientId (getStatement p.preparedStatements id) =
          getStatement p.preparedStatements id) :
    withRegistry (Proxy.step d1 d2 p e).1.first [] =
      withRegistry (Proxy.step d1 d2 q e).1.first [] ∧
    (∀ k, getStatement (Proxy.step d1 d2 q e).1.preparedStatements k =
      visibleEntry d2.clientId (getStatement (Proxy.step d1 d2 p e).1.preparedStatements k)) ∧
    (Proxy.step d1 d2 p e).2 = (Proxy.step d1 d2 q e).2 ∧
    (∀ cmd, (Proxy.step d1 d2 p e).1.first.session.lastClientCommand = some cmd →
      cmd.clientId ≠ d2.clientId) ∧
    (Proxy.step d1 d2 p e).1.second = p.second := by
  have hq : withRegistry q.first q.preparedStatements =
      withRegistry p.first q.preparedStatements :=
    (withRegistry_congr _ _ _ hfirst).symm
  cases e with
  | firstClient data =>
    obtain ⟨a, b, c⟩ := onClientData_pair d2.clientId d1 p.first data p.preparedStatements
      q.preparedStatements hInv (hnamed data rfl)
    simp only [Proxy.step]
    rw [hq]
    refine ⟨a, c, b, ?_, trivial⟩
    intro cmd hc
    rcases onClientData_pending d1 (withRegistry p.first p.preparedStatements) data cmd hc
      with h1 | h1
    · rw [h1]
      exact hne
    · exact hpend cmd h1
  | firstServer now data =>
    obtain ⟨a, b, c, dd⟩ := onServerData_pair d2.clientId d1 now p.first data
      p.preparedStatements q.preparedStatements hInv hpend
    simp only [Proxy.step]
    rw [hq]
    exact ⟨a, c, b, dd, trivial⟩
  | secondClient data => cases he
  | secondServer now data => cases he

/-- An event of the second connection that names only ids that are absent from
the registry or registered by the second connection itself. -/
theorem step_second_view (d1 d2 : Deps) (p : Proxy) (e : SocketEvent)
    (he : e.ofFirst = false)
    (hpend : ∀ cmd, p.second.session.lastClientCommand = some cmd → cmd.clientId = d2.clientId)
    (hnamed : ∀ id ∈ e.names p,
      visibleEntry d2.clientId (getStatement p.preparedStatements id) = none) :
    (Proxy.step d1 d2 p e).1.first = p.first ∧
    (∀ k, visibleEntry d2.clientId (getStatement (Proxy.step d1 d2 p e).1.preparedStatements k) =
      visibleEntry d2.clientId (getStatement p.preparedStatements k)) ∧
    (∀ cmd, (Proxy.step d1 d2 p e).1.second.session.lastClientCommand = some cmd →
      cmd.clientId = d2.clientId) := by
  cases e with
  | firstClient data => cases he
  | firstServer now data => cases he
  | secondClient data =>
    refine ⟨rfl, onClientData_view d2.clientId d2 (withRegistry p.second p.preparedStatements)
      data hnamed, ?_⟩
    intro cmd hc
    rcases onClientData_pending d2 (withRegistry p.second p.preparedStatements) data cmd hc
      with h1 | h1
    · exact h1
    · exact hpend cmd h1
  | secondServer now data =>
    obtain ⟨a, b⟩ := onServerData_view d2.clientId d2 now
      (withRegistry p.second p.preparedStatements) data hpend hnamed
    exact ⟨rfl, a, b⟩

/-- The run of both connections next to the run of the first connection alone,
on registries that differ by the entries of the second connection only. -/
theorem run_pair (d1 d2 : Deps) (hne : d1.clientId ≠ d2.clientId) :
    ∀ (events : List SocketEvent) (p q : Proxy),
      withRegistry p.first [] = withRegistry q.first [] →
      (∀ k, getStatement q.preparedStatements k =
        visibleEntry d2.clientId (getStatement p.preparedStatements k)) →
      (∀ cmd, p.first.session.lastClientCommand = some cmd → cmd.clientId ≠ d2.clientId) →
      (∀ cmd, p.second.session.lastClientCommand = some cmd → cmd.clientId = d2.clientId) →
      Proxy.separate d1 d2 p events = true →
      withRegistry (Proxy.run d1 d2 p events).1.first [] =
        withRegistry (Proxy.run d1 d2 q
          ((Proxy.handled d1 d2 p events).filter SocketEvent.ofFirst)).1.first [] ∧
      (∀ k, getStatement (Proxy.run d1 d2 q
          ((Proxy.handled d1 d2 p events).filter SocketEvent.ofFirst)).1.preparedStatements k =
        visibleEntry d2.clientId
          (getStatement (Proxy.run d1 d2 p events).1.preparedStatements k)) ∧
      ((Proxy.run d1 d2 p events).2 = .returned →
        Proxy.handled d1 d2 p events = events ∧
        (Proxy.run d1 d2 q
          ((Proxy.handled d1 d2 p events).filter SocketEvent.ofFirst)).2 = .returned) := by
  intro events
  induction events with
  | nil =>
    intro p q hfirst hInv _ _ _
    exact ⟨hfirst, hInv, fun _ => ⟨rfl, rfl⟩⟩
  | cons e es ih =>
    intro p q hfirst hInv hp1 hp2 hsep
    cases he : e.ofFirst with
    | true =>
      obtain ⟨a, b, c, dd, hsec⟩ := step_first_pair d1 d2 p q e hne he hfirst hInv hp1
        (fun data hdata => by
          subst hdata
          exact separate_firstClient d1 d2 p data es hsep)
      rcases hstep : Proxy.step d1 d2 p e with ⟨p1, st⟩
      rcases hstepq : Proxy.step d1 d2 q e with ⟨q1, stq⟩
      rw [hstep, hstepq] at a b c
      rw [hstep] at dd hsec
      have hst : stq = st := c.symm
      subst hst
      cases stq with
      | returned =>
        have hrec := ih p1 q1 a b dd
          (by rw [show p1.second = p.second from hsec]; exact hp2)
          (separate_step d1 d2 p p1 e es hsep hstep)
        simp only [Proxy.run, Proxy.handled, hstep, List.filter_cons_of_pos he, hstepq]
        refine ⟨hrec.1, hrec.2.1, fun hr => ?_⟩
        obtain ⟨h1, h2⟩ := hrec.2.2 hr
        exact ⟨by rw [h1], h2⟩
      | threw err =>
        simp only [Proxy.run, Proxy.handled, hstep, List.filter_cons_of_pos he, List.filter_nil,
          hstepq]
        exact ⟨a, b, fun hr => by cases hr⟩
      | outOfFuel =>
        simp only [Proxy.run, Proxy.handled, hstep, List.filter_cons_of_pos he, List.filter_nil,
          hstepq]
        exact ⟨a, b, fun hr => by cases hr⟩
    | false =>
      have hnamed : ∀ id ∈ e.names p,
          visibleEntry d2.clientId (getStatement p.preparedStatements id) = none := by
        cases e with
        | firstClient data => cases he
        | firstServer now data => cases he
        | secondClient data => exact separate_secondClient d1 d2 p data es hsep
        | secondServer now data => exact separate_secondServer d1 d2 p now data es hsep
      obtain ⟨a, b, c⟩ := step_second_view d1 d2 p e he hp2 hnamed
      rcases hstep : Proxy.step d1 d2 p e with ⟨p1, st⟩
      rw [hstep] at a b c
      have hfirst1 : withRegistry p1.first [] = withRegistry q.first [] := by
        rw [show p1.first = p.first from a]
        exact hfirst
      have hInv1 : ∀ k, getStatement q.preparedStatements k =
          visibleEntry d2.clientId (getStatement p1.preparedStatements k) := by
        intro k
        rw [hInv k]
        exact (b k).symm
      have hne0 : ¬ e.ofFirst = true := by
        rw [he]
        exact Bool.false_ne_true
      cases st with
      | returned =>
        have hrec := ih p1 q hfirst1 hInv1
          (by rw [show p1.first = p.first from a]; exact hp1) c
          (separate_step d1 d2 p p1 e es hsep hstep)
        simp only [Proxy.run, Proxy.handled, hstep, List.filter_cons_of_neg hne0]
        refine ⟨hrec.1, hrec.2.1, fun hr => ?_⟩
        obtain ⟨h1, h2⟩ := hrec.2.2 hr
        exact ⟨by rw [h1], h2⟩
      | threw err =>
        simp only [Proxy.run, Proxy.handled, hstep, List.filter_cons_of_neg hne0,
          List.filter_nil]
        exact ⟨hfirst1, hInv1, fun hr => by cases hr⟩
      | outOfFuel =>
        simp only [Proxy.run, Proxy.handled, hstep, List.filter_cons_of_neg hne0,
          List.filter_nil]
        exact ⟨hfirst1, hInv1, fun hr => by cases hr⟩

/-- C24 (amended): the registry of prepared statements is shared by all sessions,
and the log records of one session are independent of another session's traffic
as long as no session names a statement id that is at that moment registered by
the other one.  For two connections of one proxy with different connection ids
and every interleaving of their socket events, from a start in which the
registry holds no entry registered by the second connection and a pending
command belongs to the connection that holds it: if every id named by an
execute frame of the first connection is at that moment not registered by the
second, and every id named by an execute of the second connection or
acknowledged to it is at that moment absent from the registry or registered by
the second itself, then the first connection ends with the same log records
and the same state, its view of the registry apart, as in the run of its own
events alone, taken among the events handled before an exception ends the
process; the registry of the run alone is the shared registry without the
entries of the second connection; and when the run of both returns, every event
was handled and the run alone returns as well. -/
theorem C24_sessions_apart_in_statement_ids_do_not_interfere (d1 d2 : Deps) (p : Proxy)
    (events : List SocketEvent)
    (hids : d1.clientId ≠ d2.clientId)
    (hregistry : ∀ id, visibleEntry d2.clientId (getStatement p.preparedStatements id) =
      getStatement p.preparedStatements id)
    (hfirst : ∀ cmd, p.first.session.lastClientCommand = some cmd → cmd.clientId ≠ d2.clientId)
    (hsecond : ∀ cmd, p.second.session.lastClientCommand = some cmd → cmd.clientId = d2.clientId)
    (hseparate : Proxy.separate d1 d2 p events = true) :
    (Proxy.run d1 d2 p events).1.first.session.logs =
      (Proxy.run d1 d2 p
        ((Proxy.handled d1 d2 p events).filter SocketEvent.ofFirst)).1.first.session.logs ∧
    withRegistry (Proxy.run d1 d2 p events).1.first [] =
      withRegistry (Proxy.run d1 d2 p
        ((Proxy.handled d1 d2 p events).filter SocketEvent.ofFirst)).1.first [] ∧
    (∀ id, getStatement (Proxy.run d1 d2 p
        ((Proxy.handled d1 d2 p events).filter SocketEvent.ofFirst)).1.preparedStatements id =
      visibleEntry d2.clientId
        (getStatement (Proxy.run d1 d2 p events).1.preparedStatements id)) ∧
    ((Proxy.run d1 d2 p events).2 = .returned →
      Proxy.handled d1 d2 p events = events ∧
      (Proxy.run d1 d2 p (events.filter SocketEvent.ofFirst)).2 = .returned) := by
  obtain ⟨h1, h2, h3⟩ := run_pair d1 d2 hids events p p rfl
    (fun k => (hregistry k).symm) hfirst hsecond hseparate
  refine ⟨?_, h1, h2, fun hr => ?_⟩
  · have hl : (withRegistry (Proxy.run d1 d2 p events).1.first []).session.logs =
        (withRegistry (Proxy.run d1 d2 p
          ((Proxy.handled d1 d2 p events).filter SocketEvent.ofFirst)).1.first []).session.logs := by
      rw [h1]
    exact hl
  · obtain ⟨h4, h5⟩ := h3 hr
    rw [h4] at h5
    exact ⟨h4, h5⟩

theorem C24_sessions_apart_witness :
    Proxy.separate sampleDeps otherDeps {} separateEvents = true ∧
    (Proxy.run sampleDeps otherDeps {} separateEvents).1.first.session.logs =
      (Proxy.run sampleDeps otherDeps {}
        ((Proxy.handled sampleDeps otherDeps {} separateEvents).filter
          SocketEvent.ofFirst)).1.first.session.logs ∧
    (Proxy.run sampleDeps otherDeps {} separateEvents).1.first.session.logs =
      [.queryLogMessage COM_STMT_EXECUTE "SELECT 1".toList] ∧
    (Proxy.run sampleDeps otherDeps {} separateEvents).1.second.session.logs =
      [.queryLogMessage COM_STMT_EXECUTE "SELECT 2".toList,
       .queryLogMessage COM_STMT_EXECUTE "SELECT 2".toList] :=
  ⟨by decide,
    (C24_sessions_apart_in_statement_ids_do_not_interfere sampleDeps otherDeps {} separateEvents
      (by decide) (fun _ => rfl) (fun _ h => nomatch h) (fun _ h => nomatch h) (by decide)).1,
    by decide, by decide⟩

/-- The comparison is with the events that were handled: when a handler of the
second connection raises, the run ends, and the frames that the first connection
sends afterwards are logged only in the run of the first connection alone. -/
theorem raise_of_the_second_connection_ends_the_run :
    Proxy.separate sampleDeps otherDeps {} raisingEvents = true ∧
    (Proxy.run sampleDeps otherDeps {} raisingEvents).2 = .threw .rangeError ∧
    (Proxy.run sampleDeps otherDeps {} raisingEvents).1.first.session.logs =
      [.queryLogMessage COM_STMT_EXECUTE "SELECT 1".toList] ∧
    (Proxy.run sampleDeps otherDeps {}
      (raisingEvents.filter SocketEvent.ofFirst)).1.first.session.logs =
      [.queryLogMessage COM_STMT_EXECUTE "SELECT 1".toList,
       .queryLogMessage COM_QUERY "SELECT 3".toList] := by
  decide

end ProxyDbq
